import Mathlib

/-!
# USBPcapHelper: device locator, capture session and frame decoder

A shallow embedding of `src/USBPcapHelper.cpp` and of the hub enumeration, the
registry walks and the configuration output of `src/enum.cpp`, and the
properties proved about them.

Conventions of the embedding.
* A C++ method of `USBPcapHelper` is a function that takes the object state and
  returns the new state with its result and the operating-system calls it made.
* Operating-system answers (open result, control-request results, wait results,
  hub topology) are explicit inputs.
* Callbacks are recorded as events, in call order.
-/

namespace USBPcap

/-! ## Definitions -/

/-- One octet of a capture buffer. -/
abbrev Byte := Fin 256

/-- Sizes, field offsets and the function code declared in `USBPcap.h`, which is
not among the sources: `sizeof(pcap_hdr_s)`, `sizeof(pcaprec_hdr_s)`,
`sizeof(USBPCAP_BUFFER_PACKET_HEADER)`, the offsets of `function` (16 bit) and
`dataLength` (32 bit) inside the packet header, and
`URB_FUNCTION_BULK_OR_INTERRUPT_TRANSFER`. -/
structure WireLayout where
  sizeof_pcap_hdr_s : Nat
  sizeof_pcaprec_hdr_s : Nat
  sizeof_packet_header : Nat
  offset_function : Nat
  offset_dataLength : Nat
  URB_FUNCTION_BULK_OR_INTERRUPT_TRANSFER : Nat
  deriving Repr, DecidableEq

/-- Size of `struct DataHeader { pcaprec_hdr_s recordHeader;
USBPCAP_BUFFER_PACKET_HEADER packetHeader; }`. -/
def WireLayout.sizeof_DataHeader (L : WireLayout) : Nat :=
  L.sizeof_pcaprec_hdr_s + L.sizeof_packet_header

/-- Modelled from the spec: the layout of `USBPcap.h` (absent from the sources).
The spec fixes the global header at 16 bytes; the remaining numbers are those
of the USBPcap capture format (16-byte record header, packed 27-byte packet
header with `function` at offset 14 and `dataLength` at offset 23, function
code 9). -/
def specLayout : WireLayout where
  sizeof_pcap_hdr_s := 16
  sizeof_pcaprec_hdr_s := 16
  sizeof_packet_header := 27
  offset_function := 14
  offset_dataLength := 23
  URB_FUNCTION_BULK_OR_INTERRUPT_TRANSFER := 9

/-- Little-endian value of the `n` bytes of `mem` starting at `off`
(a byte outside `mem` reads as 0). -/
def readLE (mem : List Byte) (off : Nat) : Nat → Nat
  | 0 => 0
  | n + 1 => (mem.getD off 0).val + 256 * readLE mem (off + 1) n

/-- The value of `header.packetHeader.function` once `header` holds the first
`sizeof(DataHeader)` bytes of `buffer`. -/
def packetFunction (L : WireLayout) (buffer : List Byte) : Nat :=
  readLE (buffer.take L.sizeof_DataHeader) (L.sizeof_pcaprec_hdr_s + L.offset_function) 2

/-- The value of `header.packetHeader.dataLength` once `header` holds the first
`sizeof(DataHeader)` bytes of `buffer`. -/
def packetDataLength (L : WireLayout) (buffer : List Byte) : Nat :=
  readLE (buffer.take L.sizeof_DataHeader) (L.sizeof_pcaprec_hdr_s + L.offset_dataLength) 4

/-- One call `processInterruptData(buffer + offset, length)`: the pointer is
kept as its offset from the start of the read buffer. -/
structure InterruptCall where
  offset : Nat
  length : Nat
  deriving Repr, DecidableEq

/-- The bytes of the read buffer that a call's pointer/length pair designates. -/
def InterruptCall.payload (c : InterruptCall) (buffer : List Byte) : List Byte :=
  (buffer.drop c.offset).take c.length

/-- A Windows `HANDLE`: `INVALID_HANDLE_VALUE` or a live handle. -/
inductive HANDLE where
  | INVALID_HANDLE_VALUE
  | valid (id : Nat)
  deriving Repr, DecidableEq

/-- `USB_CONNECTION_STATUS`: the values `EnumerateHubPorts` tells apart, and the
remaining ones (failed enumeration, over-current, ...) gathered in `other`. -/
inductive USB_CONNECTION_STATUS where
  | NoDeviceConnected
  | DeviceConnected
  | other (code : Nat)
  deriving Repr, DecidableEq

/-- The fields of `USB_DEVICE_DESCRIPTOR` that the port visitor reads. -/
structure USB_DEVICE_DESCRIPTOR where
  idVendor : Nat
  idProduct : Nat
  deriving Repr, DecidableEq

/-- The fields of `USB_NODE_CONNECTION_INFORMATION` that the enumeration reads. -/
structure USB_NODE_CONNECTION_INFORMATION where
  ConnectionStatus : USB_CONNECTION_STATUS
  DeviceAddress : Nat
  DeviceDescriptor : USB_DEVICE_DESCRIPTOR
  DeviceIsHub : Bool
  deriving Repr, DecidableEq

mutual
/-- What the operating system answers about one hub.
`unavailable`: the hub cannot be enumerated (no external hub name, allocation
or open failure, or the node-information request fails).
`node ports`: the hub opens and declares `bNumberOfPorts = length ports`. -/
inductive Hub where
  | unavailable
  | node (ports : Ports)
/-- The ports of a hub, port 1 first. -/
inductive Ports where
  | nil
  | cons (p : Port) (rest : Ports)
/-- What the operating system answers about one port.
`queryFailed`: the connection-information request fails.
`conn info driverKey ext`: it succeeds with `info`; `driverKey` tells whether
`GetDriverKeyName` yields a name, `ext` is the hub behind the port. -/
inductive Port where
  | queryFailed
  | conn (info : USB_NODE_CONNECTION_INFORMATION) (driverKey : Bool) (ext : Hub)
end

/-- One call `PrintDeviceDesc(driverKeyName, Index, Level, PrintAllChildren,
deviceAddress, parentAddress, print_callback)` made by `EnumerateHubPorts`. -/
structure PrintDeviceDescCall where
  Index : Nat
  Level : Nat
  PrintAllChildren : Bool
  deviceAddress : Nat
  parentAddress : Nat
  deriving Repr, DecidableEq

/-- The mutable surroundings of a hub pass: the context `port_ctx` handed to the
port visitor and the calls made on behalf of the print visitor. -/
structure EnumState (σ : Type) where
  port_ctx : σ
  printed : List PrintDeviceDescCall

/-- An `EnumConnectedPortCallback` with the hub handle left out:
port index, device address, descriptor, context. -/
abbrev EnumConnectedPortCallback (σ : Type) :=
  Nat → Nat → USB_DEVICE_DESCRIPTOR → σ → σ

/-- The block `if (print_callback) { ... }` of the loop body of
`EnumerateHubPorts`: with a print visitor and a driver key name, one call of
`PrintDeviceDesc`. -/
def printVisitorStep {σ : Type} (print_callback driverKey : Bool)
    (connectionInfo : USB_NODE_CONNECTION_INFORMATION) (index level hubAddress : Nat)
    (st : EnumState σ) : EnumState σ :=
  if print_callback ∧ driverKey then
    { st with printed := st.printed ++
        [⟨index, level, !connectionInfo.DeviceIsHub,
          connectionInfo.DeviceAddress, hubAddress⟩] }
  else st

/-- The block `if ((ConnectionStatus == DeviceConnected) && port_callback)
{ ... }` of the loop body of `EnumerateHubPorts`. -/
def portVisitorStep {σ : Type} (port_callback : Option (EnumConnectedPortCallback σ))
    (connectionInfo : USB_NODE_CONNECTION_INFORMATION) (index : Nat)
    (st : EnumState σ) : EnumState σ :=
  match port_callback with
  | some cb =>
      if connectionInfo.ConnectionStatus = .DeviceConnected then
        { st with
          port_ctx := cb index connectionInfo.DeviceAddress
            connectionInfo.DeviceDescriptor st.port_ctx }
      else st
  | none => st

mutual
/-- `EnumerateHub(hub, connection_info, level, print_callback, port_callback,
port_ctx)`; `print_callback` is kept as the flag "is not NULL". -/
def EnumerateHub {σ : Type} (print_callback : Bool)
    (port_callback : Option (EnumConnectedPortCallback σ)) :
    Hub → Option USB_NODE_CONNECTION_INFORMATION → Nat → EnumState σ → EnumState σ
  | .unavailable, _, _, st => st
  | .node ports, connection_info, level, st =>
      EnumerateHubPorts print_callback port_callback ports 1 level
        (match connection_info with
          | none => 0
          | some ci => ci.DeviceAddress) st
/-- The loop `for (index = ...; index <= NumPorts; index++)` of
`EnumerateHubPorts`, entered at `index` with the ports from `index` on. -/
def EnumerateHubPorts {σ : Type} (print_callback : Bool)
    (port_callback : Option (EnumConnectedPortCallback σ)) :
    Ports → Nat → Nat → Nat → EnumState σ → EnumState σ
  | .nil, _, _, _, st => st
  | .cons p rest, index, level, hubAddress, st =>
      EnumerateHubPorts print_callback port_callback rest (index + 1) level hubAddress
        (EnumeratePort print_callback port_callback p index level hubAddress st)
/-- The body of the loop of `EnumerateHubPorts` for the port `index`. -/
def EnumeratePort {σ : Type} (print_callback : Bool)
    (port_callback : Option (EnumConnectedPortCallback σ)) :
    Port → Nat → Nat → Nat → EnumState σ → EnumState σ
  | .queryFailed, _, _, _, st => st
  | .conn connectionInfo driverKey ext, index, level, hubAddress, st =>
      if connectionInfo.ConnectionStatus ≠ .NoDeviceConnected then
        let st2 := portVisitorStep port_callback connectionInfo index
          (printVisitorStep print_callback driverKey connectionInfo index level hubAddress st)
        if connectionInfo.DeviceIsHub then
          EnumerateHub print_callback port_callback ext (some connectionInfo) (level + 1) st2
        else st2
      else st
end

/-- The device address `EnumerateHub` hands to `EnumerateHubPorts` as
`hubAddress`: 0 when `connection_info` is NULL. -/
def hubAddressOf : Option USB_NODE_CONNECTION_INFORMATION → Nat
  | none => 0
  | some ci => ci.DeviceAddress

/-- One entry of the NULL-terminated table `usbpcapFilters`: the endpoint address
`device`, whether `get_usbpcap_filter_hub_symlink` yields a symlink for it, and
the root hub behind that symlink. -/
structure FilterEntry where
  device : String
  hubSymlink : Bool
  rootHub : Hub

/-- `enumerate_all_connected_devices(filter, cb, ctx)`. -/
def enumerate_all_connected_devices {σ : Type} (filter : FilterEntry)
    (cb : EnumConnectedPortCallback σ) (ctx : σ) : σ :=
  if filter.hubSymlink then
    (EnumerateHub false (some cb) filter.rootHub none 0 ⟨ctx, []⟩).port_ctx
  else ctx

/-- `struct FindDeviceContext`. -/
structure FindDeviceContext where
  idVendor : Nat
  idProduct : Nat
  indexFound : Nat
  deriving Repr, DecidableEq

/-- The lambda `findConnectedDevice` of `findDevice` (its context is never null
there, so the null test is not represented). -/
def findConnectedDevice : EnumConnectedPortCallback FindDeviceContext :=
  fun port _deviceAddress desc device =>
    if desc.idVendor = device.idVendor ∧ desc.idProduct = device.idProduct then
      { device with indexFound := port }
    else device

/-- One invocation of the port visitor: port index, device address, descriptor. -/
structure PortVisit where
  port : Nat
  deviceAddress : Nat
  desc : USB_DEVICE_DESCRIPTOR
  deriving Repr, DecidableEq

/-- A port visitor that only records its invocations, in order. -/
def recordVisit : EnumConnectedPortCallback (List PortVisit) :=
  fun port deviceAddress desc log => log ++ [⟨port, deviceAddress, desc⟩]

/-- The port visitor `cb` invoked for the visit `v` on the context `ctx`. -/
def PortVisit.apply {σ : Type} (cb : EnumConnectedPortCallback σ) (ctx : σ) (v : PortVisit) : σ :=
  cb v.port v.deviceAddress v.desc ctx

/-- The invocations of the port visitor during the hub pass of one endpoint. -/
def passVisits (filter : FilterEntry) : List PortVisit :=
  enumerate_all_connected_devices filter recordVisit []

/-- The invocations of the port visitor that `EnumerateHub` makes, in order. -/
def hubVisits (h : Hub) (ci : Option USB_NODE_CONNECTION_INFORMATION) (level : Nat) :
    List PortVisit :=
  (EnumerateHub false (some recordVisit) h ci level ⟨[], []⟩).port_ctx

/-- The invocations of the port visitor that the loop of `EnumerateHubPorts`
makes from port `index` on, in order. -/
def portsVisits (ports : Ports) (index level hubAddress : Nat) : List PortVisit :=
  (EnumerateHubPorts false (some recordVisit) ports index level hubAddress ⟨[], []⟩).port_ctx

/-- The invocations of the port visitor that the loop body makes for one port,
the hub behind it included, in order. -/
def portVisits (p : Port) (index level hubAddress : Nat) : List PortVisit :=
  (EnumeratePort false (some recordVisit) p index level hubAddress ⟨[], []⟩).port_ctx

/-- The calls of `PrintDeviceDesc` that `EnumerateHub` makes, in order, with a
print visitor set (`print_callback = true`) or not. -/
def hubPrinted (print_callback : Bool) (h : Hub)
    (ci : Option USB_NODE_CONNECTION_INFORMATION) (level : Nat) : List PrintDeviceDescCall :=
  (EnumerateHub print_callback (none : Option (EnumConnectedPortCallback Unit)) h ci level
    ⟨(), []⟩).printed

/-- The calls of `PrintDeviceDesc` that the loop of `EnumerateHubPorts` makes
from port `index` on, in order. -/
def portsPrinted (print_callback : Bool) (ports : Ports) (index level hubAddress : Nat) :
    List PrintDeviceDescCall :=
  (EnumerateHubPorts print_callback (none : Option (EnumConnectedPortCallback Unit)) ports
    index level hubAddress ⟨(), []⟩).printed

/-- The calls of `PrintDeviceDesc` that the loop body makes for one port, the
hub behind it included, in order. -/
def portPrinted (print_callback : Bool) (p : Port) (index level hubAddress : Nat) :
    List PrintDeviceDescCall :=
  (EnumeratePort print_callback (none : Option (EnumConnectedPortCallback Unit)) p
    index level hubAddress ⟨(), []⟩).printed

/-- No port of the hub carries a hub. -/
def Ports.flat : Ports → Bool
  | .nil => true
  | .cons .queryFailed rest => rest.flat
  | .cons (.conn info _ _) rest => !info.DeviceIsHub && rest.flat

/-- The visits the spec asks of a hub pass over the ports from `index` on, the
hubs behind them left aside: one for each port whose query succeeds with status
`DeviceConnected`, carrying the port's index, device address and descriptor. -/
def connectedPortVisits : Ports → Nat → List PortVisit
  | .nil, _ => []
  | .cons .queryFailed rest, index => connectedPortVisits rest (index + 1)
  | .cons (.conn info _ _) rest, index =>
      (if info.ConnectionStatus = .DeviceConnected then
        [⟨index, info.DeviceAddress, info.DeviceDescriptor⟩]
      else []) ++ connectedPortVisits rest (index + 1)

/-- A visit whose descriptor carries the target vendor and product ids. -/
def PortVisit.isTarget (idVendor idProduct : Nat) (v : PortVisit) : Bool :=
  decide (v.desc.idVendor = idVendor ∧ v.desc.idProduct = idProduct)

/-- The hub pass of `filter` reports a connected port with the target ids. -/
def reportsTarget (idVendor idProduct : Nat) (filter : FilterEntry) : Bool :=
  (passVisits filter).any (PortVisit.isTarget idVendor idProduct)

/-- The operating-system calls the session makes, as recorded events. -/
inductive SysCall where
  | CreateFileA (deviceAddr : Option String)
  | SET_SNAPLEN_SIZE (h : HANDLE) (snaplen : Nat)
  | SETUP_BUFFER (h : HANDLE) (bufferlen : Nat)
  | START_FILTERING (h : HANDLE)
  | CloseHandle (h : HANDLE)
  | detachReadThread
  | CreateEvent
  | ReadFile (h : HANDLE) (bufferlen : Nat)
  | CancelIo (h : HANDLE)
  | CloseEvent
  deriving Repr, DecidableEq

/-- The answers of the operating system to one `start()`. -/
structure StartEnv where
  USBPcapInitAddressFilter : Bool
  CreateFileA : HANDLE
  setSnaplen : Bool
  setupBuffer : Bool
  startFiltering : Bool
  deriving Repr, DecidableEq

/-- What `WaitForSingleObject(readHandle, INFINITE)` returns. For
`WAIT_OBJECT_0` the bytes the completed read delivered come with it. -/
inductive WaitResult where
  | WAIT_OBJECT_0 (data : List Byte)
  | WAIT_FAILED
  | other
  deriving Repr, DecidableEq

/-- What happens around the read loop: the caller's thread runs `stop()`, or the
wait of the loop returns. -/
inductive LoopEvent where
  | callerStop
  | wait (r : WaitResult)
  deriving Repr, DecidableEq

end USBPcap

/-- The data members of `class USBPcapHelper` (`src/USBPcapHelper.h`). -/
structure USBPcapHelper where
  snaplen : Nat
  bufferlen : Nat
  deviceAddr : Option String
  deviceHandle : USBPcap.HANDLE
  running : Bool
  deriving Repr, DecidableEq

namespace USBPcapHelper
open USBPcap

/-- `DEFAULT_SNAPSHOT_LENGTH`. -/
def DEFAULT_SNAPSHOT_LENGTH : Nat := 65535

/-- `DEFAULT_INTERNAL_KERNEL_BUFFER_SIZE`. -/
def DEFAULT_INTERNAL_KERNEL_BUFFER_SIZE : Nat := 1024 * 1024

/-- The constructor `USBPcapHelper::USBPcapHelper()`: the default member
initialisers apply; `deviceHandle` has none, so its value is whatever the
storage held (`indeterminate`). -/
def init (indeterminate : HANDLE) : USBPcapHelper where
  snaplen := DEFAULT_SNAPSHOT_LENGTH
  bufferlen := DEFAULT_INTERNAL_KERNEL_BUFFER_SIZE
  deviceAddr := none
  deviceHandle := indeterminate
  running := false

/-- `USBPcapHelper::processRawData(buffer, bytes)`.
`buffer` is the whole read buffer and `bytes` the count the read reported.
The result is `none` when the `memcpy` of the header would read past the end of
`buffer`; otherwise the object state afterwards and the calls made to
`processInterruptData`, in order.  (`bytes -= sizeof(header)` is computed by the
source and never used again, so it has no counterpart here.) -/
def processRawData (L : WireLayout) (self : USBPcapHelper) (buffer : List Byte) (bytes : Nat) :
    Option (USBPcapHelper × List InterruptCall) :=
  if bytes = L.sizeof_pcap_hdr_s then
    some (self, [])
  else if buffer.length < L.sizeof_DataHeader then
    none
  else if packetFunction L buffer ≠ L.URB_FUNCTION_BULK_OR_INTERRUPT_TRANSFER ∨
      packetDataLength L buffer = 0 then
    some (self, [])
  else
    some (self, [⟨L.sizeof_DataHeader, packetDataLength L buffer⟩])

/-- What `findDevice` leaves behind: the object state, the returned value and
the endpoints on which a hub pass was run, in order. -/
structure FindResult where
  self : USBPcapHelper
  ret : Bool
  passes : List String

/-- The loop `while (usbpcapFilters[i] != NULL)` of `findDevice`, entered with
the filters from `i` on and the find context `device`. -/
def findDeviceLoop (self : USBPcapHelper) :
    List FilterEntry → FindDeviceContext → FindResult
  | [], _ => ⟨self, false, []⟩
  | f :: rest, device =>
      let device1 := enumerate_all_connected_devices f findConnectedDevice device
      if device1.indexFound > 0 then
        ⟨{ self with deviceAddr := some f.device }, true, [f.device]⟩
      else
        let r := findDeviceLoop self rest device1
        ⟨r.self, r.ret, f.device :: r.passes⟩

/-- `USBPcapHelper::findDevice(idVendor, idProduct)`. `usbpcapFilters` is the
table `filters_initialize()` fills, `upperFilterInstalled` the answer of
`is_usbpcap_upper_filter_installed()`. -/
def findDevice (self : USBPcapHelper) (usbpcapFilters : List FilterEntry)
    (upperFilterInstalled : Bool) (idVendor idProduct : Nat) : FindResult :=
  if usbpcapFilters.isEmpty = true ∧ upperFilterInstalled = false then
    ⟨self, false, []⟩
  else
    findDeviceLoop self usbpcapFilters ⟨idVendor, idProduct, 0⟩

/-- What `start()` leaves behind: the object state, the returned value and the
operating-system calls made, in order. -/
structure StartResult where
  self : USBPcapHelper
  ret : Bool
  sys : List SysCall
  deriving Repr, DecidableEq

/-- The label `FINISH:` of `start()`, reached with the calls `sys` made so far. -/
def startFINISH (self : USBPcapHelper) (sys : List SysCall) : StartResult :=
  if self.deviceHandle ≠ HANDLE.INVALID_HANDLE_VALUE then
    ⟨self, false, sys ++ [SysCall.CloseHandle self.deviceHandle]⟩
  else
    ⟨self, false, sys⟩

/-- `USBPcapHelper::start()`. -/
def start (self : USBPcapHelper) (env : StartEnv) : StartResult :=
  if env.USBPcapInitAddressFilter = false then
    ⟨self, false, []⟩
  else
    let self1 := { self with deviceHandle := env.CreateFileA }
    let sys1 := [SysCall.CreateFileA self.deviceAddr]
    if self1.deviceHandle = HANDLE.INVALID_HANDLE_VALUE then
      ⟨self1, false, sys1⟩
    else
      let sys2 := sys1 ++ [SysCall.SET_SNAPLEN_SIZE self1.deviceHandle self1.snaplen]
      if env.setSnaplen = false then startFINISH self1 sys2
      else
        let sys3 := sys2 ++ [SysCall.SETUP_BUFFER self1.deviceHandle self1.bufferlen]
        if env.setupBuffer = false then startFINISH self1 sys3
        else
          let sys4 := sys3 ++ [SysCall.START_FILTERING self1.deviceHandle]
          if env.startFiltering = false then startFINISH self1 sys4
          else
            ⟨{ self1 with running := true }, true, sys4 ++ [SysCall.detachReadThread]⟩

/-- `USBPcapHelper::stop()`. -/
def stop (self : USBPcapHelper) : USBPcapHelper :=
  { self with running := false }

/-- `USBPcapHelper::isRunning()`. -/
def isRunning (self : USBPcapHelper) : Bool :=
  self.running

/-- The state of the read thread: the object, the read buffer, whether the
thread has left its loop and run its teardown, the payloads handed to
`processInterruptData` and the operating-system calls made, in order. -/
structure LoopResult where
  self : USBPcapHelper
  buffer : List Byte
  exited : Bool
  delivered : List (List Byte)
  sys : List SysCall
  deriving Repr, DecidableEq

/-- The read buffer once a read has completed with `data`: the bytes read
overwrite the start of the buffer, the rest keeps what it held. -/
def fillBuffer (buffer data : List Byte) : List Byte :=
  data.take buffer.length ++ buffer.drop data.length

/-- The statements after the loop of `readDataFromDevice`. -/
def readTeardown (self : USBPcapHelper) (buffer : List Byte)
    (delivered : List (List Byte)) (sys : List SysCall) : LoopResult :=
  ⟨self, buffer, true, delivered,
    sys ++ [SysCall.CancelIo self.deviceHandle, SysCall.CloseHandle self.deviceHandle,
      SysCall.CloseEvent]⟩

/-- The loop `while (running)` of `readDataFromDevice` from the point where the
thread sits in `WaitForSingleObject`, driven by what happens next: a `stop()`
on the caller's thread lowers the flag and leaves the thread waiting; a return
of the wait is handled and followed at once by the test of the flag at the loop
head. With no event left the thread is still waiting (`exited = false`). The
result is `none` when `processRawData` would read past the buffer. -/
def readWait (L : WireLayout) (self : USBPcapHelper) (buffer : List Byte)
    (delivered : List (List Byte)) (sys : List SysCall) :
    List LoopEvent → Option LoopResult
  | [] => some ⟨self, buffer, false, delivered, sys⟩
  | .callerStop :: rest => readWait L (stop self) buffer delivered sys rest
  | .wait (.WAIT_OBJECT_0 data) :: rest =>
      let buffer1 := fillBuffer buffer data
      match processRawData L self buffer1 (min data.length buffer.length) with
      | none => none
      | some (self1, calls) =>
          let delivered1 := delivered ++ calls.map (fun c => c.payload buffer1)
          let sys1 := sys ++ [SysCall.ReadFile self1.deviceHandle self1.bufferlen]
          if self1.running then readWait L self1 buffer1 delivered1 sys1 rest
          else some (readTeardown self1 buffer1 delivered1 sys1)
  | .wait .WAIT_FAILED :: _ => some (readTeardown self buffer delivered sys)
  | .wait .other :: rest =>
      if self.running then readWait L self buffer delivered sys rest
      else some (readTeardown self buffer delivered sys)

/-- `USBPcapHelper::readDataFromDevice()`, the body of the read thread: the
buffer is allocated and zeroed, the first read submitted, and the loop entered
with the test of the flag. -/
def readDataFromDevice (L : WireLayout) (self : USBPcapHelper)
    (events : List LoopEvent) : Option LoopResult :=
  if self.running then
    readWait L self (List.replicate self.bufferlen 0) []
      [SysCall.CreateEvent, SysCall.ReadFile self.deviceHandle self.bufferlen] events
  else
    some (readTeardown self (List.replicate self.bufferlen 0) []
      [SysCall.CreateEvent, SysCall.ReadFile self.deviceHandle self.bufferlen])

/-- A call of a public method by the owner of the session, with the answers of
the operating system it meets. -/
inductive Call where
  | findDevice (usbpcapFilters : List FilterEntry) (upperFilterInstalled : Bool)
      (idVendor idProduct : Nat)
  | start (env : StartEnv)
  | stop
  | isRunning

/-- The object state after a call and the value the call returned (`none` for
`void`). -/
def call (self : USBPcapHelper) : Call → USBPcapHelper × Option Bool
  | .findDevice fs up v p => ((findDevice self fs up v p).self, some (findDevice self fs up v p).ret)
  | .start env => ((start self env).self, some (start self env).ret)
  | .stop => (stop self, none)
  | .isRunning => (self, some (isRunning self))

/-- A call was a `start()` that returned `true`. -/
def startSucceeded (self : USBPcapHelper) : Call → Bool
  | .start env => (start self env).ret
  | _ => false

/-- The object state after a sequence of calls. -/
def calls (self : USBPcapHelper) : List Call → USBPcapHelper
  | [] => self
  | c :: cs => calls (call self c).1 cs

/-- No call of the sequence, run from `self`, is a `start()` returning `true`. -/
def noStartSucceeded (self : USBPcapHelper) : List Call → Bool
  | [] => true
  | c :: cs => !startSucceeded self c && noStartSucceeded (call self c).1 cs

/-- The operating-system calls one call of a public method makes. -/
def callSys (self : USBPcapHelper) : Call → List SysCall
  | .start env => (start self env).sys
  | _ => []

/-- The number of read threads detached over a sequence of calls. -/
def launched (self : USBPcapHelper) : List Call → Nat
  | [] => 0
  | c :: cs => (callSys self c).count SysCall.detachReadThread + launched (call self c).1 cs

/-- The number of calls of a sequence that are a `start()` returning `true`. -/
def successfulStarts (self : USBPcapHelper) : List Call → Nat
  | [] => 0
  | c :: cs => (if startSucceeded self c then 1 else 0) + successfulStarts (call self c).1 cs

/-- The call is one of the three control requests `start()` sends to the
endpoint. -/
def isControlRequest : SysCall → Bool
  | .SET_SNAPLEN_SIZE _ _ => true
  | .SETUP_BUFFER _ _ => true
  | .START_FILTERING _ => true
  | _ => false

/-- The control requests among the operating-system calls `sys`, in order. -/
def controlRequests (sys : List SysCall) : List SysCall :=
  sys.filter isControlRequest

/-! ### Sample inputs -/

/-- A buffer holding one bulk/interrupt record of the spec layout with a 4-byte
payload `1 2 3 4`. -/
def sampleRecord : List Byte :=
  List.replicate 30 0 ++ [9, 0] ++ List.replicate 7 0 ++ [4, 0, 0, 0] ++ [1, 2, 3, 4]

/-- The scenario of the specification: a record of the spec layout with the
function code 9 (bulk or interrupt) and the data length 64, followed by the 64
payload bytes 1, 2, ..., 64. -/
def sampleRecord64 : List Byte :=
  List.replicate 30 0 ++ [9, 0] ++ List.replicate 7 0 ++ [64, 0, 0, 0] ++
    (List.range 64).map (fun i => (Fin.ofNat (i + 1) : Byte))

/-- The buffer `sampleRecord` with the data length 0 instead of 4. -/
def sampleEmptyRecord : List Byte :=
  List.replicate 30 0 ++ [9, 0] ++ List.replicate 7 0 ++ [0, 0, 0, 0] ++ [1, 2, 3, 4]

/-- The same buffer with the function code 8 instead of 9. -/
def sampleOtherRecord : List Byte :=
  List.replicate 30 0 ++ [8, 0] ++ List.replicate 7 0 ++ [4, 0, 0, 0] ++ [1, 2, 3, 4]

/-- Connection information of a connected device that is not a hub. -/
def deviceInfo (addr idVendor idProduct : Nat) : USB_NODE_CONNECTION_INFORMATION :=
  ⟨USB_CONNECTION_STATUS.DeviceConnected, addr, ⟨idVendor, idProduct⟩, false⟩

/-- Connection information of an empty port. -/
def emptyInfo : USB_NODE_CONNECTION_INFORMATION :=
  ⟨USB_CONNECTION_STATUS.NoDeviceConnected, 0, ⟨0, 0⟩, false⟩

/-- Endpoint E1: a root hub with one foreign device on port 1. -/
def sampleE1 : FilterEntry :=
  ⟨"USBPcap1", true,
    Hub.node (Ports.cons (Port.conn (deviceInfo 1 0x046d 0xc077) true Hub.unavailable) Ports.nil)⟩

/-- Endpoint E2: port 1 empty, a foreign device on port 2, the target
`(0x1234, 0x5678)` on port 3. -/
def sampleE2 : FilterEntry :=
  ⟨"USBPcap2", true,
    Hub.node (Ports.cons (Port.conn emptyInfo false Hub.unavailable)
      (Ports.cons (Port.conn (deviceInfo 1 0x046d 0xc077) true Hub.unavailable)
        (Ports.cons (Port.conn (deviceInfo 2 0x1234 0x5678) true Hub.unavailable)
          Ports.nil)))⟩

/-- Endpoint E3: a root hub whose only port cannot be queried. -/
def sampleE3 : FilterEntry :=
  ⟨"USBPcap3", true, Hub.node (Ports.cons Port.queryFailed Ports.nil)⟩

/-- An endpoint whose root hub carries the target `(0x1234, 0x5678)` on port 1
and again on port 2. -/
def sampleTwoTargets : FilterEntry :=
  ⟨"USBPcap1", true,
    Hub.node (Ports.cons (Port.conn (deviceInfo 1 0x1234 0x5678) true Hub.unavailable)
      (Ports.cons (Port.conn (deviceInfo 2 0x1234 0x5678) true Hub.unavailable)
        Ports.nil))⟩

/-- Connection information of a connected external hub at address `addr`. -/
def hubInfo (addr : Nat) : USB_NODE_CONNECTION_INFORMATION :=
  ⟨USB_CONNECTION_STATUS.DeviceConnected, addr, ⟨0x05e3, 0x0608⟩, true⟩

/-- The ports of the external hub of `sampleNestedPorts`: a device at address 3
on port 1, a device that failed enumeration on port 2. -/
def sampleInnerPorts : Ports :=
  Ports.cons (Port.conn (deviceInfo 3 0x1234 0x5678) true Hub.unavailable)
    (Ports.cons (Port.conn ⟨USB_CONNECTION_STATUS.other 2, 0, ⟨0, 0⟩, false⟩ true
      Hub.unavailable) Ports.nil)

/-- The ports of a root hub: an external hub at address 1 on port 1, a port
whose query fails, a device at address 2 on port 3. -/
def sampleNestedPorts : Ports :=
  Ports.cons (Port.conn (hubInfo 1) true (Hub.node sampleInnerPorts))
    (Ports.cons Port.queryFailed
      (Ports.cons (Port.conn (deviceInfo 2 0x046d 0xc077) true Hub.unavailable) Ports.nil))

/-- The ports of a root hub without external hubs: a device on port 1, a port
whose query fails, an empty port, a device that failed enumeration on port 4, a
device on port 5. -/
def sampleFlatPorts : Ports :=
  Ports.cons (Port.conn (deviceInfo 1 0x046d 0xc077) true Hub.unavailable)
    (Ports.cons Port.queryFailed
      (Ports.cons (Port.conn emptyInfo false Hub.unavailable)
        (Ports.cons (Port.conn ⟨USB_CONNECTION_STATUS.other 2, 0, ⟨0, 0⟩, false⟩ true
            Hub.unavailable)
          (Ports.cons (Port.conn (deviceInfo 2 0x1234 0x5678) true Hub.unavailable)
            Ports.nil))))

/-- Answers of the operating system under which `start()` goes through: the
endpoint opens as handle 7 and the three requests succeed. -/
def okEnv : StartEnv := ⟨true, HANDLE.valid 7, true, true, true⟩

/-- Answers under which the endpoint opens as handle 7 and the second request,
the buffer setup, fails. -/
def setupBufferFailsEnv : StartEnv := ⟨true, HANDLE.valid 7, true, false, true⟩

/-- The object state a fresh session has (its handle read as invalid). -/
def fresh : USBPcapHelper := init HANDLE.INVALID_HANDLE_VALUE

/-- The session located on endpoint `USBPcap2` and started under `okEnv`. -/
def startedSession : USBPcapHelper :=
  (start { fresh with deviceAddr := some "USBPcap2" } okEnv).self

end USBPcapHelper

namespace USBPcap

/-! ### Output of the configuration protocol (`src/enum.cpp`) -/

/-- What `printf("%d", x)` writes for a 32-bit argument `x`: the decimal numeral
of `x` read as a signed 32-bit integer. -/
def printf_d (x : Nat) : String :=
  if x % 2 ^ 32 < 2 ^ 31 then toString (x % 2 ^ 32)
  else "-" ++ toString (2 ^ 32 - x % 2 ^ 32)

/-- `print_extcap_config(level, port, display, deviceAddress, parentAddress, node,
parentNode)`: the text written to the standard output. `EXTCAP_ARGNUM_MULTICHECK`
is declared in a header that is not among the sources and is taken as a
parameter; `str` is the result of `WideStrToUTF8(display)`, `none` for NULL, in
which case what `printf("%s", NULL)` writes is not defined. -/
def print_extcap_config (EXTCAP_ARGNUM_MULTICHECK : Nat) (_level _port : Nat)
    (str : Option String) (deviceAddress parentAddress node parentNode : Nat) :
    Option String :=
  match str with
  | none => none
  | some str =>
      some ((if node ≠ 0 then
        "value \x7barg=" ++ printf_d EXTCAP_ARGNUM_MULTICHECK ++ "\x7d\x7bvalue=" ++
          printf_d deviceAddress ++ "_" ++ printf_d node ++ "\x7d\x7bdisplay=" ++ str ++
          "\x7d\x7benabled=false\x7d" ++
        (if parentNode ≠ 0 then
          "\x7bparent=" ++ printf_d deviceAddress ++ "_" ++ printf_d parentNode ++ "\x7d"
        else
          "\x7bparent=" ++ printf_d deviceAddress ++ "\x7d")
      else
        "value \x7barg=" ++ printf_d EXTCAP_ARGNUM_MULTICHECK ++ "\x7d\x7bvalue=" ++
          printf_d deviceAddress ++ "\x7d\x7bdisplay=[" ++ printf_d deviceAddress ++ "] " ++
          str ++ "\x7d\x7benabled=true\x7d" ++
        (if parentAddress ≠ 0 then "\x7bparent=" ++ printf_d parentAddress ++ "\x7d"
        else "")) ++ "\n")

/-- The line the spec gives for a device (node = 0), from its pieces as text:
`value {arg=K}{value=ADDR}{display=[ADDR] LABEL}{enabled=true}`, an optional
`{parent=PARENTADDR}`, and the end of line. -/
def deviceLine (K ADDR LABEL : String) (PARENTADDR : Option String) : String :=
  "value \x7barg=" ++ K ++ "\x7d\x7bvalue=" ++ ADDR ++ "\x7d\x7bdisplay=[" ++ ADDR ++
    "] " ++ LABEL ++ "\x7d\x7benabled=true\x7d" ++
    (match PARENTADDR with
      | some P => "\x7bparent=" ++ P ++ "\x7d"
      | none => "") ++ "\n"

/-- The line the spec gives for a sub-node (node ≠ 0), from its pieces as text:
`value {arg=K}{value=ADDR_NODE}{display=LABEL}{enabled=false}`, then
`{parent=ADDR}` or `{parent=ADDR_PARENTNODE}`, and the end of line. -/
def subNodeLine (K ADDR NODE LABEL : String) (PARENTNODE : Option String) : String :=
  "value \x7barg=" ++ K ++ "\x7d\x7bvalue=" ++ ADDR ++ "_" ++ NODE ++ "\x7d\x7bdisplay=" ++
    LABEL ++ "\x7d\x7benabled=false\x7d" ++
    (match PARENTNODE with
      | some P => "\x7bparent=" ++ ADDR ++ "_" ++ P ++ "\x7d"
      | none => "\x7bparent=" ++ ADDR ++ "\x7d") ++ "\n"

end USBPcap

namespace USBPcap

/-! ### Walk of the device registry (`src/enum.cpp`) -/

/-- A device instance handle of the configuration manager. -/
abbrev DEVINST := Nat

/-- Modelled from the spec: the value of the `CONFIGRET` code `CR_SUCCESS` in
`cfgmgr32.h`, which is not among the sources. -/
def CONFIGRET.CR_SUCCESS : Nat := 0x00

/-- Modelled from the spec: the value of the `CONFIGRET` code
`CR_NO_SUCH_DEVNODE` in `cfgmgr32.h`, which is not among the sources. -/
def CONFIGRET.CR_NO_SUCH_DEVNODE : Nat := 0x0D

/-- Modelled from the spec: the value of the `CONFIGRET` code `CR_NO_SUCH_VALUE`
in `cfgmgr32.h`, which is not among the sources. -/
def CONFIGRET.CR_NO_SUCH_VALUE : Nat := 0x25

/-- A `CONFIGRET` code other than `CR_SUCCESS` and `CR_NO_SUCH_DEVNODE`: what
the last `else` of the sibling query of either walk sees. -/
abbrev SiblingError :=
  { cr : Nat // cr ≠ CONFIGRET.CR_SUCCESS ∧ cr ≠ CONFIGRET.CR_NO_SUCH_DEVNODE }

/-- A `CONFIGRET` code other than `CR_SUCCESS` and `CR_NO_SUCH_VALUE`: what the
last `else` of the driver-name query of `PrintDeviceDesc` sees. -/
abbrev DriverError :=
  { cr : Nat // cr ≠ CONFIGRET.CR_SUCCESS ∧ cr ≠ CONFIGRET.CR_NO_SUCH_VALUE }

/-- What `CM_Get_Sibling` returns, as the walks tell it apart: success with the
sibling, `CR_NO_SUCH_DEVNODE`, or any other code. -/
inductive SiblingResult where
  | CR_SUCCESS (next : DEVINST)
  | CR_NO_SUCH_DEVNODE
  | error (cr : SiblingError)
  deriving Repr, DecidableEq

/-- What the query of the property `CM_DRP_DRIVER` returns, as `PrintDeviceDesc`
tells it apart: success with the driver name, `CR_NO_SUCH_VALUE`, or any other
code. -/
inductive DriverResult where
  | CR_SUCCESS (name : String)
  | CR_NO_SUCH_VALUE
  | error (cr : DriverError)
  deriving Repr, DecidableEq

/-- The answers of the configuration manager. A navigation request answers
`some` handle for `CR_SUCCESS`; a property query answers `some` text for
`CR_SUCCESS`. -/
structure Registry where
  CM_Locate_DevNode : Option DEVINST
  CM_Get_Child : DEVINST → Option DEVINST
  CM_Get_Sibling : DEVINST → SiblingResult
  CM_Get_Parent : DEVINST → Option DEVINST
  FRIENDLYNAME : DEVINST → Option String
  DEVICEDESC : DEVINST → Option String
  DRIVER : DEVINST → DriverResult

/-- `LOOP_SANITY_LIMIT`. -/
def LOOP_SANITY_LIMIT : Nat := 10000

/-- The arguments of one call of an `EnumDeviceInfoCallback`. -/
structure DeviceInfo where
  level : Nat
  port : Nat
  display : String
  deviceAddress : Nat
  parentAddress : Nat
  node : Nat
  parentNode : Nat
  deriving Repr, DecidableEq

/-- `stack_peek`: the value on top, `none` for the empty stack (`FALSE`). -/
def stack_peek (stack : List Nat) : Option Nat := stack.head?

/-- `stack_pop`: the stack without its top; the empty stack stays empty
(`FALSE`). The value popped is stored in a variable that is written again
before it is read, so it is not kept. -/
def stack_pop (stack : List Nat) : List Nat := stack.tail

/-- `stack_push` (the allocation is taken to succeed). -/
def stack_push (stack : List Nat) (value : Nat) : List Nat := value :: stack

/-- The variables of `PrintDevinstChildren` at the head of its main loop.
`level` is a natural number: the 32-bit `ULONG` does not wrap as long as
`indent` stays 10001 below 2^32. `parentNode` is left out: it is written, by
`stack_peek` or with 0, before each of its reads. -/
structure WalkState where
  current : DEVINST
  level : Nat
  nextNode : Nat
  nodeStack : List Nat
  deriving Repr, DecidableEq

/-- How `PrintDevinstChildren` comes to its end: the loop condition
`level > indent` is false; the sanity counter exceeds its limit (reported on
stderr); the walk has climbed back to the start; `CM_Get_Parent` fails;
`CM_Get_Sibling` returns an error (reported on stderr). -/
inductive WalkExit where
  | loopCondition
  | sanityCheckFailed
  | returnedToParent
  | noParent
  | siblingError (cr : Nat)
  deriving Repr, DecidableEq

/-- How the inner loop `for (;;)` of `PrintDevinstChildren` ends: with `break`
on a sibling, or with `return`. -/
inductive Ascend where
  | sibling (next : DEVINST) (level : Nat) (nodeStack : List Nat)
  | done (exit : WalkExit) (nodeStack : List Nat)
  deriving Repr, DecidableEq

/-- The inner loop `for (;;)` of `PrintDevinstChildren`, entered with
`level = indent + d + 1`. -/
def ascend (reg : Registry) (parent : DEVINST) (indent : Nat) :
    Nat → DEVINST → List Nat → Ascend
  | d, current, nodeStack =>
    match reg.CM_Get_Sibling current with
    | .CR_SUCCESS next => .sibling next (indent + d + 1) nodeStack
    | .CR_NO_SUCH_DEVNODE =>
        match reg.CM_Get_Parent current with
        | some next =>
            match d with
            | 0 => .done .returnedToParent (stack_pop nodeStack)
            | d' + 1 =>
                if next = parent then .done .returnedToParent (stack_pop nodeStack)
                else ascend reg parent indent d' next (stack_pop nodeStack)
        | none => .done .noParent []
    | .error cr => .done (.siblingError cr.val) nodeStack

/-- The number of passes the inner loop `for (;;)` makes, entered with
`level = indent + d + 1`. -/
def ascendPasses (reg : Registry) (parent : DEVINST) : Nat → DEVINST → Nat
  | d, current =>
    match reg.CM_Get_Sibling current with
    | .CR_SUCCESS _ => 1
    | .CR_NO_SUCH_DEVNODE =>
        match reg.CM_Get_Parent current with
        | some next =>
            match d with
            | 0 => 1
            | d' + 1 => if next = parent then 1 else 1 + ascendPasses reg parent d' next
        | none => 1
    | .error _ => 1

/-- The value of `level` when the inner loop `for (;;)` ends, entered with
`level = indent + d + 1`: each pass that climbs to the parent takes 1 off. -/
def ascendLevel (reg : Registry) (parent : DEVINST) (indent : Nat) : Nat → DEVINST → Nat
  | d, current =>
    match reg.CM_Get_Sibling current with
    | .CR_SUCCESS _ => indent + d + 1
    | .CR_NO_SUCH_DEVNODE =>
        match reg.CM_Get_Parent current with
        | some next =>
            match d with
            | 0 => indent
            | d' + 1 =>
                if next = parent then indent + d' + 1
                else ascendLevel reg parent indent d' next
        | none => indent + d + 1
    | .error _ => indent + d + 1

/-- The text `buf` holds after the property queries of the main loop, `none`
when both fail: the friendly name if its query succeeds, else the device
description. -/
def resolveLabel (reg : Registry) (current : DEVINST) : Option String :=
  match reg.FRIENDLYNAME current with
  | some buf => some buf
  | none => reg.DEVICEDESC current

/-- The call of `callback` in the main loop, if it is made. -/
def visitNode (reg : Registry) (deviceAddress : Nat) (st : WalkState) : Option DeviceInfo :=
  match resolveLabel reg st.current with
  | some buf =>
      if buf ≠ "" then
        some ⟨st.level, 0, buf, deviceAddress, deviceAddress, st.nextNode,
          (stack_peek st.nodeStack).getD 0⟩
      else none
  | none => none

/-- One pass of the main loop: the variables at its head and the call of
`callback` it made, if any. -/
structure Iter where
  state : WalkState
  callback : Option DeviceInfo
  deriving Repr, DecidableEq

/-- What a walk leaves behind: its passes in order, how it ended and the node
stack at that point. -/
structure Walk where
  trace : List Iter
  exit : WalkExit
  nodeStack : List Nat
  deriving Repr, DecidableEq

/-- The calls of `callback` of a walk, in order. -/
def Walk.records (w : Walk) : List DeviceInfo :=
  w.trace.filterMap Iter.callback

/-- The passes `its` followed by the walk `w`. -/
def Walk.after (its : List Iter) (w : Walk) : Walk :=
  ⟨its ++ w.trace, w.exit, w.nodeStack⟩

/-- The main loop of `PrintDevinstChildren` from the point where `current` has
no child, entered with `budget` passes left before the sanity check fails;
`nextNode` is the value the counter takes if the walk goes on. -/
def walkFinishWith (loop : WalkState → Walk) (reg : Registry) (parent : DEVINST)
    (indent : Nat) (current : DEVINST) (level nextNode : Nat) (nodeStack : List Nat) : Walk :=
  match ascend reg parent indent (level - indent - 1) current nodeStack with
  | .sibling next level1 nodeStack1 => loop ⟨next, level1, nextNode, nodeStack1⟩
  | .done exit nodeStack1 => ⟨[], exit, nodeStack1⟩

/-- The main loop `while (level > indent)` of `PrintDevinstChildren` with
`budget` passes left before the sanity check fails. -/
def walkLoop (reg : Registry) (parent : DEVINST) (indent deviceAddress : Nat) :
    Nat → WalkState → Walk
  | 0, st =>
      if st.level > indent then ⟨[], .sanityCheckFailed, st.nodeStack⟩
      else ⟨[], .loopCondition, st.nodeStack⟩
  | budget + 1, st =>
      if st.level > indent then
        match reg.CM_Get_Child st.current with
        | some next =>
            Walk.after [⟨st, visitNode reg deviceAddress st⟩]
              (walkLoop reg parent indent deviceAddress budget
                ⟨next, st.level + 1, (st.nextNode + 1) % 65536,
                  stack_push st.nodeStack st.nextNode⟩)
        | none =>
            Walk.after [⟨st, visitNode reg deviceAddress st⟩]
              (walkFinishWith (walkLoop reg parent indent deviceAddress budget) reg parent
                indent st.current st.level ((st.nextNode + 1) % 65536) st.nodeStack)
      else ⟨[], .loopCondition, st.nodeStack⟩

/-- `PrintDevinstChildren(parent, indent, deviceAddress, callback)` with the
sanity limit `limit`. -/
def PrintDevinstChildrenWithin (limit : Nat) (reg : Registry) (parent : DEVINST)
    (indent deviceAddress : Nat) : Walk :=
  walkLoop reg parent indent deviceAddress limit
    (match reg.CM_Get_Child parent with
      | some next => ⟨next, indent + 1, 1, stack_push [] 0⟩
      | none => ⟨parent, indent, 1, []⟩)

/-- `PrintDevinstChildren(parent, indent, deviceAddress, callback)`. -/
def PrintDevinstChildren (reg : Registry) (parent : DEVINST)
    (indent deviceAddress : Nat) : Walk :=
  PrintDevinstChildrenWithin LOOP_SANITY_LIMIT reg parent indent deviceAddress

/-- How one pass of the main loop ends: with the variables for the next pass,
or with `return`. -/
inductive Step where
  | next (st : WalkState)
  | done (exit : WalkExit) (nodeStack : List Nat)
  deriving Repr, DecidableEq

/-- The part of one pass of the main loop that follows the call of `callback`:
the descent to the first child, or the inner loop. -/
def walkStep (reg : Registry) (parent : DEVINST) (indent : Nat) (st : WalkState) : Step :=
  match reg.CM_Get_Child st.current with
  | some next =>
      .next ⟨next, st.level + 1, (st.nextNode + 1) % 65536, stack_push st.nodeStack st.nextNode⟩
  | none =>
      match ascend reg parent indent (st.level - indent - 1) st.current st.nodeStack with
      | .sibling next level1 nodeStack1 =>
          .next ⟨next, level1, (st.nextNode + 1) % 65536, nodeStack1⟩
      | .done exit nodeStack1 => .done exit nodeStack1

/-! ### Search of the device description (`PrintDeviceDesc`) -/

/-- `_tcsicmp(a, b) == 0`: the two texts are equal up to the case of their
letters. -/
def tcsicmp_eq (a b : String) : Bool :=
  a.data.map Char.toLower == b.data.map Char.toLower

/-- How `PrintDeviceDesc` comes to its end: `CM_Locate_DevNode` fails; the outer
or the inner sanity counter exceeds its limit; the node with the driver name
has been found; the driver-name query or `CM_Get_Sibling` returns an error; the
walk is back above the root (`walkDone`). -/
inductive SearchExit where
  | noRoot
  | sanityOuter
  | sanityInner
  | found
  | driverError (cr : Nat)
  | siblingError (cr : Nat)
  | walkDone
  deriving Repr, DecidableEq

/-- Where the search goes after a node that is not the one looked for: on to
a next node, or to its end. -/
inductive SearchNext where
  | next (devInst : DEVINST)
  | done (exit : SearchExit)
  deriving Repr, DecidableEq

/-- The inner loop `for (;;)` of `PrintDeviceDesc` with `budget` passes left
before its sanity check fails. -/
def searchAscend (reg : Registry) : Nat → DEVINST → SearchNext
  | 0, _ => .done .sanityInner
  | budget + 1, devInst =>
      match reg.CM_Get_Sibling devInst with
      | .CR_SUCCESS next => .next next
      | .CR_NO_SUCH_DEVNODE =>
          match reg.CM_Get_Parent devInst with
          | some next => searchAscend reg budget next
          | none => .done .walkDone
      | .error cr => .done (.siblingError cr.val)

/-- The part of a pass of the outer loop of `PrintDeviceDesc` that follows the
comparison of the driver name: down to the first child, or the inner loop. -/
def searchStep (reg : Registry) (devInst : DEVINST) : SearchNext :=
  match reg.CM_Get_Child devInst with
  | some next => .next next
  | none => searchAscend reg LOOP_SANITY_LIMIT devInst

/-- What `PrintDeviceDesc` leaves behind: the nodes whose driver name it queried,
in order, the calls of the callback, in order, and how it ended. -/
structure Search where
  visited : List DEVINST
  records : List DeviceInfo
  exit : SearchExit
  deriving Repr, DecidableEq

/-- The outer loop `while (!walkDone)` of `PrintDeviceDesc` with `budget` passes
left before its sanity check fails. -/
def searchLoop (reg : Registry) (DriverName : String) (Index Level : Nat)
    (PrintAllChildren : Bool) (deviceAddress parentAddress : Nat) :
    Nat → DEVINST → Search
  | 0, _ => ⟨[], [], .sanityOuter⟩
  | budget + 1, devInst =>
      match reg.DRIVER devInst with
      | .CR_SUCCESS buf =>
          if tcsicmp_eq DriverName buf then
            match reg.DEVICEDESC devInst with
            | some desc =>
                ⟨[devInst],
                  ⟨Level, Index, desc, deviceAddress, parentAddress, 0, 0⟩ ::
                    (if PrintAllChildren then
                      (PrintDevinstChildren reg devInst Level deviceAddress).records
                    else []),
                  .found⟩
            | none => ⟨[devInst], [], .found⟩
          else
            match searchStep reg devInst with
            | .next next =>
                let r := searchLoop reg DriverName Index Level PrintAllChildren deviceAddress
                  parentAddress budget next
                ⟨devInst :: r.visited, r.records, r.exit⟩
            | .done exit => ⟨[devInst], [], exit⟩
      | .CR_NO_SUCH_VALUE =>
          match searchStep reg devInst with
          | .next next =>
              let r := searchLoop reg DriverName Index Level PrintAllChildren deviceAddress
                parentAddress budget next
              ⟨devInst :: r.visited, r.records, r.exit⟩
          | .done exit => ⟨[devInst], [], exit⟩
      | .error cr => ⟨[devInst], [], .driverError cr.val⟩

/-- `PrintDeviceDesc(DriverName, Index, Level, PrintAllChildren, deviceAddress,
parentAddress, callback)`. -/
def PrintDeviceDesc (reg : Registry) (DriverName : String) (Index Level : Nat)
    (PrintAllChildren : Bool) (deviceAddress parentAddress : Nat) : Search :=
  match reg.CM_Locate_DevNode with
  | none => ⟨[], [], .noRoot⟩
  | some devInst =>
      searchLoop reg DriverName Index Level PrintAllChildren deviceAddress parentAddress
        LOOP_SANITY_LIMIT devInst

/-- The call `PrintDeviceDesc(driverKeyName, index, level,
!connectionInfo.DeviceIsHub, connectionInfo.DeviceAddress, hubAddress,
print_callback)` in the loop body of `EnumerateHubPorts`, for the port `index`
with the connection information `connectionInfo` and the driver key name
`driverKeyName`. -/
def portSearch (reg : Registry) (driverKeyName : String)
    (connectionInfo : USB_NODE_CONNECTION_INFORMATION) (index level hubAddress : Nat) :
    Search :=
  PrintDeviceDesc reg driverKeyName index level (!connectionInfo.DeviceIsHub)
    connectionInfo.DeviceAddress hubAddress

/-! ### Registry trees -/

mutual
/-- A finite tree of device instances: a node and its children, first child
first. -/
inductive DevTree where
  | node (inst : DEVINST) (children : DevForest)
/-- The children of a node, in sibling order. -/
inductive DevForest where
  | nil
  | cons (t : DevTree) (rest : DevForest)
end

/-- The device instance at the root of a tree. -/
def DevTree.inst : DevTree → DEVINST
  | .node x _ => x

/-- The first tree of a forest, as the answer `CM_Get_Child` gives for its
parent. -/
def DevForest.first? : DevForest → Option DEVINST
  | .nil => none
  | .cons t _ => some t.inst

/-- The first tree of a forest, as the answer `CM_Get_Sibling` gives for the
node before it. -/
def DevForest.sibling? : DevForest → SiblingResult
  | .nil => .CR_NO_SUCH_DEVNODE
  | .cons t _ => .CR_SUCCESS t.inst

mutual
/-- The number of nodes of a tree. -/
def DevTree.size : DevTree → Nat
  | .node _ cs => 1 + cs.size
/-- The number of nodes of a forest. -/
def DevForest.size : DevForest → Nat
  | .nil => 0
  | .cons t rest => t.size + rest.size
end

mutual
/-- The nodes of a tree in depth-first pre-order: the node, then its children. -/
def DevTree.preorder : DevTree → List DEVINST
  | .node x cs => x :: cs.preorder
/-- The nodes of a forest in depth-first pre-order: tree after tree. -/
def DevForest.preorder : DevForest → List DEVINST
  | .nil => []
  | .cons t rest => t.preorder ++ rest.preorder
end

mutual
/-- The registry answers for the nodes of the tree as the tree has them: the
parent of its root is `p`, the sibling of its root is `next`, the first child
of each node is the first of its children, and so on below. -/
def DevTree.consistent (reg : Registry) (p : DEVINST) (next : SiblingResult) :
    DevTree → Bool
  | .node x cs =>
      decide (reg.CM_Get_Parent x = some p) && decide (reg.CM_Get_Sibling x = next) &&
        decide (reg.CM_Get_Child x = cs.first?) && cs.consistent reg x
/-- The registry answers for the nodes of the forest under `p` as the forest has
them. -/
def DevForest.consistent (reg : Registry) (p : DEVINST) : DevForest → Bool
  | .nil => true
  | .cons t rest => t.consistent reg p rest.sibling? && rest.consistent reg p
end

/-- The forest `children` is the registry tree below `start`: the registry
answers navigation requests as the forest has them, and `start` is not among
its own descendants. -/
def isRegistryTree (reg : Registry) (start : DEVINST) (children : DevForest) : Bool :=
  decide (reg.CM_Get_Child start = children.first?) && children.consistent reg start &&
    decide (start ∉ children.preorder)

mutual
/-- The passes a depth-first pre-order walk of a tree makes when it numbers the
nodes from `n` and keeps the numbers of the ancestors on `nodeStack`. -/
def DevTree.iters (reg : Registry) (deviceAddress : Nat) :
    DevTree → Nat → Nat → List Nat → List Iter
  | .node x cs, level, n, nodeStack =>
      ⟨⟨x, level, n, nodeStack⟩, visitNode reg deviceAddress ⟨x, level, n, nodeStack⟩⟩ ::
        cs.iters reg deviceAddress (level + 1) (n + 1) (n :: nodeStack)
/-- The same for a forest. -/
def DevForest.iters (reg : Registry) (deviceAddress : Nat) :
    DevForest → Nat → Nat → List Nat → List Iter
  | .nil, _, _, _ => []
  | .cons t rest, level, n, nodeStack =>
      t.iters reg deviceAddress level n nodeStack ++
        rest.iters reg deviceAddress level (n + t.size) nodeStack
end

/-- The passes carry the node indices `n`, `n + 1`, ... and every number on the
node stack of a pass is below the index of that pass. -/
def Numbered : Nat → List Iter → Prop
  | _, [] => True
  | n, it :: rest =>
      it.state.nextNode = n ∧ (∀ v ∈ it.state.nodeStack, v < n) ∧ Numbered (n + 1) rest

/-- Neither the friendly name nor the device description of `x` yields a
non-empty text. -/
def unlabelled (reg : Registry) (x : DEVINST) : Prop :=
  (reg.FRIENDLYNAME x = none ∨ reg.FRIENDLYNAME x = some "") ∧
  (reg.DEVICEDESC x = none ∨ reg.DEVICEDESC x = some "")

/-- The pass `it` with its call of `callback` taken away when it stands on
`x`. -/
def Iter.mute (x : DEVINST) (it : Iter) : Iter :=
  if it.state.current = x then ⟨it.state, none⟩ else it

/-- The main loop of `PrintDevinstChildren` from the point where the inner loop
has climbed from the last child of `p` to `p`, the children standing at
`level = indent + d + 1`, and has popped the node stack down to `nodeStack`. -/
def afterChildren (reg : Registry) (parent : DEVINST) (indent deviceAddress : Nat)
    (budget : Nat) (p : DEVINST) (d nextNode : Nat) (nodeStack : List Nat) : Walk :=
  match d with
  | 0 => ⟨[], .returnedToParent, nodeStack⟩
  | d' + 1 =>
      if p = parent then ⟨[], .returnedToParent, nodeStack⟩
      else
        walkFinishWith (walkLoop reg parent indent deviceAddress budget) reg parent indent
          p (indent + d' + 1) nextNode nodeStack

/-- The node stack `nodeStack` of a pass names the registry ancestors of its
node, whose registry parent is `q`: its top is 0 and alone when `q` is the start
node, and otherwise the node index of an earlier pass, one of `pre`, which stood
on `q`, a node of `nodes`, the rest of the stack doing the same for `q`. -/
def ParentChain (reg : Registry) (start : DEVINST) (nodes : List DEVINST) (pre : List Iter) :
    Option DEVINST → List Nat → Prop
  | _, [] => False
  | q, v :: rest =>
      (rest = [] ∧ v = 0 ∧ q = some start) ∨
      (∃ it ∈ pre, q = some it.state.current ∧ it.state.current ∈ nodes ∧
        it.state.nextNode = v ∧
        ParentChain reg start nodes pre (reg.CM_Get_Parent it.state.current) rest)

/-! ### Hub device names (`EnumerateHub`) -/

/-- A C text, as the characters before its terminator. -/
abbrev CText := List Char

/-- The backslash character. -/
def backslash : Char := Char.ofNat 92

/-- The text literal of `EnumerateHub` that starts a device name: two
backslashes, a dot, a backslash. -/
def devicePrefix : CText := [backslash, backslash, '.', backslash]

/-- The text literal of `EnumerateHub` that starts a symbolic link name: a
backslash, two question marks, a backslash. -/
def linkPrefix : CText := [backslash, '?', '?', backslash]

/-- Modelled from the spec: `_tcslen(s)` of the C runtime, the number of
characters before the terminator. -/
def _tcslen (s : CText) : Nat := s.length

/-- Modelled from the spec: `_tcsncmp(a, b, n) == 0` of the C runtime: the two
texts agree on their first `n` characters, or on all of them up to and with the
terminator when that comes earlier. -/
def tcsncmp_eq : CText → CText → Nat → Bool
  | _, _, 0 => true
  | [], [], _ + 1 => true
  | [], _ :: _, _ + 1 => false
  | _ :: _, [], _ + 1 => false
  | a :: as, b :: bs, n + 1 => a == b && tcsncmp_eq as bs n

/-- Modelled from the spec: the bounded copy `_tcscpy_s(dest, size, src)` of the
C runtime: the destination holds `src` afterwards when `src` and its terminator
fit in `size` characters, and the copy fails otherwise. -/
def _tcscpy_s (size : Nat) (src : CText) : Option CText :=
  if src.length + 1 ≤ size then some src else none

/-- Modelled from the spec: the bounded concatenation
`_tcscat_s(dest, size, src)` of the C runtime: the destination holds its text
followed by `src` afterwards when both and the terminator fit in `size`
characters, and the concatenation fails otherwise. -/
def _tcscat_s (dest : CText) (size : Nat) (src : CText) : Option CText :=
  if dest.length + src.length + 1 ≤ size then some (dest ++ src) else none

/-- The size `EnumerateHub` allocates for the device name of `hub`, in
characters. -/
def deviceNameSize (hub : CText) : Nat := _tcslen hub + _tcslen devicePrefix + 1

/-- The device name `EnumerateHub` builds for `hub` and hands to `CreateFile`,
or `none` when a bounded copy fails. -/
def deviceName (hub : CText) : Option CText :=
  if tcsncmp_eq linkPrefix hub 4 then
    (_tcscpy_s (deviceNameSize hub) devicePrefix).bind
      (fun d => _tcscat_s d (deviceNameSize hub) (hub.drop 4))
  else if hub.headD (Char.ofNat 0) = backslash then
    _tcscpy_s (deviceNameSize hub) hub
  else
    (_tcscpy_s (deviceNameSize hub) devicePrefix).bind
      (fun d => _tcscat_s d (deviceNameSize hub) hub)

/-- The normalised hub name in the words of the specification: the device
prefix followed by `h` without its first 4 characters when `h` starts with the
link prefix, `h` unchanged when `h` otherwise starts with a backslash, and the
device prefix followed by `h` in all other cases. -/
def specDeviceName (h : CText) : CText :=
  if linkPrefix.isPrefixOf h then devicePrefix ++ h.drop 4
  else if [backslash].isPrefixOf h then h
  else devicePrefix ++ h

/-- A hub name as the system reports it: the link prefix and `USB#ROOT_HUB`. -/
def sampleHubName : CText := linkPrefix ++ "USB#ROOT_HUB".data

/-! ### Sample registries -/

/-- A registry tree below the start node 0: node 1 without any label and with
the child 2 (friendly name `B`), then node 3 (device description `C`). -/
def sampleRegistry : Registry where
  CM_Locate_DevNode := some 0
  CM_Get_Child := fun x => if x = 0 then some 1 else if x = 1 then some 2 else none
  CM_Get_Sibling := fun x =>
    if x = 1 then SiblingResult.CR_SUCCESS 3 else SiblingResult.CR_NO_SUCH_DEVNODE
  CM_Get_Parent := fun x => if x = 1 ∨ x = 3 then some 0 else if x = 2 then some 1 else none
  FRIENDLYNAME := fun x => if x = 2 then some "B" else none
  DEVICEDESC := fun x => if x = 3 then some "C" else none
  DRIVER := fun _ => DriverResult.CR_NO_SUCH_VALUE

/-- The tree `sampleRegistry` holds below node 0. -/
def sampleChildren : DevForest :=
  DevForest.cons (DevTree.node 1 (DevForest.cons (DevTree.node 2 DevForest.nil) DevForest.nil))
    (DevForest.cons (DevTree.node 3 DevForest.nil) DevForest.nil)

/-- The registry `sampleRegistry` with the friendly name `A` for node 1. -/
def sampleLabelledRegistry : Registry :=
  { sampleRegistry with
    FRIENDLYNAME := fun x => if x = 1 then some "A" else sampleRegistry.FRIENDLYNAME x }

/-- The registry `sampleLabelledRegistry` in which node 1 is a composite device
with the driver name `usb0001` and the device description `Composite`, node 3
carries the driver name `usb0003`, and node 2, the child of node 1, the driver
name `usb0002` without a device description. -/
def compositeRegistry : Registry :=
  { sampleLabelledRegistry with
    DEVICEDESC := fun x => if x = 1 then some "Composite" else sampleLabelledRegistry.DEVICEDESC x
    DRIVER := fun x =>
      if x = 1 then DriverResult.CR_SUCCESS "usb0001"
      else if x = 2 then DriverResult.CR_SUCCESS "usb0002"
      else if x = 3 then DriverResult.CR_SUCCESS "usb0003"
      else DriverResult.CR_NO_SUCH_VALUE }

/-- A root hub whose port 1 carries a connected device for which
`GetDriverKeyName` yields no name. -/
def sampleKeylessHub : Hub :=
  Hub.node
    (Ports.cons (Port.conn (USBPcapHelper.deviceInfo 1 0x046d 0xc077) false Hub.unavailable)
      Ports.nil)

/-- A cyclic registry: every node is its own first child. -/
def cyclicRegistry : Registry where
  CM_Locate_DevNode := some 0
  CM_Get_Child := fun x => some x
  CM_Get_Sibling := fun _ => SiblingResult.CR_NO_SUCH_DEVNODE
  CM_Get_Parent := fun _ => none
  FRIENDLYNAME := fun _ => some "loop"
  DEVICEDESC := fun _ => none
  DRIVER := fun _ => DriverResult.CR_NO_SUCH_VALUE

/-- A registry tree of 10001 leaves below the start node 0: the nodes 1, 2, ...,
10001, each the next sibling of the one before, all with the friendly name
`dev`. -/
def wideRegistry : Registry where
  CM_Locate_DevNode := some 0
  CM_Get_Child := fun x => if x = 0 then some 1 else none
  CM_Get_Sibling := fun x =>
    if 1 ≤ x ∧ x < 10001 then SiblingResult.CR_SUCCESS (x + 1)
    else SiblingResult.CR_NO_SUCH_DEVNODE
  CM_Get_Parent := fun x => if 1 ≤ x ∧ x ≤ 10001 then some 0 else none
  FRIENDLYNAME := fun _ => some "dev"
  DEVICEDESC := fun _ => none
  DRIVER := fun _ => DriverResult.CR_NO_SUCH_VALUE

/-- The forest of the `count` leaves `k`, `k + 1`, ... -/
def leafChain : Nat → Nat → DevForest
  | _, 0 => DevForest.nil
  | k, count + 1 => DevForest.cons (DevTree.node k DevForest.nil) (leafChain (k + 1) count)

/-- The tree `wideRegistry` holds below node 0. -/
def wideChildren : DevForest := leafChain 1 10001

end USBPcap

/-! ## Theorems -/

namespace USBPcapHelper
open USBPcap

/-! ### Frame decoder -/

theorem payload_getElem? (c : InterruptCall) (buffer : List Byte) (i : Nat)
    (hi : i < c.length) : (c.payload buffer)[i]? = buffer[c.offset + i]? := by
  unfold InterruptCall.payload
  rw [List.getElem?_take_of_lt hi, List.getElem?_drop]

theorem payload_length (c : InterruptCall) (buffer : List Byte)
    (h : c.offset + c.length ≤ buffer.length) : (c.payload buffer).length = c.length := by
  unfold InterruptCall.payload
  rw [List.length_take, List.length_drop]
  omega

theorem getD_take (buffer : List Byte) (n k : Nat) (h : k < n) :
    (buffer.take n).getD k 0 = buffer.getD k 0 := by
  simp only [List.getD_eq_getElem?_getD, List.getElem?_take_of_lt h]

/-- The function code the decoder reads is the 16-bit little-endian value of the
two buffer bytes at the offset of `function` behind the record header. -/
theorem packetFunction_bytes (L : WireLayout) (buffer : List Byte)
    (hfun : L.offset_function + 2 ≤ L.sizeof_packet_header) :
    packetFunction L buffer =
      (buffer.getD (L.sizeof_pcaprec_hdr_s + L.offset_function) 0).val +
        256 * (buffer.getD (L.sizeof_pcaprec_hdr_s + L.offset_function + 1) 0).val := by
  unfold packetFunction WireLayout.sizeof_DataHeader
  simp only [readLE, Nat.add_assoc, Nat.reduceAdd]
  rw [getD_take _ _ _ (by omega), getD_take _ _ _ (by omega)]
  omega

/-- The data length the decoder reads is the 32-bit little-endian value of the
four buffer bytes at the offset of `dataLength` behind the record header. -/
theorem packetDataLength_bytes (L : WireLayout) (buffer : List Byte)
    (hlen : L.offset_dataLength + 4 ≤ L.sizeof_packet_header) :
    packetDataLength L buffer =
      (buffer.getD (L.sizeof_pcaprec_hdr_s + L.offset_dataLength) 0).val +
        256 * (buffer.getD (L.sizeof_pcaprec_hdr_s + L.offset_dataLength + 1) 0).val +
        65536 * (buffer.getD (L.sizeof_pcaprec_hdr_s + L.offset_dataLength + 2) 0).val +
        16777216 * (buffer.getD (L.sizeof_pcaprec_hdr_s + L.offset_dataLength + 3) 0).val := by
  unfold packetDataLength WireLayout.sizeof_DataHeader
  simp only [readLE, Nat.add_assoc, Nat.reduceAdd]
  rw [getD_take _ _ _ (by omega), getD_take _ _ _ (by omega), getD_take _ _ _ (by omega),
    getD_take _ _ _ (by omega)]
  omega

/-- C1: for a read whose byte count is not the size of the global header (the
buffer being large enough to hold a `DataHeader`, in which the two fields lie),
with `function` the 16-bit little-endian value of the buffer bytes at the offset
of the function code and `dataLength` the 32-bit little-endian value of the
buffer bytes at the offset of the data length: `processRawData` makes no call
to `processInterruptData` when `function` is not the bulk-or-interrupt code or
`dataLength` is 0; in every other case it makes exactly one call, with the
pointer right after the `DataHeader` and the length `dataLength`, a slice that
holds the buffer's bytes at those positions. -/
theorem processRawData_frame_filtering (L : WireLayout) (self : USBPcapHelper)
    (buffer : List Byte) (bytes : Nat)
    (hbytes : bytes ≠ L.sizeof_pcap_hdr_s)
    (hcap : L.sizeof_DataHeader ≤ buffer.length)
    (hfun : L.offset_function + 2 ≤ L.sizeof_packet_header)
    (hlen : L.offset_dataLength + 4 ≤ L.sizeof_packet_header)
    (function dataLength : Nat)
    (hfunction : function =
      (buffer.getD (L.sizeof_pcaprec_hdr_s + L.offset_function) 0).val +
        256 * (buffer.getD (L.sizeof_pcaprec_hdr_s + L.offset_function + 1) 0).val)
    (hdataLength : dataLength =
      (buffer.getD (L.sizeof_pcaprec_hdr_s + L.offset_dataLength) 0).val +
        256 * (buffer.getD (L.sizeof_pcaprec_hdr_s + L.offset_dataLength + 1) 0).val +
        65536 * (buffer.getD (L.sizeof_pcaprec_hdr_s + L.offset_dataLength + 2) 0).val +
        16777216 * (buffer.getD (L.sizeof_pcaprec_hdr_s + L.offset_dataLength + 3) 0).val) :
    ((function ≠ L.URB_FUNCTION_BULK_OR_INTERRUPT_TRANSFER ∨ dataLength = 0) →
      processRawData L self buffer bytes = some (self, [])) ∧
    (function = L.URB_FUNCTION_BULK_OR_INTERRUPT_TRANSFER → dataLength ≠ 0 →
      processRawData L self buffer bytes =
        some (self, [⟨L.sizeof_pcaprec_hdr_s + L.sizeof_packet_header, dataLength⟩]) ∧
      (∀ i, i < dataLength →
        ((⟨L.sizeof_pcaprec_hdr_s + L.sizeof_packet_header, dataLength⟩ :
            InterruptCall).payload buffer)[i]? =
          buffer[L.sizeof_pcaprec_hdr_s + L.sizeof_packet_header + i]?) ∧
      (L.sizeof_pcaprec_hdr_s + L.sizeof_packet_header + dataLength ≤ buffer.length →
        ((⟨L.sizeof_pcaprec_hdr_s + L.sizeof_packet_header, dataLength⟩ :
            InterruptCall).payload buffer).length = dataLength ∧
        (⟨L.sizeof_pcaprec_hdr_s + L.sizeof_packet_header, dataLength⟩ :
            InterruptCall).payload buffer =
          (buffer.drop (L.sizeof_pcaprec_hdr_s + L.sizeof_packet_header)).take dataLength)) := by
  have hlt : ¬ buffer.length < L.sizeof_DataHeader := by omega
  have hf := packetFunction_bytes L buffer hfun
  have hd := packetDataLength_bytes L buffer hlen
  rw [← hfunction] at hf
  rw [← hdataLength] at hd
  constructor
  · intro h
    rw [← hf, ← hd] at h
    simp only [processRawData, if_neg hbytes, if_neg hlt, if_pos h]
  · intro h1 h2
    have h : ¬ (packetFunction L buffer ≠ L.URB_FUNCTION_BULK_OR_INTERRUPT_TRANSFER ∨
        packetDataLength L buffer = 0) := by
      rw [hf, hd]
      intro h
      rcases h with h | h
      · exact h h1
      · exact h2 h
    refine ⟨?_, ?_, ?_⟩
    · simp only [processRawData, if_neg hbytes, if_neg hlt, if_neg h]
      rw [hd]
      rfl
    · intro i hi
      exact payload_getElem? ⟨L.sizeof_pcaprec_hdr_s + L.sizeof_packet_header, dataLength⟩
        buffer i hi
    · intro hfit
      exact ⟨payload_length ⟨L.sizeof_pcaprec_hdr_s + L.sizeof_packet_header, dataLength⟩
        buffer hfit, rfl⟩

/-- Witness: the scenario of the specification, a 107-byte read holding one
record with function code 9 and data length 64 and its 64 payload bytes: one
call with the pointer at offset 43 and the length 64, whose slice is the 64
trailing bytes 1, 2, ..., 64; and the records with function code 8 or data
length 0, which get no call. -/
theorem processRawData_frame_filtering_witness :
    (107 ≠ specLayout.sizeof_pcap_hdr_s) ∧
    (specLayout.sizeof_DataHeader ≤ sampleRecord64.length) ∧
    (sampleRecord64.length = 107) ∧
    ((9 : Nat) = (sampleRecord64.getD 30 0).val + 256 * (sampleRecord64.getD 31 0).val) ∧
    ((64 : Nat) = (sampleRecord64.getD 39 0).val + 256 * (sampleRecord64.getD 40 0).val +
      65536 * (sampleRecord64.getD 41 0).val + 16777216 * (sampleRecord64.getD 42 0).val) ∧
    (processRawData specLayout fresh sampleRecord64 107 = some (fresh, [⟨43, 64⟩]) ∧
      (∀ i, i < 64 →
        ((⟨43, 64⟩ : InterruptCall).payload sampleRecord64)[i]? = sampleRecord64[43 + i]?) ∧
      (43 + 64 ≤ sampleRecord64.length →
        ((⟨43, 64⟩ : InterruptCall).payload sampleRecord64).length = 64 ∧
        (⟨43, 64⟩ : InterruptCall).payload sampleRecord64 =
          (sampleRecord64.drop 43).take 64)) ∧
    ((⟨43, 64⟩ : InterruptCall).payload sampleRecord64 =
      (List.range 64).map (fun i => (Fin.ofNat (i + 1) : Byte))) ∧
    (processRawData specLayout fresh sampleRecord 47 = some (fresh, [⟨43, 4⟩]) ∧
      (⟨43, 4⟩ : InterruptCall).payload sampleRecord = [1, 2, 3, 4]) ∧
    (processRawData specLayout fresh sampleOtherRecord 47 = some (fresh, [])) ∧
    (processRawData specLayout fresh sampleEmptyRecord 47 = some (fresh, [])) :=
  ⟨by decide, by decide, by decide, by decide, by decide,
    (processRawData_frame_filtering specLayout fresh sampleRecord64 107 (by decide)
      (by decide) (by decide) (by decide) 9 64 (by decide) (by decide)).2 rfl (by decide),
    by decide, by decide, by decide, by decide⟩

/-- C2 (the code departs from it): a read of 0 bytes, shorter than the 43-byte
`DataHeader`, over a buffer that still holds an earlier record is decoded all
the same and `processInterruptData` is called with that record's payload; in
the read loop a record followed by an empty read is delivered twice. -/
theorem processRawData_short_read_decoded :
    (0 < specLayout.sizeof_DataHeader) ∧
    processRawData specLayout fresh sampleRecord 0 = some (fresh, [⟨43, 4⟩]) ∧
    (⟨43, 4⟩ : InterruptCall).payload sampleRecord = [1, 2, 3, 4] ∧
    (readWait specLayout startedSession (List.replicate 64 0) [] []
        [LoopEvent.wait (WaitResult.WAIT_OBJECT_0 sampleRecord),
          LoopEvent.wait (WaitResult.WAIT_OBJECT_0 [])]).map LoopResult.delivered =
      some [[1, 2, 3, 4], [1, 2, 3, 4]] := by
  decide

/-- C3: a read whose byte count equals the size of the global header is
consumed without any call to `processInterruptData` and without fault,
whatever the buffer holds; with the 16-byte global header of the spec this is
so for every 16-byte read, also over a buffer holding a bulk/interrupt record
with non-zero data length. -/
theorem processRawData_global_header :
    (∀ (L : WireLayout) (self : USBPcapHelper) (buffer : List Byte),
      processRawData L self buffer L.sizeof_pcap_hdr_s = some (self, [])) ∧
    (∀ (self : USBPcapHelper) (buffer : List Byte),
      processRawData specLayout self buffer 16 = some (self, [])) ∧
    (packetFunction specLayout sampleRecord =
        specLayout.URB_FUNCTION_BULK_OR_INTERRUPT_TRANSFER ∧
      packetDataLength specLayout sampleRecord ≠ 0 ∧
      processRawData specLayout fresh sampleRecord 16 = some (fresh, [])) := by
  refine ⟨?_, ?_, ?_⟩
  · intro L self buffer
    simp [processRawData]
  · intro self buffer
    simp [processRawData, specLayout]
  · decide

/-- C4 (the code departs from it): two reads of 20 bytes whose first 20 bytes
are identical are decoded differently, because the header is taken from the
bytes of the buffer beyond the 20 that were read. -/
theorem processRawData_depends_on_unread_bytes :
    sampleRecord.take 20 = sampleOtherRecord.take 20 ∧
    processRawData specLayout fresh sampleRecord 20 = some (fresh, [⟨43, 4⟩]) ∧
    processRawData specLayout fresh sampleOtherRecord 20 = some (fresh, []) := by
  decide

/-- Whatever it decodes, `processRawData` hands the object state back
unchanged, and the calls it makes do not depend on that state. -/
theorem processRawData_state_free (L : WireLayout) (s₁ s₂ : USBPcapHelper)
    (buffer : List Byte) (bytes : Nat) :
    (processRawData L s₁ buffer bytes).map Prod.snd =
        (processRawData L s₂ buffer bytes).map Prod.snd ∧
    ∀ r, processRawData L s₁ buffer bytes = some r → r.1 = s₁ := by
  unfold processRawData
  split_ifs <;> simp

/-! ### Hub pass and device locator -/

theorem printVisitorStep_port_ctx {σ : Type} (pc driverKey : Bool)
    (info : USB_NODE_CONNECTION_INFORMATION) (index level hubAddress : Nat)
    (st : EnumState σ) :
    (printVisitorStep pc driverKey info index level hubAddress st).port_ctx = st.port_ctx := by
  unfold printVisitorStep
  split_ifs <;> rfl

theorem portVisitorStep_port_ctx {σ : Type} (cb : EnumConnectedPortCallback σ)
    (info : USB_NODE_CONNECTION_INFORMATION) (index : Nat) (st : EnumState σ) :
    (portVisitorStep (some cb) info index st).port_ctx =
      if info.ConnectionStatus = USB_CONNECTION_STATUS.DeviceConnected then
        cb index info.DeviceAddress info.DeviceDescriptor st.port_ctx
      else st.port_ctx := by
  unfold portVisitorStep
  split_ifs <;> rfl

mutual
/-- Two hub passes over the same hub whose port visitors keep a relation `R`
between their contexts on every port index from 1 on, end in related contexts. -/
theorem EnumerateHub_lockstep {σ τ : Type} (R : σ → τ → Prop)
    (cb₁ : EnumConnectedPortCallback σ) (cb₂ : EnumConnectedPortCallback τ)
    (hcb : ∀ index addr desc a b, 1 ≤ index → R a b →
      R (cb₁ index addr desc a) (cb₂ index addr desc b))
    (pc₁ pc₂ : Bool) :
    ∀ (h : Hub) (ci : Option USB_NODE_CONNECTION_INFORMATION) (level₁ level₂ : Nat)
      (st₁ : EnumState σ) (st₂ : EnumState τ),
      R st₁.port_ctx st₂.port_ctx →
      R (EnumerateHub pc₁ (some cb₁) h ci level₁ st₁).port_ctx
        (EnumerateHub pc₂ (some cb₂) h ci level₂ st₂).port_ctx
  | .unavailable, _, _, _, _, _, hR => by
      simpa only [EnumerateHub] using hR
  | .node ports, ci, level₁, level₂, st₁, st₂, hR => by
      simp only [EnumerateHub]
      exact EnumerateHubPorts_lockstep R cb₁ cb₂ hcb pc₁ pc₂ ports 1 level₁ level₂ _ _
        st₁ st₂ (le_refl 1) hR
/-- The port loop keeps the relation, entered at any index from 1 on. -/
theorem EnumerateHubPorts_lockstep {σ τ : Type} (R : σ → τ → Prop)
    (cb₁ : EnumConnectedPortCallback σ) (cb₂ : EnumConnectedPortCallback τ)
    (hcb : ∀ index addr desc a b, 1 ≤ index → R a b →
      R (cb₁ index addr desc a) (cb₂ index addr desc b))
    (pc₁ pc₂ : Bool) :
    ∀ (ports : Ports) (index level₁ level₂ hubAddress₁ hubAddress₂ : Nat)
      (st₁ : EnumState σ) (st₂ : EnumState τ),
      1 ≤ index → R st₁.port_ctx st₂.port_ctx →
      R (EnumerateHubPorts pc₁ (some cb₁) ports index level₁ hubAddress₁ st₁).port_ctx
        (EnumerateHubPorts pc₂ (some cb₂) ports index level₂ hubAddress₂ st₂).port_ctx
  | .nil, _, _, _, _, _, _, _, _, hR => by
      simpa only [EnumerateHubPorts] using hR
  | .cons p rest, index, level₁, level₂, hubAddress₁, hubAddress₂, st₁, st₂, hi, hR => by
      simp only [EnumerateHubPorts]
      exact EnumerateHubPorts_lockstep R cb₁ cb₂ hcb pc₁ pc₂ rest (index + 1) level₁ level₂
        hubAddress₁ hubAddress₂ _ _ (Nat.le_add_left 1 index)
        (EnumeratePort_lockstep R cb₁ cb₂ hcb pc₁ pc₂ p index level₁ level₂
          hubAddress₁ hubAddress₂ st₁ st₂ hi hR)
/-- The loop body keeps the relation, for any port index from 1 on. -/
theorem EnumeratePort_lockstep {σ τ : Type} (R : σ → τ → Prop)
    (cb₁ : EnumConnectedPortCallback σ) (cb₂ : EnumConnectedPortCallback τ)
    (hcb : ∀ index addr desc a b, 1 ≤ index → R a b →
      R (cb₁ index addr desc a) (cb₂ index addr desc b))
    (pc₁ pc₂ : Bool) :
    ∀ (p : Port) (index level₁ level₂ hubAddress₁ hubAddress₂ : Nat)
      (st₁ : EnumState σ) (st₂ : EnumState τ),
      1 ≤ index → R st₁.port_ctx st₂.port_ctx →
      R (EnumeratePort pc₁ (some cb₁) p index level₁ hubAddress₁ st₁).port_ctx
        (EnumeratePort pc₂ (some cb₂) p index level₂ hubAddress₂ st₂).port_ctx
  | .queryFailed, _, _, _, _, _, _, _, _, hR => by
      simpa only [EnumeratePort] using hR
  | .conn info driverKey ext, index, level₁, level₂, hubAddress₁, hubAddress₂, st₁, st₂,
      hi, hR => by
      simp only [EnumeratePort]
      have h2 : R
          (portVisitorStep (some cb₁) info index
            (printVisitorStep pc₁ driverKey info index level₁ hubAddress₁ st₁)).port_ctx
          (portVisitorStep (some cb₂) info index
            (printVisitorStep pc₂ driverKey info index level₂ hubAddress₂ st₂)).port_ctx := by
        rw [portVisitorStep_port_ctx, portVisitorStep_port_ctx,
          printVisitorStep_port_ctx, printVisitorStep_port_ctx]
        split_ifs
        · exact hcb index info.DeviceAddress info.DeviceDescriptor _ _ hi hR
        · exact hR
      split_ifs
      · exact EnumerateHub_lockstep R cb₁ cb₂ hcb pc₁ pc₂ ext _ _ _ _ _ h2
      · exact h2
      · exact hR
end

/-- A hub pass with the port visitor `cb` leaves the context that results from
invoking `cb` on the recorded visits of that pass, in order. -/
theorem enumerate_eq_foldl {σ : Type} (filter : FilterEntry)
    (cb : EnumConnectedPortCallback σ) (ctx : σ) :
    enumerate_all_connected_devices filter cb ctx =
      (passVisits filter).foldl (PortVisit.apply cb) ctx := by
  unfold passVisits enumerate_all_connected_devices
  by_cases hs : filter.hubSymlink = true
  · simp only [hs, if_true]
    refine EnumerateHub_lockstep (fun c log => c = log.foldl (PortVisit.apply cb) ctx)
      cb recordVisit ?_ false false filter.rootHub none 0 0 ⟨ctx, []⟩ ⟨[], []⟩ rfl
    intro index addr desc a b _ hab
    simp only [recordVisit, List.foldl_append, List.foldl_cons, List.foldl_nil,
      PortVisit.apply, ← hab]
  · simp only [hs, Bool.false_eq_true, if_false, List.foldl_nil]

/-- Every recorded visit of a hub pass carries a port index of at least 1. -/
theorem passVisits_port_pos (filter : FilterEntry) :
    ∀ v ∈ passVisits filter, 1 ≤ v.port := by
  unfold passVisits enumerate_all_connected_devices
  by_cases hs : filter.hubSymlink = true
  · simp only [hs, if_true]
    refine EnumerateHub_lockstep (fun (a _b : List PortVisit) => ∀ v ∈ a, 1 ≤ v.port)
      recordVisit recordVisit ?_ false false filter.rootHub none 0 0 ⟨[], []⟩ ⟨[], []⟩ ?_
    · intro index addr desc a b hi ha v hv
      simp only [recordVisit, List.mem_append, List.mem_singleton] at hv
      rcases hv with hv | hv
      · exact ha v hv
      · rw [hv]; exact hi
    · intro v hv
      simp at hv
  · intro v hv
    simp [hs] at hv

theorem findConnectedDevice_ids (port addr : Nat) (desc : USB_DEVICE_DESCRIPTOR)
    (device : FindDeviceContext) :
    (findConnectedDevice port addr desc device).idVendor = device.idVendor ∧
    (findConnectedDevice port addr desc device).idProduct = device.idProduct := by
  unfold findConnectedDevice
  split_ifs <;> exact ⟨rfl, rfl⟩

theorem foldl_findConnectedDevice_ids (vs : List PortVisit) (device : FindDeviceContext) :
    (vs.foldl (PortVisit.apply findConnectedDevice) device).idVendor = device.idVendor ∧
    (vs.foldl (PortVisit.apply findConnectedDevice) device).idProduct = device.idProduct := by
  induction vs generalizing device with
  | nil => exact ⟨rfl, rfl⟩
  | cons v rest ih =>
      simp only [List.foldl_cons]
      have h := findConnectedDevice_ids v.port v.deviceAddress v.desc device
      have h' := ih (PortVisit.apply findConnectedDevice device v)
      unfold PortVisit.apply at h' ⊢
      exact ⟨h'.1.trans h.1, h'.2.trans h.2⟩

/-- After the port visitor of the locator has seen the visits `vs`, the recorded
index is the port of the last visit carrying the target ids, or the index it
started from when there is none. -/
theorem foldl_findConnectedDevice_indexFound (vs : List PortVisit)
    (device : FindDeviceContext) :
    (vs.foldl (PortVisit.apply findConnectedDevice) device).indexFound =
      match (vs.filter (PortVisit.isTarget device.idVendor device.idProduct)).getLast? with
      | some v => v.port
      | none => device.indexFound := by
  induction vs using List.reverseRecOn with
  | nil => rfl
  | append_singleton l v ih =>
      rw [List.foldl_append, List.filter_append]
      simp only [List.foldl_cons, List.foldl_nil]
      have hid := foldl_findConnectedDevice_ids l device
      by_cases hv : PortVisit.isTarget device.idVendor device.idProduct v = true
      · have hf : List.filter (PortVisit.isTarget device.idVendor device.idProduct) [v] = [v] := by
          simp [List.filter, hv]
        rw [hf, List.getLast?_append_of_ne_nil _ (by simp)]
        simp only [List.getLast?_singleton]
        unfold PortVisit.isTarget at hv
        simp only [decide_eq_true_eq] at hv
        simp [PortVisit.apply, findConnectedDevice, hid.1, hid.2, hv.1, hv.2]
      · have hf : List.filter (PortVisit.isTarget device.idVendor device.idProduct) [v] = [] := by
          simp [List.filter, hv]
        rw [hf, List.append_nil, ← ih]
        unfold PortVisit.isTarget at hv
        simp only [decide_eq_true_eq] at hv
        simp [PortVisit.apply, findConnectedDevice, hid.1, hid.2, hv]

theorem foldl_findConnectedDevice_no_target (vs : List PortVisit)
    (device : FindDeviceContext)
    (h : vs.any (PortVisit.isTarget device.idVendor device.idProduct) = false) :
    vs.foldl (PortVisit.apply findConnectedDevice) device = device := by
  induction vs with
  | nil => rfl
  | cons v rest ih =>
      simp only [List.any_cons, Bool.or_eq_false_iff] at h
      have hv := h.1
      unfold PortVisit.isTarget at hv
      simp only [decide_eq_false_iff_not] at hv
      have hstep : PortVisit.apply findConnectedDevice device v = device := by
        simp [PortVisit.apply, findConnectedDevice, hv]
      rw [List.foldl_cons, hstep]
      exact ih h.2

/-- A hub pass that reports no port with the target ids leaves the find context
as it was. -/
theorem enumerate_no_target (filter : FilterEntry) (idVendor idProduct k : Nat)
    (h : reportsTarget idVendor idProduct filter = false) :
    enumerate_all_connected_devices filter findConnectedDevice ⟨idVendor, idProduct, k⟩ =
      ⟨idVendor, idProduct, k⟩ := by
  rw [enumerate_eq_foldl]
  exact foldl_findConnectedDevice_no_target _ _ h

/-- A hub pass that reports a port with the target ids leaves a non-zero index. -/
theorem enumerate_target_found (filter : FilterEntry) (idVendor idProduct k : Nat)
    (h : reportsTarget idVendor idProduct filter = true) :
    0 < (enumerate_all_connected_devices filter findConnectedDevice
      ⟨idVendor, idProduct, k⟩).indexFound := by
  rw [enumerate_eq_foldl, foldl_findConnectedDevice_indexFound]
  unfold reportsTarget at h
  rw [List.any_eq_true] at h
  obtain ⟨w, hw, hwt⟩ := h
  have hmem : w ∈ (passVisits filter).filter (PortVisit.isTarget idVendor idProduct) :=
    List.mem_filter.mpr ⟨hw, hwt⟩
  cases hl : ((passVisits filter).filter (PortVisit.isTarget idVendor idProduct)).getLast? with
  | none =>
      rw [List.getLast?_eq_none_iff] at hl
      rw [hl] at hmem
      simp at hmem
  | some u =>
      have hu : u ∈ (passVisits filter).filter (PortVisit.isTarget idVendor idProduct) :=
        List.mem_of_getLast?_eq_some hl
      exact passVisits_port_pos filter u (List.mem_filter.mp hu).1

/-- The locator loop runs through a prefix of endpoints without the target,
one pass each, and carries on with the rest. -/
theorem findDeviceLoop_skip (self : USBPcapHelper) (pre rest : List FilterEntry)
    (idVendor idProduct : Nat)
    (hpre : ∀ f ∈ pre, reportsTarget idVendor idProduct f = false) :
    findDeviceLoop self (pre ++ rest) ⟨idVendor, idProduct, 0⟩ =
      ⟨(findDeviceLoop self rest ⟨idVendor, idProduct, 0⟩).self,
        (findDeviceLoop self rest ⟨idVendor, idProduct, 0⟩).ret,
        pre.map FilterEntry.device ++
          (findDeviceLoop self rest ⟨idVendor, idProduct, 0⟩).passes⟩ := by
  induction pre with
  | nil => rfl
  | cons f fs ih =>
      have hf := hpre f (List.mem_cons_self f fs)
      have ih' := ih (fun g hg => hpre g (List.mem_cons_of_mem f hg))
      rw [List.cons_append]
      simp only [findDeviceLoop, enumerate_no_target f idVendor idProduct 0 hf,
        gt_iff_lt, lt_self_iff_false, if_false, List.map_cons]
      rw [ih']
      rfl

/-- C5: when the endpoints before `e` report no port with the target ids and the
hub pass of `e` reports one, `findDevice` returns true, sets `deviceAddr` to the
address of `e`, and has run one hub pass on each endpoint up to `e` and none on
the endpoints after it. -/
theorem findDevice_selects_first_match (self : USBPcapHelper)
    (pre post : List FilterEntry) (e : FilterEntry) (upperFilterInstalled : Bool)
    (idVendor idProduct : Nat)
    (hpre : ∀ f ∈ pre, reportsTarget idVendor idProduct f = false)
    (he : reportsTarget idVendor idProduct e = true) :
    (findDevice self (pre ++ e :: post) upperFilterInstalled idVendor idProduct).ret = true ∧
    (findDevice self (pre ++ e :: post) upperFilterInstalled idVendor idProduct).self =
      { self with deviceAddr := some e.device } ∧
    (findDevice self (pre ++ e :: post) upperFilterInstalled idVendor idProduct).passes =
      pre.map FilterEntry.device ++ [e.device] := by
  have hne : (pre ++ e :: post).isEmpty = false := by
    cases pre <;> rfl
  have hfound := enumerate_target_found e idVendor idProduct 0 he
  have hloop : findDeviceLoop self (e :: post) ⟨idVendor, idProduct, 0⟩ =
      ⟨{ self with deviceAddr := some e.device }, true, [e.device]⟩ := by
    simp only [findDeviceLoop, gt_iff_lt, hfound, if_true]
  simp only [findDevice, hne, Bool.false_eq_true, false_and, if_false,
    findDeviceLoop_skip self pre (e :: post) idVendor idProduct hpre, hloop, and_self]

/-- Witness: endpoints E1, E2, E3 with the target `(0x1234, 0x5678)` only
under E2, on port 3. -/
theorem findDevice_selects_first_match_witness :
    (∀ f ∈ [sampleE1], reportsTarget 0x1234 0x5678 f = false) ∧
    reportsTarget 0x1234 0x5678 sampleE2 = true ∧
    (findDevice fresh ([sampleE1] ++ sampleE2 :: [sampleE3]) true 0x1234 0x5678).ret = true ∧
    (findDevice fresh ([sampleE1] ++ sampleE2 :: [sampleE3]) true 0x1234 0x5678).self =
      { fresh with deviceAddr := some sampleE2.device } ∧
    (findDevice fresh ([sampleE1] ++ sampleE2 :: [sampleE3]) true 0x1234 0x5678).passes =
      [sampleE1].map FilterEntry.device ++ [sampleE2.device] :=
  ⟨by decide, by decide,
    findDevice_selects_first_match fresh [sampleE1] [sampleE3] sampleE2 true 0x1234 0x5678
      (by decide) (by decide)⟩

/-- C6: when no endpoint's hub pass reports a port with the target ids, the empty
endpoint list included, `findDevice` returns false and leaves the object state,
`deviceAddr` with it, as it was. -/
theorem findDevice_not_found (self : USBPcapHelper) (usbpcapFilters : List FilterEntry)
    (upperFilterInstalled : Bool) (idVendor idProduct : Nat)
    (hnone : ∀ f ∈ usbpcapFilters, reportsTarget idVendor idProduct f = false) :
    (findDevice self usbpcapFilters upperFilterInstalled idVendor idProduct).ret = false ∧
    (findDevice self usbpcapFilters upperFilterInstalled idVendor idProduct).self = self := by
  have hloop := findDeviceLoop_skip self usbpcapFilters [] idVendor idProduct hnone
  rw [List.append_nil] at hloop
  unfold findDevice
  split_ifs
  · exact ⟨rfl, rfl⟩
  · rw [hloop]
    exact ⟨rfl, rfl⟩

/-- Witness: endpoints E1 and E3 carry no `(0x1234, 0x5678)` device, and
the empty endpoint list carries none either. -/
theorem findDevice_not_found_witness :
    (∀ f ∈ [sampleE1, sampleE3], reportsTarget 0x1234 0x5678 f = false) ∧
    ((findDevice { fresh with deviceAddr := some "USBPcap7" } [sampleE1, sampleE3]
        true 0x1234 0x5678).ret = false ∧
      (findDevice { fresh with deviceAddr := some "USBPcap7" } [sampleE1, sampleE3]
        true 0x1234 0x5678).self = { fresh with deviceAddr := some "USBPcap7" }) ∧
    ((findDevice fresh [] true 0x1234 0x5678).ret = false ∧
      (findDevice fresh [] true 0x1234 0x5678).self = fresh) :=
  ⟨by decide,
    findDevice_not_found _ [sampleE1, sampleE3] true 0x1234 0x5678 (by decide),
    findDevice_not_found fresh [] true 0x1234 0x5678 (by simp)⟩

/-- C7 as stated fails: with the target on ports 1 and 2 of one hub, the first
matching port in visit order is 1, the index recorded after the pass is 2, and
it is the visit of port 2 that changes it from 1 to 2. -/
theorem findConnectedDevice_first_match_overwritten :
    ((passVisits sampleTwoTargets).find? (PortVisit.isTarget 0x1234 0x5678)).map
        PortVisit.port = some 1 ∧
    (enumerate_all_connected_devices sampleTwoTargets findConnectedDevice
        ⟨0x1234, 0x5678, 0⟩).indexFound = 2 ∧
    findConnectedDevice 2 2 ⟨0x1234, 0x5678⟩ ⟨0x1234, 0x5678, 1⟩ = ⟨0x1234, 0x5678, 2⟩ := by
  decide

/-- C7 as amended: after a hub pass the index recorded in the find context is
the port index of the last visited port carrying the target ids; when the pass
visits no such port the index is the one the pass started with. -/
theorem findConnectedDevice_records_last_match (filter : FilterEntry)
    (device : FindDeviceContext) :
    (enumerate_all_connected_devices filter findConnectedDevice device).indexFound =
      match ((passVisits filter).filter
          (PortVisit.isTarget device.idVendor device.idProduct)).getLast? with
      | some v => v.port
      | none => device.indexFound := by
  rw [enumerate_eq_foldl]
  exact foldl_findConnectedDevice_indexFound _ _

/-! ### Capture session -/

theorem findDeviceLoop_running (self : USBPcapHelper) (fs : List FilterEntry)
    (device : FindDeviceContext) :
    (findDeviceLoop self fs device).self.running = self.running := by
  induction fs generalizing device with
  | nil => rfl
  | cons f rest ih =>
      simp only [findDeviceLoop]
      split_ifs
      · rfl
      · exact ih _

theorem findDevice_running (self : USBPcapHelper) (fs : List FilterEntry) (up : Bool)
    (idVendor idProduct : Nat) :
    (findDevice self fs up idVendor idProduct).self.running = self.running := by
  unfold findDevice
  split_ifs
  · rfl
  · exact findDeviceLoop_running self fs _

/-- A `start()` that returns false leaves the running flag as it was; one that
returns true raises it. -/
theorem start_running (self : USBPcapHelper) (env : StartEnv) :
    ((start self env).ret = false → (start self env).self.running = self.running) ∧
    ((start self env).ret = true → (start self env).self.running = true) := by
  obtain ⟨a, h, b, c, d⟩ := env
  cases a <;> cases b <;> cases c <;> cases d <;>
    by_cases hh : h = HANDLE.INVALID_HANDLE_VALUE <;>
    simp [start, startFINISH, hh]

theorem calls_not_running (self : USBPcapHelper) (cs : List Call)
    (hstopped : self.running = false) (hno : noStartSucceeded self cs = true) :
    (calls self cs).running = false := by
  induction cs generalizing self with
  | nil => exact hstopped
  | cons c rest ih =>
      simp only [noStartSucceeded, Bool.and_eq_true, Bool.not_eq_true'] at hno
      simp only [calls]
      apply ih _ _ hno.2
      cases c with
      | findDevice fs up v p =>
          simp only [call]
          rw [findDevice_running]
          exact hstopped
      | start env =>
          simp only [call]
          have h := (start_running self env).1 hno.1
          rw [h]
          exact hstopped
      | stop => rfl
      | isRunning => exact hstopped

/-- C8: `isRunning()` is false on a freshly constructed session and after any
sequence of calls none of which is a `start()` returning true; `stop()` on a
session that is not running leaves the object state unchanged; `isRunning()` is
true right after a `start()` that returns true and false after any `stop()`. -/
theorem session_state_machine :
    (∀ indeterminate : HANDLE, isRunning (init indeterminate) = false) ∧
    (∀ (indeterminate : HANDLE) (cs : List Call),
      noStartSucceeded (init indeterminate) cs = true →
      isRunning (calls (init indeterminate) cs) = false) ∧
    (∀ self : USBPcapHelper, isRunning self = false → stop self = self) ∧
    (∀ (self : USBPcapHelper) (env : StartEnv),
      (start self env).ret = true → isRunning (start self env).self = true) ∧
    (∀ self : USBPcapHelper, isRunning (stop self) = false) := by
  refine ⟨fun _ => rfl, ?_, ?_, ?_, fun _ => rfl⟩
  · intro indeterminate cs hno
    exact calls_not_running (init indeterminate) cs rfl hno
  · intro self h
    cases self
    simp only [isRunning] at h
    simp only [stop, h]
  · intro self env h
    exact (start_running self env).2 h

/-- Witness: a fresh session on which a failing `start()`, a `stop()` and
an `isRunning()` are called; a stopped session that is stopped again; a session
started under answers that let `start()` go through. -/
theorem session_state_machine_witness :
    (noStartSucceeded fresh [Call.start setupBufferFailsEnv, Call.stop, Call.isRunning] = true ∧
      isRunning (calls fresh [Call.start setupBufferFailsEnv, Call.stop, Call.isRunning])
        = false) ∧
    (isRunning fresh = false ∧ stop fresh = fresh) ∧
    ((start fresh okEnv).ret = true ∧ isRunning (start fresh okEnv).self = true) :=
  ⟨⟨by decide, session_state_machine.2.1 HANDLE.INVALID_HANDLE_VALUE _ (by decide)⟩,
    ⟨by decide, session_state_machine.2.2.1 fresh (by decide)⟩,
    ⟨by decide, session_state_machine.2.2.2.1 fresh okEnv (by decide)⟩⟩

/-- A failed wait takes the read thread out of its loop and through its teardown,
and the object state, the running flag with it, stays as it was. -/
theorem readWait_wait_failed (L : WireLayout) (self : USBPcapHelper) (buffer : List Byte)
    (delivered : List (List Byte)) (sys : List SysCall) (rest : List LoopEvent) :
    readWait L self buffer delivered sys (LoopEvent.wait WaitResult.WAIT_FAILED :: rest) =
      some (readTeardown self buffer delivered sys) := by
  simp only [readWait]

/-- C9 (the code departs from it): in a started session whose first wait fails,
the read thread leaves its loop, cancels the pending read and closes the
endpoint, yet `isRunning()` still returns true afterwards. -/
theorem wait_failure_leaves_running_flag_set :
    isRunning startedSession = true ∧
    (readDataFromDevice specLayout startedSession
        [LoopEvent.wait WaitResult.WAIT_FAILED]).map
      (fun r => (r.exited, isRunning r.self, r.sys.drop 2)) =
      some (true, true, [SysCall.CancelIo (HANDLE.valid 7),
        SysCall.CloseHandle (HANDLE.valid 7), SysCall.CloseEvent]) := by
  have hrun : startedSession.running = true := rfl
  constructor
  · rfl
  · unfold readDataFromDevice
    rw [if_pos hrun, readWait_wait_failed]
    rfl

/-- C10: a `start()` called on a session that is not running and met by a failing
open or a failing configuration request returns false, leaves `isRunning()`
false, detaches no read thread and, when it had opened the endpoint, ends by
closing that handle; and `start()` returns true only if the open and the three
requests all succeeded. -/
theorem start_failure_atomic (self : USBPcapHelper) (env : StartEnv)
    (hstopped : isRunning self = false) :
    ((env.CreateFileA = HANDLE.INVALID_HANDLE_VALUE ∨ env.setSnaplen = false ∨
        env.setupBuffer = false ∨ env.startFiltering = false) →
      (start self env).ret = false ∧
      isRunning (start self env).self = false ∧
      SysCall.detachReadThread ∉ (start self env).sys ∧
      (SysCall.CreateFileA self.deviceAddr ∈ (start self env).sys →
        env.CreateFileA ≠ HANDLE.INVALID_HANDLE_VALUE →
        (start self env).sys.getLast? = some (SysCall.CloseHandle env.CreateFileA))) ∧
    ((start self env).ret = true →
      env.CreateFileA ≠ HANDLE.INVALID_HANDLE_VALUE ∧ env.setSnaplen = true ∧
        env.setupBuffer = true ∧ env.startFiltering = true) := by
  obtain ⟨a, h, b, c, d⟩ := env
  simp only [isRunning] at hstopped
  cases a <;> cases b <;> cases c <;> cases d <;>
    by_cases hh : h = HANDLE.INVALID_HANDLE_VALUE <;>
    simp [start, startFINISH, isRunning, hstopped, hh]

/-- Witness: on a fresh session the endpoint opens as handle 7 and the
buffer setup fails. -/
theorem start_failure_atomic_witness :
    isRunning fresh = false ∧
    (setupBufferFailsEnv.CreateFileA = HANDLE.INVALID_HANDLE_VALUE ∨
      setupBufferFailsEnv.setSnaplen = false ∨ setupBufferFailsEnv.setupBuffer = false ∨
      setupBufferFailsEnv.startFiltering = false) ∧
    ((start fresh setupBufferFailsEnv).ret = false ∧
      isRunning (start fresh setupBufferFailsEnv).self = false ∧
      SysCall.detachReadThread ∉ (start fresh setupBufferFailsEnv).sys ∧
      (SysCall.CreateFileA fresh.deviceAddr ∈ (start fresh setupBufferFailsEnv).sys →
        setupBufferFailsEnv.CreateFileA ≠ HANDLE.INVALID_HANDLE_VALUE →
        (start fresh setupBufferFailsEnv).sys.getLast? =
          some (SysCall.CloseHandle setupBufferFailsEnv.CreateFileA))) :=
  ⟨by decide, by decide,
    (start_failure_atomic fresh setupBufferFailsEnv (by decide)).1 (by decide)⟩

end USBPcapHelper

namespace USBPcapHelper
open USBPcap

/-! ### Re-entry of `start()` -/

/-- The calls `start()` makes and the value it returns do not depend on the
running flag; a `start()` that returns true has opened the endpoint and detached
one read thread. -/
theorem start_blind_to_running (self : USBPcapHelper) (env : StartEnv) (flag : Bool) :
    (start { self with running := flag } env).ret = (start self env).ret ∧
    (start { self with running := flag } env).sys = (start self env).sys ∧
    ((start self env).ret = true →
      (start self env).sys.count SysCall.detachReadThread = 1 ∧
      SysCall.CreateFileA self.deviceAddr ∈ (start self env).sys) ∧
    ((start self env).ret = false →
      (start self env).sys.count SysCall.detachReadThread = 0) := by
  obtain ⟨a, h, b, c, d⟩ := env
  cases a <;> cases b <;> cases c <;> cases d <;>
    by_cases hh : h = HANDLE.INVALID_HANDLE_VALUE <;>
    simp [start, startFINISH, hh, List.count_cons]

/-- The read thread never writes the object state: whatever the waits return,
the state it ends with is the one it began with unless a `stop()` of the caller
came in between. -/
theorem readWait_self (L : WireLayout) (events : List LoopEvent) :
    ∀ (self : USBPcapHelper) (buffer : List Byte) (delivered : List (List Byte))
      (sys : List SysCall) (r : LoopResult),
      readWait L self buffer delivered sys events = some r →
      (∀ e ∈ events, e ≠ LoopEvent.callerStop) → r.self = self := by
  induction events with
  | nil =>
      intro self buffer delivered sys r h _
      simp only [readWait, Option.some.injEq] at h
      rw [← h]
  | cons e rest ih =>
      intro self buffer delivered sys r h hno
      have hrest : ∀ e ∈ rest, e ≠ LoopEvent.callerStop :=
        fun e he => hno e (List.mem_cons_of_mem _ he)
      cases e with
      | callerStop => exact absurd rfl (hno _ (List.mem_cons_self _ _))
      | wait w =>
          cases w with
          | WAIT_OBJECT_0 data =>
              simp only [readWait] at h
              have hst := (processRawData_state_free L self self (fillBuffer buffer data)
                (min data.length buffer.length)).2
              cases hp : processRawData L self (fillBuffer buffer data)
                  (min data.length buffer.length) with
              | none => simp [hp] at h
              | some pr =>
                  obtain ⟨self1, cs⟩ := pr
                  have hs1 : self1 = self := hst (self1, cs) hp
                  subst hs1
                  simp only [hp] at h
                  split_ifs at h
                  · exact ih _ _ _ _ _ h hrest
                  · simp only [Option.some.injEq] at h
                    rw [← h]; rfl
          | WAIT_FAILED =>
              simp only [readWait, Option.some.injEq] at h
              rw [← h]; rfl
          | other =>
              simp only [readWait] at h
              split_ifs at h
              · exact ih _ _ _ _ _ h hrest
              · simp only [Option.some.injEq] at h
                rw [← h]; rfl

theorem launched_eq_successfulStarts (self : USBPcapHelper) (cs : List Call) :
    launched self cs = successfulStarts self cs := by
  induction cs generalizing self with
  | nil => rfl
  | cons c rest ih =>
      simp only [launched, successfulStarts, ih]
      congr 1
      cases c with
      | start env =>
          simp only [callSys, startSucceeded]
          have h := start_blind_to_running self env self.running
          by_cases hr : (start self env).ret = true
          · rw [(h.2.2.1 hr).1, if_pos hr]
          · simp only [Bool.not_eq_true] at hr
            rw [h.2.2.2 hr]
            simp [hr]
      | findDevice fs up v p => simp [callSys, startSucceeded]
      | stop => simp [callSys, startSucceeded]
      | isRunning => simp [callSys, startSucceeded]

/-- C11 as stated fails: on a session that is running, a second `start()` met by
a successful open and three successful requests opens the endpoint again and
detaches a second read thread; two read threads have been launched. -/
theorem start_while_running_starts_again :
    isRunning startedSession = true ∧
    (start startedSession okEnv).ret = true ∧
    (start startedSession okEnv).sys =
      [SysCall.CreateFileA (some "USBPcap2"), SysCall.SET_SNAPLEN_SIZE (HANDLE.valid 7) 65535,
        SysCall.SETUP_BUFFER (HANDLE.valid 7) 1048576, SysCall.START_FILTERING (HANDLE.valid 7),
        SysCall.detachReadThread] ∧
    launched fresh [Call.start okEnv, Call.start okEnv] = 2 := by
  decide

/-- C11 as amended: over every sequence of calls and loop events the running
flag changes only from false to true, by a `start()` that returns true, and
from true to false, by `stop()`; the read loop never changes the object state.
`start()` does not look at the flag: on a running session it makes the same
calls and returns the same value as on a stopped one, so the number of read
threads launched is the number of `start()` calls that returned true. -/
theorem running_flag_transitions :
    (∀ (self : USBPcapHelper) (c : Call),
      (call self c).1.running ≠ self.running →
        (self.running = false ∧ (call self c).1.running = true ∧
            startSucceeded self c = true) ∨
        (self.running = true ∧ (call self c).1.running = false ∧ c = Call.stop)) ∧
    (∀ (L : WireLayout) (events : List LoopEvent) (self : USBPcapHelper)
      (buffer : List Byte) (delivered : List (List Byte)) (sys : List SysCall)
      (r : LoopResult),
      readWait L self buffer delivered sys events = some r →
      (∀ e ∈ events, e ≠ LoopEvent.callerStop) → r.self = self) ∧
    (∀ (self : USBPcapHelper) (env : StartEnv) (flag : Bool),
      (start { self with running := flag } env).ret = (start self env).ret ∧
      (start { self with running := flag } env).sys = (start self env).sys) ∧
    (∀ (self : USBPcapHelper) (cs : List Call),
      launched self cs = successfulStarts self cs) := by
  refine ⟨?_, readWait_self, ?_, launched_eq_successfulStarts⟩
  · intro self c hne
    cases c with
    | findDevice fs up v p =>
        exact absurd (findDevice_running self fs up v p) hne
    | start env =>
        simp only [call] at hne ⊢
        have h := start_running self env
        by_cases hr : (start self env).ret = true
        · have h1 := h.2 hr
          left
          refine ⟨?_, h1, hr⟩
          cases hs : self.running with
          | false => rfl
          | true => rw [h1, hs] at hne; exact absurd rfl hne
        · simp only [Bool.not_eq_true] at hr
          exact absurd (h.1 hr) hne
    | stop =>
        right
        refine ⟨?_, rfl, rfl⟩
        cases hs : self.running with
        | false =>
            simp only [call, stop, hs] at hne
            exact absurd rfl hne
        | true => rfl
    | isRunning => exact absurd rfl hne
  · intro self env flag
    exact ⟨(start_blind_to_running self env flag).1, (start_blind_to_running self env flag).2.1⟩

/-- Witness: a `stop()` on a started session lowers the flag, and over a start, a
stop and a second start two read threads are launched by two successful starts. -/
theorem running_flag_transitions_witness :
    ((call startedSession Call.stop).1.running ≠ startedSession.running ∧
      ((startedSession.running = false ∧ (call startedSession Call.stop).1.running = true ∧
          startSucceeded startedSession Call.stop = true) ∨
        (startedSession.running = true ∧ (call startedSession Call.stop).1.running = false ∧
          Call.stop = Call.stop))) ∧
    (launched fresh [Call.start okEnv, Call.stop, Call.start okEnv] =
      successfulStarts fresh [Call.start okEnv, Call.stop, Call.start okEnv]) :=
  ⟨⟨by decide, running_flag_transitions.1 startedSession Call.stop (by decide)⟩,
    running_flag_transitions.2.2.2 fresh _⟩

end USBPcapHelper

namespace USBPcap
open USBPcapHelper

/-! ### Order of a hub pass and firing of the port visitor -/

theorem printVisitorStep_printed {σ : Type} (pc driverKey : Bool)
    (info : USB_NODE_CONNECTION_INFORMATION) (index level hubAddress : Nat)
    (st : EnumState σ) :
    (printVisitorStep pc driverKey info index level hubAddress st).printed =
      st.printed ++ (if pc = true ∧ driverKey = true then
        [⟨index, level, !info.DeviceIsHub, info.DeviceAddress, hubAddress⟩] else []) := by
  unfold printVisitorStep
  split_ifs <;> simp

theorem portVisitorStep_printed {σ : Type} (cb : Option (EnumConnectedPortCallback σ))
    (info : USB_NODE_CONNECTION_INFORMATION) (index : Nat) (st : EnumState σ) :
    (portVisitorStep cb info index st).printed = st.printed := by
  unfold portVisitorStep
  cases cb with
  | none => rfl
  | some f => simp only; split_ifs <;> rfl

mutual
/-- The calls of `PrintDeviceDesc` a hub pass makes are appended to those made
before, and they depend neither on those nor on the port visitor. -/
theorem EnumerateHub_printed_frame {σ τ : Type} (pc : Bool)
    (cb₁ : Option (EnumConnectedPortCallback σ)) (cb₂ : Option (EnumConnectedPortCallback τ))
    (pre : List PrintDeviceDescCall) :
    ∀ (h : Hub) (ci : Option USB_NODE_CONNECTION_INFORMATION) (level : Nat)
      (st₁ : EnumState σ) (st₂ : EnumState τ),
      st₁.printed = pre ++ st₂.printed →
      (EnumerateHub pc cb₁ h ci level st₁).printed =
        pre ++ (EnumerateHub pc cb₂ h ci level st₂).printed
  | .unavailable, _, _, _, _, hp => by
      simpa only [EnumerateHub] using hp
  | .node ports, ci, level, st₁, st₂, hp => by
      simp only [EnumerateHub]
      exact EnumerateHubPorts_printed_frame pc cb₁ cb₂ pre ports 1 level _ st₁ st₂ hp
/-- The same for the port loop. -/
theorem EnumerateHubPorts_printed_frame {σ τ : Type} (pc : Bool)
    (cb₁ : Option (EnumConnectedPortCallback σ)) (cb₂ : Option (EnumConnectedPortCallback τ))
    (pre : List PrintDeviceDescCall) :
    ∀ (ports : Ports) (index level hubAddress : Nat)
      (st₁ : EnumState σ) (st₂ : EnumState τ),
      st₁.printed = pre ++ st₂.printed →
      (EnumerateHubPorts pc cb₁ ports index level hubAddress st₁).printed =
        pre ++ (EnumerateHubPorts pc cb₂ ports index level hubAddress st₂).printed
  | .nil, _, _, _, _, _, hp => by
      simpa only [EnumerateHubPorts] using hp
  | .cons p rest, index, level, hubAddress, st₁, st₂, hp => by
      simp only [EnumerateHubPorts]
      exact EnumerateHubPorts_printed_frame pc cb₁ cb₂ pre rest (index + 1) level hubAddress
        _ _ (EnumeratePort_printed_frame pc cb₁ cb₂ pre p index level hubAddress st₁ st₂ hp)
/-- The same for the loop body. -/
theorem EnumeratePort_printed_frame {σ τ : Type} (pc : Bool)
    (cb₁ : Option (EnumConnectedPortCallback σ)) (cb₂ : Option (EnumConnectedPortCallback τ))
    (pre : List PrintDeviceDescCall) :
    ∀ (p : Port) (index level hubAddress : Nat)
      (st₁ : EnumState σ) (st₂ : EnumState τ),
      st₁.printed = pre ++ st₂.printed →
      (EnumeratePort pc cb₁ p index level hubAddress st₁).printed =
        pre ++ (EnumeratePort pc cb₂ p index level hubAddress st₂).printed
  | .queryFailed, _, _, _, _, _, hp => by
      simpa only [EnumeratePort] using hp
  | .conn info driverKey ext, index, level, hubAddress, st₁, st₂, hp => by
      simp only [EnumeratePort]
      have h2 : (portVisitorStep cb₁ info index
            (printVisitorStep pc driverKey info index level hubAddress st₁)).printed =
          pre ++ (portVisitorStep cb₂ info index
            (printVisitorStep pc driverKey info index level hubAddress st₂)).printed := by
        rw [portVisitorStep_printed, portVisitorStep_printed, printVisitorStep_printed,
          printVisitorStep_printed, hp, List.append_assoc]
      split_ifs
      · exact EnumerateHub_printed_frame pc cb₁ cb₂ pre ext _ _ _ _ h2
      · exact h2
      · exact hp
end

theorem recordVisit_frame (pre : List PortVisit) :
    ∀ (index addr : Nat) (desc : USB_DEVICE_DESCRIPTOR) (a b : List PortVisit),
      1 ≤ index → a = pre ++ b →
      recordVisit index addr desc a = pre ++ recordVisit index addr desc b := by
  intro index addr desc a b _ hab
  simp only [recordVisit, hab, List.append_assoc]

/-- The visits a loop body records are appended to those recorded before. -/
theorem EnumeratePort_visits_frame (pc : Bool) (p : Port) (index level hubAddress : Nat)
    (st : EnumState (List PortVisit)) (hi : 1 ≤ index) :
    (EnumeratePort pc (some recordVisit) p index level hubAddress st).port_ctx =
      st.port_ctx ++ portVisits p index level hubAddress := by
  unfold portVisits
  exact USBPcapHelper.EnumeratePort_lockstep (fun a b => a = st.port_ctx ++ b)
    recordVisit recordVisit (recordVisit_frame st.port_ctx) pc false p index level level
    hubAddress hubAddress st ⟨[], []⟩ hi (by simp)

/-- The visits a port loop records are appended to those recorded before. -/
theorem EnumerateHubPorts_visits_frame (pc : Bool) (ports : Ports)
    (index level hubAddress : Nat) (st : EnumState (List PortVisit)) (hi : 1 ≤ index) :
    (EnumerateHubPorts pc (some recordVisit) ports index level hubAddress st).port_ctx =
      st.port_ctx ++ portsVisits ports index level hubAddress := by
  unfold portsVisits
  exact USBPcapHelper.EnumerateHubPorts_lockstep (fun a b => a = st.port_ctx ++ b)
    recordVisit recordVisit (recordVisit_frame st.port_ctx) pc false ports index level level
    hubAddress hubAddress st ⟨[], []⟩ hi (by simp)

/-- The visits a hub pass records are appended to those recorded before. -/
theorem EnumerateHub_visits_frame (pc : Bool) (h : Hub)
    (ci : Option USB_NODE_CONNECTION_INFORMATION) (level : Nat)
    (st : EnumState (List PortVisit)) :
    (EnumerateHub pc (some recordVisit) h ci level st).port_ctx =
      st.port_ctx ++ hubVisits h ci level := by
  unfold hubVisits
  exact USBPcapHelper.EnumerateHub_lockstep (fun a b => a = st.port_ctx ++ b)
    recordVisit recordVisit (recordVisit_frame st.port_ctx) pc false h ci level level
    st ⟨[], []⟩ (by simp)

theorem EnumeratePort_printed_append {σ : Type} (pc : Bool)
    (cb : Option (EnumConnectedPortCallback σ)) (p : Port) (index level hubAddress : Nat)
    (st : EnumState σ) :
    (EnumeratePort pc cb p index level hubAddress st).printed =
      st.printed ++ portPrinted pc p index level hubAddress := by
  unfold portPrinted
  exact EnumeratePort_printed_frame pc cb none st.printed p index level hubAddress st
    ⟨(), []⟩ (by simp)

theorem EnumerateHubPorts_printed_append {σ : Type} (pc : Bool)
    (cb : Option (EnumConnectedPortCallback σ)) (ports : Ports)
    (index level hubAddress : Nat) (st : EnumState σ) :
    (EnumerateHubPorts pc cb ports index level hubAddress st).printed =
      st.printed ++ portsPrinted pc ports index level hubAddress := by
  unfold portsPrinted
  exact EnumerateHubPorts_printed_frame pc cb none st.printed ports index level hubAddress st
    ⟨(), []⟩ (by simp)

theorem EnumerateHub_printed_append {σ : Type} (pc : Bool)
    (cb : Option (EnumConnectedPortCallback σ)) (h : Hub)
    (ci : Option USB_NODE_CONNECTION_INFORMATION) (level : Nat) (st : EnumState σ) :
    (EnumerateHub pc cb h ci level st).printed = st.printed ++ hubPrinted pc h ci level := by
  unfold hubPrinted
  exact EnumerateHub_printed_frame pc cb none st.printed h ci level st ⟨(), []⟩ (by simp)

/-- C17: a hub pass handles the ports of a hub in ascending index order from 1:
what the visitors see of a hub is what they see of port 1, then of port 2, and
so on; what they see of a port carrying a hub is the call for that port itself
followed by the whole pass of the hub behind it, run at the level of the port
plus one, and all of it comes before anything of the next port. -/
theorem EnumerateHubPorts_order (pc : Bool) (index level hubAddress : Nat)
    (hi : 1 ≤ index) :
    (∀ (ports : Ports) (ci : Option USB_NODE_CONNECTION_INFORMATION)
        (st : EnumState (List PortVisit)),
      (EnumerateHub pc (some recordVisit) (Hub.node ports) ci level st).port_ctx =
        st.port_ctx ++ portsVisits ports 1 level (hubAddressOf ci) ∧
      (EnumerateHub pc (some recordVisit) (Hub.node ports) ci level st).printed =
        st.printed ++ portsPrinted pc ports 1 level (hubAddressOf ci)) ∧
    (∀ (p : Port) (rest : Ports) (st : EnumState (List PortVisit)),
      (EnumerateHubPorts pc (some recordVisit) (Ports.cons p rest) index level hubAddress
          st).port_ctx =
        st.port_ctx ++ portVisits p index level hubAddress ++
          portsVisits rest (index + 1) level hubAddress ∧
      (EnumerateHubPorts pc (some recordVisit) (Ports.cons p rest) index level hubAddress
          st).printed =
        st.printed ++ portPrinted pc p index level hubAddress ++
          portsPrinted pc rest (index + 1) level hubAddress) ∧
    (∀ (info : USB_NODE_CONNECTION_INFORMATION) (driverKey : Bool) (ext : Hub),
      info.ConnectionStatus ≠ USB_CONNECTION_STATUS.NoDeviceConnected →
      info.DeviceIsHub = true →
      portVisits (Port.conn info driverKey ext) index level hubAddress =
        (if info.ConnectionStatus = USB_CONNECTION_STATUS.DeviceConnected then
          [⟨index, info.DeviceAddress, info.DeviceDescriptor⟩] else []) ++
          hubVisits ext (some info) (level + 1) ∧
      portPrinted pc (Port.conn info driverKey ext) index level hubAddress =
        (if pc = true ∧ driverKey = true then
          [⟨index, level, false, info.DeviceAddress, hubAddress⟩] else []) ++
          hubPrinted pc ext (some info) (level + 1)) := by
  refine ⟨?_, ?_, ?_⟩
  · intro ports ci st
    constructor
    · have h := EnumerateHubPorts_visits_frame pc ports 1 level (hubAddressOf ci) st (le_refl 1)
      cases ci <;> simpa only [EnumerateHub, hubAddressOf] using h
    · have h := EnumerateHubPorts_printed_append pc (some recordVisit) ports 1 level
        (hubAddressOf ci) st
      cases ci <;> simpa only [EnumerateHub, hubAddressOf] using h
  · intro p rest st
    constructor
    · simp only [EnumerateHubPorts]
      rw [EnumerateHubPorts_visits_frame pc rest (index + 1) level hubAddress _
        (Nat.le_add_left 1 index), EnumeratePort_visits_frame pc p index level hubAddress st hi]
    · simp only [EnumerateHubPorts]
      rw [EnumerateHubPorts_printed_append, EnumeratePort_printed_append]
  · intro info driverKey ext hs hh
    constructor
    · unfold portVisits
      simp only [EnumeratePort, ne_eq, hs, not_false_eq_true, if_true, hh]
      rw [EnumerateHub_visits_frame, USBPcapHelper.portVisitorStep_port_ctx,
        USBPcapHelper.printVisitorStep_port_ctx]
      split_ifs <;> simp [recordVisit]
    · unfold portPrinted
      simp only [EnumeratePort, ne_eq, hs, not_false_eq_true, if_true, hh]
      rw [EnumerateHub_printed_append, portVisitorStep_printed, printVisitorStep_printed]
      simp [hh]

/-- Witness: the root hub of `sampleNestedPorts`, whose port 1 carries an
external hub with a device on its own port 1, handled at level 0 with a print
visitor set. -/
theorem EnumerateHubPorts_order_witness :
    ((1 : Nat) ≤ 1) ∧
    ((hubInfo 1).ConnectionStatus ≠ USB_CONNECTION_STATUS.NoDeviceConnected) ∧
    ((hubInfo 1).DeviceIsHub = true) ∧
    (portVisits (Port.conn (hubInfo 1) true (Hub.node sampleInnerPorts)) 1 0 0 =
        (if (hubInfo 1).ConnectionStatus = USB_CONNECTION_STATUS.DeviceConnected then
          [⟨1, (hubInfo 1).DeviceAddress, (hubInfo 1).DeviceDescriptor⟩] else []) ++
          hubVisits (Hub.node sampleInnerPorts) (some (hubInfo 1)) (0 + 1) ∧
      portPrinted true (Port.conn (hubInfo 1) true (Hub.node sampleInnerPorts)) 1 0 0 =
        (if true = true ∧ true = true then
          [⟨1, 0, false, (hubInfo 1).DeviceAddress, 0⟩] else []) ++
          hubPrinted true (Hub.node sampleInnerPorts) (some (hubInfo 1)) (0 + 1)) ∧
    (portsVisits sampleNestedPorts 1 0 0).map PortVisit.deviceAddress = [1, 3, 2] ∧
    (portsPrinted true sampleNestedPorts 1 0 0).map
        (fun c => (c.Index, c.Level, c.deviceAddress, c.parentAddress)) =
      [(1, 0, 1, 0), (1, 1, 3, 1), (2, 1, 0, 1), (3, 0, 2, 0)] :=
  ⟨by decide, by decide, by decide,
    (EnumerateHubPorts_order true 1 0 0 (by decide)).2.2 (hubInfo 1) true
      (Hub.node sampleInnerPorts) (by decide) (by decide),
    by decide, by decide⟩

theorem portsVisits_cons (p : Port) (rest : Ports) (index level hubAddress : Nat) :
    portsVisits (Ports.cons p rest) index level hubAddress =
      portVisits p index level hubAddress ++ portsVisits rest (index + 1) level hubAddress := by
  have h := EnumerateHubPorts_visits_frame false rest (index + 1) level hubAddress
    (EnumeratePort false (some recordVisit) p index level hubAddress ⟨[], []⟩)
    (Nat.le_add_left 1 index)
  simpa only [portsVisits, portVisits, EnumerateHubPorts] using h

/-- On a hub none of whose ports carries a hub, the recorded visits are the
ones the spec asks for. -/
theorem portsVisits_flat :
    ∀ (ports : Ports) (index level hubAddress : Nat), 1 ≤ index → ports.flat = true →
      portsVisits ports index level hubAddress = connectedPortVisits ports index
  | .nil, _, _, _, _, _ => rfl
  | .cons .queryFailed rest, index, level, hubAddress, _, hflat => by
      rw [portsVisits_cons]
      simp only [Ports.flat] at hflat
      rw [portsVisits_flat rest (index + 1) level hubAddress (Nat.le_add_left 1 index) hflat]
      simp [portVisits, EnumeratePort, connectedPortVisits]
  | .cons (.conn info dk ext) rest, index, level, hubAddress, _, hflat => by
      rw [portsVisits_cons]
      simp only [Ports.flat, Bool.and_eq_true, Bool.not_eq_true'] at hflat
      rw [portsVisits_flat rest (index + 1) level hubAddress (Nat.le_add_left 1 index) hflat.2]
      simp only [connectedPortVisits]
      congr 1
      unfold portVisits
      simp only [EnumeratePort, hflat.1, Bool.false_eq_true, if_false]
      by_cases hs : info.ConnectionStatus = USB_CONNECTION_STATUS.NoDeviceConnected
      · simp [hs]
      · simp only [ne_eq, hs, not_false_eq_true, if_true]
        rw [USBPcapHelper.portVisitorStep_port_ctx, USBPcapHelper.printVisitorStep_port_ctx]
        split_ifs <;> simp [recordVisit]

/-- C18: with a port visitor set, the loop body of `EnumerateHubPorts` invokes the
visitor once, with the port's index, device address and descriptor, when the
query of the port succeeds with status `DeviceConnected` (before the pass of a
hub behind the port, if any), and not at all when the query fails, the status is
`NoDeviceConnected` or the status is any other one; a port whose query fails is
passed over and the loop goes on with the next port; on a hub without hubs
behind its ports the visits are exactly those of the connected ports, in index
order. -/
theorem port_visitor_firing {σ : Type} (pc : Bool) (cb : EnumConnectedPortCallback σ)
    (index level hubAddress : Nat) (st : EnumState σ) :
    (EnumeratePort pc (some cb) Port.queryFailed index level hubAddress st = st) ∧
    (∀ (rest : Ports),
      EnumerateHubPorts pc (some cb) (Ports.cons Port.queryFailed rest) index level
          hubAddress st =
        EnumerateHubPorts pc (some cb) rest (index + 1) level hubAddress st) ∧
    (∀ (info : USB_NODE_CONNECTION_INFORMATION) (driverKey : Bool) (ext : Hub),
      (info.ConnectionStatus = USB_CONNECTION_STATUS.NoDeviceConnected →
        EnumeratePort pc (some cb) (Port.conn info driverKey ext) index level hubAddress st
          = st) ∧
      (info.ConnectionStatus = USB_CONNECTION_STATUS.DeviceConnected →
        info.DeviceIsHub = false →
        (EnumeratePort pc (some cb) (Port.conn info driverKey ext) index level hubAddress
            st).port_ctx =
          cb index info.DeviceAddress info.DeviceDescriptor st.port_ctx) ∧
      (info.ConnectionStatus = USB_CONNECTION_STATUS.DeviceConnected →
        info.DeviceIsHub = true →
        (EnumeratePort pc (some cb) (Port.conn info driverKey ext) index level hubAddress
            st).port_ctx =
          (EnumerateHub pc (some cb) ext (some info) (level + 1)
            ⟨cb index info.DeviceAddress info.DeviceDescriptor st.port_ctx,
              st.printed⟩).port_ctx) ∧
      (∀ code, info.ConnectionStatus = USB_CONNECTION_STATUS.other code →
        info.DeviceIsHub = false →
        (EnumeratePort pc (some cb) (Port.conn info driverKey ext) index level hubAddress
            st).port_ctx = st.port_ctx) ∧
      (∀ code, info.ConnectionStatus = USB_CONNECTION_STATUS.other code →
        info.DeviceIsHub = true →
        (EnumeratePort pc (some cb) (Port.conn info driverKey ext) index level hubAddress
            st).port_ctx =
          (EnumerateHub pc (some cb) ext (some info) (level + 1) st).port_ctx)) ∧
    (∀ (ports : Ports), 1 ≤ index → ports.flat = true →
      portsVisits ports index level hubAddress = connectedPortVisits ports index) := by
  refine ⟨by simp only [EnumeratePort], fun rest => by simp only [EnumerateHubPorts, EnumeratePort],
    ?_, fun ports hi hflat => portsVisits_flat ports index level hubAddress hi hflat⟩
  intro info driverKey ext
  refine ⟨?_, ?_, ?_, ?_, ?_⟩
  · intro hs
    simp only [EnumeratePort, hs, ne_eq, not_true_eq_false, if_false]
  · intro hs hh
    simp only [EnumeratePort, hs, ne_eq, reduceCtorEq, not_false_eq_true, if_true, hh,
      Bool.false_eq_true, if_false]
    rw [USBPcapHelper.portVisitorStep_port_ctx, USBPcapHelper.printVisitorStep_port_ctx]
    simp [hs]
  · intro hs hh
    simp only [EnumeratePort, hs, ne_eq, reduceCtorEq, not_false_eq_true, if_true, hh]
    refine USBPcapHelper.EnumerateHub_lockstep (fun a b => a = b) cb cb ?_ pc pc ext
      (some info) (level + 1) (level + 1) _ _ ?_
    · intro i a d x y _ hxy
      rw [hxy]
    · rw [USBPcapHelper.portVisitorStep_port_ctx, USBPcapHelper.printVisitorStep_port_ctx]
      simp [hs]
  · intro code hs hh
    simp only [EnumeratePort, hs, ne_eq, reduceCtorEq, not_false_eq_true, if_true, hh,
      Bool.false_eq_true, if_false]
    rw [USBPcapHelper.portVisitorStep_port_ctx, USBPcapHelper.printVisitorStep_port_ctx]
    simp [hs]
  · intro code hs hh
    simp only [EnumeratePort, hs, ne_eq, reduceCtorEq, not_false_eq_true, if_true, hh]
    refine USBPcapHelper.EnumerateHub_lockstep (fun a b => a = b) cb cb ?_ pc pc ext
      (some info) (level + 1) (level + 1) _ _ ?_
    · intro i a d x y _ hxy
      rw [hxy]
    · rw [USBPcapHelper.portVisitorStep_port_ctx, USBPcapHelper.printVisitorStep_port_ctx]
      simp [hs]

/-- Witness: the root hub of `sampleFlatPorts`: a device on port 1, a failing
query on port 2, an empty port 3, a failed enumeration on port 4, a device on
port 5; the visitor is invoked for ports 1 and 5. -/
theorem port_visitor_firing_witness :
    ((1 : Nat) ≤ 1) ∧ (sampleFlatPorts.flat = true) ∧
    (portsVisits sampleFlatPorts 1 0 0 = connectedPortVisits sampleFlatPorts 1) ∧
    (connectedPortVisits sampleFlatPorts 1 =
      [⟨1, 1, ⟨0x046d, 0xc077⟩⟩, ⟨5, 2, ⟨0x1234, 0x5678⟩⟩]) :=
  ⟨by decide, by decide,
    (port_visitor_firing false recordVisit 1 0 0 ⟨[], []⟩).2.2.2 sampleFlatPorts
      (by decide) (by decide),
    by decide⟩

/-! ### Lines of the configuration protocol -/

/-- For an argument below 2^31, `%d` writes its decimal numeral. -/
theorem printf_d_small (x : Nat) (h : x < 2 ^ 31) : printf_d x = toString x := by
  unfold printf_d
  have hx : x % 2 ^ 32 = x := Nat.mod_eq_of_lt (by omega)
  rw [hx, if_pos h]

/-- C19: `print_extcap_config` writes, for node = 0, the line
`value {arg=K}{value=ADDR}{display=[ADDR] LABEL}{enabled=true}` followed by
`{parent=PARENTADDR}` exactly when parentAddress is not 0, and for node ≠ 0 the
line `value {arg=K}{value=ADDR_NODE}{display=LABEL}{enabled=false}` followed by
`{parent=ADDR}` when parentNode = 0 and by `{parent=ADDR_PARENTNODE}` otherwise;
each line ends with a newline, K is `EXTCAP_ARGNUM_MULTICHECK`, and the numbers
are written by `%d`. -/
theorem print_extcap_config_format (K level port : Nat) (LABEL : String)
    (deviceAddress parentAddress node parentNode : Nat) :
    (node = 0 →
      print_extcap_config K level port (some LABEL) deviceAddress parentAddress node
          parentNode =
        some (deviceLine (printf_d K) (printf_d deviceAddress) LABEL
          (if parentAddress ≠ 0 then some (printf_d parentAddress) else none))) ∧
    (node ≠ 0 →
      print_extcap_config K level port (some LABEL) deviceAddress parentAddress node
          parentNode =
        some (subNodeLine (printf_d K) (printf_d deviceAddress) (printf_d node) LABEL
          (if parentNode = 0 then none else some (printf_d parentNode)))) ∧
    (∀ (PARENT : Option String) (A B C D : String),
      (deviceLine A B C PARENT).data.getLast? = some '\n' ∧
      (subNodeLine A B C D PARENT).data.getLast? = some '\n') := by
  refine ⟨?_, ?_, ?_⟩
  · intro h0
    simp only [print_extcap_config, h0, ne_eq, not_true_eq_false, if_false, deviceLine]
    split_ifs <;> simp [String.append_assoc]
  · intro h0
    simp only [print_extcap_config, ne_eq, h0, not_false_eq_true, if_true, subNodeLine]
    split_ifs <;> simp [String.append_assoc]
  · intro PARENT A B C D
    have hnl : ∀ X : String, (X ++ "\n").data.getLast? = some '\n' := by
      intro X
      rw [String.data_append]
      exact List.getLast?_concat _
    exact ⟨hnl _, hnl _⟩

/-- Witness: the lines written for a device at address 3 under the hub at
address 1, and for its sub-node 2 under sub-node 1. -/
theorem print_extcap_config_format_witness :
    ((0 : Nat) = 0) ∧ ((2 : Nat) ≠ 0) ∧
    (print_extcap_config 99 1 2 (some "Mouse") 3 1 0 0 =
        some (deviceLine (printf_d 99) (printf_d 3) "Mouse"
          (if (1 : Nat) ≠ 0 then some (printf_d 1) else none))) ∧
    (print_extcap_config 99 2 0 (some "HID") 3 3 2 1 =
        some (subNodeLine (printf_d 99) (printf_d 3) (printf_d 2) "HID"
          (if (1 : Nat) = 0 then none else some (printf_d 1)))) ∧
    (print_extcap_config 99 1 2 (some "Mouse") 3 1 0 0 =
      some "value \x7barg=99\x7d\x7bvalue=3\x7d\x7bdisplay=[3] Mouse\x7d\x7benabled=true\x7d\x7bparent=1\x7d\n") ∧
    (print_extcap_config 99 2 0 (some "HID") 3 3 2 1 =
      some "value \x7barg=99\x7d\x7bvalue=3_2\x7d\x7bdisplay=HID\x7d\x7benabled=false\x7d\x7bparent=3_1\x7d\n") :=
  ⟨by decide, by decide,
    (print_extcap_config_format 99 1 2 "Mouse" 3 1 0 0).1 (by decide),
    (print_extcap_config_format 99 2 0 "HID" 3 3 2 1).2.1 (by decide),
    by decide, by decide⟩

/-! ### The registry walk on a registry tree -/

theorem Walk.after_nil (w : Walk) : Walk.after [] w = w := by
  cases w; rfl

theorem Walk.after_append (a b : List Iter) (w : Walk) :
    Walk.after (a ++ b) w = Walk.after a (Walk.after b w) := by
  simp [Walk.after, List.append_assoc]

theorem walkLoop_child (reg : Registry) (parent : DEVINST) (indent deviceAddress : Nat)
    (budget : Nat) (st : WalkState) (next : DEVINST)
    (hlevel : st.level > indent) (hchild : reg.CM_Get_Child st.current = some next) :
    walkLoop reg parent indent deviceAddress (budget + 1) st =
      Walk.after [⟨st, visitNode reg deviceAddress st⟩]
        (walkLoop reg parent indent deviceAddress budget
          ⟨next, st.level + 1, (st.nextNode + 1) % 65536,
            stack_push st.nodeStack st.nextNode⟩) := by
  simp only [walkLoop, hlevel, if_true, hchild]

theorem walkLoop_leaf (reg : Registry) (parent : DEVINST) (indent deviceAddress : Nat)
    (budget : Nat) (st : WalkState)
    (hlevel : st.level > indent) (hchild : reg.CM_Get_Child st.current = none) :
    walkLoop reg parent indent deviceAddress (budget + 1) st =
      Walk.after [⟨st, visitNode reg deviceAddress st⟩]
        (walkFinishWith (walkLoop reg parent indent deviceAddress budget) reg parent
          indent st.current st.level ((st.nextNode + 1) % 65536) st.nodeStack) := by
  simp only [walkLoop, hlevel, if_true, hchild]

/-- The inner loop at the last child of `p`: it climbs to `p` and goes on from
there. -/
theorem walkFinish_last (reg : Registry) (parent : DEVINST) (indent deviceAddress : Nat)
    (budget : Nat) (x p : DEVINST) (d n v : Nat) (nodeStack : List Nat)
    (hsib : reg.CM_Get_Sibling x = SiblingResult.CR_NO_SUCH_DEVNODE)
    (hpar : reg.CM_Get_Parent x = some p) :
    walkFinishWith (walkLoop reg parent indent deviceAddress budget) reg parent indent
        x (indent + d + 1) n (v :: nodeStack) =
      afterChildren reg parent indent deviceAddress budget p d n nodeStack := by
  have hd : indent + d + 1 - indent - 1 = d := by omega
  rw [walkFinishWith, hd]
  cases d with
  | zero =>
      rw [ascend]
      simp only [hsib, hpar, afterChildren, stack_pop, List.tail_cons]
  | succ d' =>
      have hd' : indent + d' + 1 - indent - 1 = d' := by omega
      rw [ascend]
      simp only [hsib, hpar, afterChildren, stack_pop, List.tail_cons]
      split_ifs
      · rfl
      · rw [walkFinishWith, hd']

/-- The inner loop at a node with a next sibling: the walk goes on there. -/
theorem walkFinish_sibling (reg : Registry) (parent : DEVINST) (indent deviceAddress : Nat)
    (budget : Nat) (x y : DEVINST) (d n : Nat) (nodeStack : List Nat)
    (hsib : reg.CM_Get_Sibling x = SiblingResult.CR_SUCCESS y) :
    walkFinishWith (walkLoop reg parent indent deviceAddress budget) reg parent indent
        x (indent + d + 1) n nodeStack =
      walkLoop reg parent indent deviceAddress budget ⟨y, indent + d + 1, n, nodeStack⟩ := by
  have hd : indent + d + 1 - indent - 1 = d := by omega
  rw [walkFinishWith, hd, ascend]
  simp only [hsib]

theorem DevForest.first?_eq_none (f : DevForest) (h : f.first? = none) : f = DevForest.nil := by
  cases f with
  | nil => rfl
  | cons t rest => simp [DevForest.first?] at h

theorem DevForest.sibling?_of_first? (f : DevForest) (y : DEVINST) (h : f.first? = some y) :
    f.sibling? = SiblingResult.CR_SUCCESS y := by
  cases f with
  | nil => simp [DevForest.first?] at h
  | cons t rest =>
      simp only [DevForest.first?, Option.some.injEq] at h
      simp only [DevForest.sibling?, h]

theorem DevTree.consistent_root (reg : Registry) (p : DEVINST) (next : SiblingResult)
    (t : DevTree) (h : t.consistent reg p next = true) :
    reg.CM_Get_Parent t.inst = some p ∧ reg.CM_Get_Sibling t.inst = next := by
  cases t with
  | node x cs =>
      simp only [DevTree.consistent, Bool.and_eq_true, decide_eq_true_eq] at h
      exact ⟨h.1.1.1, h.1.1.2⟩

theorem DevTree.inst_mem_preorder (t : DevTree) : t.inst ∈ t.preorder := by
  cases t with
  | node x cs => simp [DevTree.inst, DevTree.preorder]

mutual
/-- On a subtree of a registry tree the main loop makes the passes of the
depth-first pre-order walk of that subtree and then stands in the inner loop at
the root of the subtree. -/
theorem walkLoop_tree (reg : Registry) (parent : DEVINST) (indent deviceAddress : Nat) :
    ∀ (t : DevTree) (p : DEVINST) (next : SiblingResult) (d n : Nat)
      (nodeStack : List Nat) (b : Nat),
      t.consistent reg p next = true → (∀ y ∈ t.preorder, y ≠ parent) →
      n + t.size < 65536 →
      walkLoop reg parent indent deviceAddress (b + t.size)
          ⟨t.inst, indent + d + 1, n, nodeStack⟩ =
        Walk.after (t.iters reg deviceAddress (indent + d + 1) n nodeStack)
          (walkFinishWith (walkLoop reg parent indent deviceAddress b) reg parent indent
            t.inst (indent + d + 1) (n + t.size) nodeStack)
  | .node x cs, p, next, d, n, nodeStack, b, hc, hne, hn => by
      simp only [DevTree.consistent, Bool.and_eq_true, decide_eq_true_eq] at hc
      obtain ⟨⟨⟨_, _⟩, hchild⟩, hcs⟩ := hc
      simp only [DevTree.size] at hn ⊢
      have hlevel : indent + d + 1 > indent := by omega
      have hmod : (n + 1) % 65536 = n + 1 := Nat.mod_eq_of_lt (by omega)
      have hb : b + (1 + cs.size) = (b + cs.size) + 1 := by omega
      simp only [DevTree.inst, DevTree.iters]
      rw [hb]
      cases hfirst : cs.first? with
      | none =>
          have hnil := DevForest.first?_eq_none cs hfirst
          rw [hfirst] at hchild
          rw [walkLoop_leaf reg parent indent deviceAddress _ _ hlevel hchild]
          subst hnil
          simp only [DevForest.size, DevForest.iters, Nat.add_zero, hmod]
      | some c =>
          rw [hfirst] at hchild
          rw [walkLoop_child reg parent indent deviceAddress _ _ c hlevel hchild]
          have hx : x ≠ parent := hne x (by simp [DevTree.preorder])
          have hne' : ∀ y ∈ cs.preorder, y ≠ parent :=
            fun y hy => hne y (by simp [DevTree.preorder, hy])
          have hrec := walkLoop_forest reg parent indent deviceAddress cs x c (d + 1) (n + 1) n
            nodeStack b hcs hne' (by omega) hfirst
          simp only [hmod, stack_push]
          have hl : indent + d + 1 + 1 = indent + (d + 1) + 1 := by omega
          rw [hl, hrec]
          simp only [afterChildren, hx, if_false, Walk.after, List.cons_append, List.nil_append,
            List.singleton_append]
          have hsum : n + 1 + cs.size = n + (1 + cs.size) := by omega
          rw [hsum]
/-- On the children of a node of a registry tree the main loop makes the passes
of the depth-first pre-order walk of the children, one subtree after the other,
and then climbs to the node. -/
theorem walkLoop_forest (reg : Registry) (parent : DEVINST) (indent deviceAddress : Nat) :
    ∀ (f : DevForest) (p x : DEVINST) (d n v : Nat) (nodeStack : List Nat) (b : Nat),
      f.consistent reg p = true → (∀ y ∈ f.preorder, y ≠ parent) →
      n + f.size < 65536 → f.first? = some x →
      walkLoop reg parent indent deviceAddress (b + f.size)
          ⟨x, indent + d + 1, n, v :: nodeStack⟩ =
        Walk.after (f.iters reg deviceAddress (indent + d + 1) n (v :: nodeStack))
          (afterChildren reg parent indent deviceAddress b p d (n + f.size) nodeStack)
  | .nil, _, _, _, _, _, _, _, _, _, _, hfirst => by
      simp [DevForest.first?] at hfirst
  | .cons t rest, p, x, d, n, v, nodeStack, b, hc, hne, hn, hfirst => by
      simp only [DevForest.consistent, Bool.and_eq_true] at hc
      simp only [DevForest.first?, Option.some.injEq] at hfirst
      simp only [DevForest.size] at hn ⊢
      have hroot := DevTree.consistent_root reg p rest.sibling? t hc.1
      have hne_t : ∀ y ∈ t.preorder, y ≠ parent :=
        fun y hy => hne y (by simp [DevForest.preorder, hy])
      have hne_r : ∀ y ∈ rest.preorder, y ≠ parent :=
        fun y hy => hne y (by simp [DevForest.preorder, hy])
      have hb : b + (t.size + rest.size) = (b + rest.size) + t.size := by omega
      have htree := walkLoop_tree reg parent indent deviceAddress t p rest.sibling? d n
        (v :: nodeStack) (b + rest.size) hc.1 hne_t (by omega)
      rw [hb, ← hfirst, htree]
      simp only [DevForest.iters, Walk.after_append]
      congr 1
      cases hrest : rest.first? with
      | none =>
          have hnil := DevForest.first?_eq_none rest hrest
          subst hnil
          simp only [DevForest.sibling?] at hroot
          simp only [DevForest.size, DevForest.iters, Nat.add_zero, Walk.after_nil]
          exact walkFinish_last reg parent indent deviceAddress b t.inst p d (n + t.size) v
            nodeStack hroot.2 hroot.1
      | some y =>
          have hsib := hroot.2
          rw [DevForest.sibling?_of_first? rest y hrest] at hsib
          rw [walkFinish_sibling reg parent indent deviceAddress (b + rest.size) t.inst y d
            (n + t.size) (v :: nodeStack) hsib]
          have hrec := walkLoop_forest reg parent indent deviceAddress rest p y d (n + t.size) v
            nodeStack b hc.2 hne_r (by omega) hrest
          rw [hrec]
          have hsum : n + t.size + rest.size = n + (t.size + rest.size) := by omega
          rw [hsum]
end

/-! ### The registry walk on any registry -/

/-- A pass of the main loop, by the way it ends. -/
theorem walkLoop_succ (reg : Registry) (parent : DEVINST) (indent deviceAddress : Nat)
    (budget : Nat) (st : WalkState) (hlevel : st.level > indent) :
    walkLoop reg parent indent deviceAddress (budget + 1) st =
      match walkStep reg parent indent st with
      | .next st1 =>
          Walk.after [⟨st, visitNode reg deviceAddress st⟩]
            (walkLoop reg parent indent deviceAddress budget st1)
      | .done exit nodeStack => ⟨[⟨st, visitNode reg deviceAddress st⟩], exit, nodeStack⟩ := by
  simp only [walkLoop, hlevel, if_true, walkStep]
  cases reg.CM_Get_Child st.current with
  | some next => rfl
  | none =>
      simp only [walkFinishWith]
      cases ascend reg parent indent (st.level - indent - 1) st.current st.nodeStack with
      | sibling next l s => rfl
      | done e s => rfl

theorem walkLoop_stopped (reg : Registry) (parent : DEVINST) (indent deviceAddress : Nat)
    (budget : Nat) (st : WalkState) (hlevel : ¬ st.level > indent) :
    walkLoop reg parent indent deviceAddress budget st = ⟨[], .loopCondition, st.nodeStack⟩ := by
  cases budget <;> simp only [walkLoop, hlevel, if_false]

/-- When the inner loop ends on a sibling, the level is above `indent` and the
node stack is what is left of the one it began with. -/
theorem ascend_sibling (reg : Registry) (parent : DEVINST) (indent : Nat) :
    ∀ (d : Nat) (current : DEVINST) (nodeStack : List Nat) (next : DEVINST) (level : Nat)
      (nodeStack1 : List Nat),
      ascend reg parent indent d current nodeStack = Ascend.sibling next level nodeStack1 →
      level > indent ∧ ∀ v ∈ nodeStack1, v ∈ nodeStack := by
  intro d
  induction d with
  | zero =>
      intro current nodeStack next level nodeStack1 h
      rw [ascend] at h
      cases hs : reg.CM_Get_Sibling current with
      | CR_SUCCESS y =>
          simp only [hs, Ascend.sibling.injEq] at h
          obtain ⟨_, hl, hst⟩ := h
          subst hl hst
          exact ⟨by omega, fun v hv => hv⟩
      | CR_NO_SUCH_DEVNODE =>
          simp only [hs] at h
          cases hp : reg.CM_Get_Parent current <;> simp [hp] at h
      | error cr => simp [hs] at h
  | succ d ih =>
      intro current nodeStack next level nodeStack1 h
      rw [ascend] at h
      cases hs : reg.CM_Get_Sibling current with
      | CR_SUCCESS y =>
          simp only [hs, Ascend.sibling.injEq] at h
          obtain ⟨_, hl, hst⟩ := h
          subst hl hst
          exact ⟨by omega, fun v hv => hv⟩
      | CR_NO_SUCH_DEVNODE =>
          simp only [hs] at h
          cases hp : reg.CM_Get_Parent current with
          | none => simp [hp] at h
          | some q =>
              simp only [hp] at h
              split_ifs at h
              have h' := ih q (stack_pop nodeStack) next level nodeStack1 h
              exact ⟨h'.1, fun v hv => List.mem_of_mem_tail (h'.2 v hv)⟩
      | error cr => simp [hs] at h

/-- The variables after a pass that does not return: the node counter is one
further, the level is above `indent`, and the node stack holds the index of the
pass or numbers it held before. -/
theorem walkStep_next (reg : Registry) (parent : DEVINST) (indent : Nat) (st st1 : WalkState)
    (hlevel : st.level > indent) (h : walkStep reg parent indent st = Step.next st1) :
    st1.nextNode = (st.nextNode + 1) % 65536 ∧ st1.level > indent ∧
    ∀ v ∈ st1.nodeStack, v = st.nextNode ∨ v ∈ st.nodeStack := by
  unfold walkStep at h
  cases hc : reg.CM_Get_Child st.current with
  | some next =>
      simp only [hc, Step.next.injEq] at h
      subst h
      refine ⟨rfl, by simp only; omega, ?_⟩
      intro v hv
      simpa [stack_push] using hv
  | none =>
      simp only [hc] at h
      cases ha : ascend reg parent indent (st.level - indent - 1) st.current st.nodeStack with
      | sibling next l s =>
          simp only [ha, Step.next.injEq] at h
          subst h
          have h' := ascend_sibling reg parent indent _ _ _ _ _ _ ha
          exact ⟨rfl, h'.1, fun v hv => Or.inr (h'.2 v hv)⟩
      | done e s => simp [ha] at h

theorem walkLoop_trace_length (reg : Registry) (parent : DEVINST)
    (indent deviceAddress : Nat) :
    ∀ (budget : Nat) (st : WalkState),
      (walkLoop reg parent indent deviceAddress budget st).trace.length ≤ budget := by
  intro budget
  induction budget with
  | zero =>
      intro st
      simp only [walkLoop]
      split_ifs <;> simp
  | succ b ih =>
      intro st
      by_cases hl : st.level > indent
      · rw [walkLoop_succ reg parent indent deviceAddress b st hl]
        cases walkStep reg parent indent st with
        | next st1 =>
            have := ih st1
            simp only [Walk.after, List.singleton_append, List.length_cons]
            omega
        | done e stk => simp
      · rw [walkLoop_stopped reg parent indent deviceAddress _ st hl]
        simp

/-- Every pass of the main loop makes the call of `callback` that the label of
the node it stands on asks for. -/
theorem walkLoop_callback (reg : Registry) (parent : DEVINST) (indent deviceAddress : Nat) :
    ∀ (budget : Nat) (st : WalkState),
      ∀ it ∈ (walkLoop reg parent indent deviceAddress budget st).trace,
        it.callback = visitNode reg deviceAddress it.state := by
  intro budget
  induction budget with
  | zero =>
      intro st it hit
      simp only [walkLoop] at hit
      split_ifs at hit <;> simp at hit
  | succ b ih =>
      intro st it hit
      by_cases hl : st.level > indent
      · rw [walkLoop_succ reg parent indent deviceAddress b st hl] at hit
        cases hs : walkStep reg parent indent st with
        | next st1 =>
            simp only [hs, Walk.after, List.singleton_append, List.mem_cons] at hit
            rcases hit with hit | hit
            · rw [hit]
            · exact ih st1 it hit
        | done e stk =>
            simp only [hs, List.mem_singleton] at hit
            rw [hit]
      · rw [walkLoop_stopped reg parent indent deviceAddress _ st hl] at hit
        simp at hit

theorem ascendPasses_le (reg : Registry) (parent : DEVINST) :
    ∀ (d : Nat) (current : DEVINST), ascendPasses reg parent d current ≤ d + 1 := by
  intro d
  induction d with
  | zero =>
      intro current
      rw [ascendPasses]
      cases reg.CM_Get_Sibling current with
      | CR_SUCCESS y => simp
      | CR_NO_SUCH_DEVNODE => cases reg.CM_Get_Parent current <;> simp
      | error cr => simp
  | succ d ih =>
      intro current
      rw [ascendPasses]
      cases reg.CM_Get_Sibling current with
      | CR_SUCCESS y => simp
      | CR_NO_SUCH_DEVNODE =>
          cases reg.CM_Get_Parent current with
          | none => simp
          | some q =>
              simp only
              split_ifs
              · omega
              · have := ih q
                omega
      | error cr => simp

/-- On the cyclic registry the main loop uses up its passes and ends on the
sanity check. -/
theorem walkLoop_cyclic (parent : DEVINST) (indent deviceAddress : Nat) :
    ∀ (budget : Nat) (st : WalkState), st.level > indent →
      (walkLoop cyclicRegistry parent indent deviceAddress budget st).trace.length = budget ∧
      (walkLoop cyclicRegistry parent indent deviceAddress budget st).exit =
        WalkExit.sanityCheckFailed := by
  intro budget
  induction budget with
  | zero =>
      intro st hl
      simp only [walkLoop, hl, if_true, List.length_nil, and_self]
  | succ b ih =>
      intro st hl
      have hc : cyclicRegistry.CM_Get_Child st.current = some st.current := rfl
      rw [walkLoop_child cyclicRegistry parent indent deviceAddress b st st.current hl hc]
      have := ih ⟨st.current, st.level + 1, (st.nextNode + 1) % 65536,
        stack_push st.nodeStack st.nextNode⟩ (by simp only; omega)
      simp only [Walk.after, List.singleton_append, List.length_cons, this, and_self]

/-- C13: whatever the registry answers, `PrintDevinstChildren` makes at most
`LOOP_SANITY_LIMIT` passes of its main loop and at most as many calls of the
callback, and returns; the inner loop makes at most `level - indent` passes;
on a cyclic registry the walk stops after 10000 passes on the failed sanity
check. -/
theorem PrintDevinstChildren_bounded :
    (∀ (reg : Registry) (parent : DEVINST) (indent deviceAddress : Nat),
      (PrintDevinstChildren reg parent indent deviceAddress).trace.length ≤ LOOP_SANITY_LIMIT ∧
      (PrintDevinstChildren reg parent indent deviceAddress).records.length
        ≤ LOOP_SANITY_LIMIT) ∧
    (∀ (reg : Registry) (parent : DEVINST) (d : Nat) (current : DEVINST),
      ascendPasses reg parent d current ≤ d + 1) ∧
    ((PrintDevinstChildren cyclicRegistry 0 0 0).trace.length = 10000 ∧
      (PrintDevinstChildren cyclicRegistry 0 0 0).exit = WalkExit.sanityCheckFailed) := by
  refine ⟨?_, ascendPasses_le, ?_⟩
  · intro reg parent indent deviceAddress
    have h := walkLoop_trace_length reg parent indent deviceAddress LOOP_SANITY_LIMIT
      (match reg.CM_Get_Child parent with
        | some next => ⟨next, indent + 1, 1, stack_push [] 0⟩
        | none => ⟨parent, indent, 1, []⟩)
    refine ⟨h, le_trans ?_ h⟩
    exact List.length_filterMap_le _ _
  · exact walkLoop_cyclic 0 0 0 LOOP_SANITY_LIMIT ⟨0, 1, 1, [0]⟩ (by decide)

/-! ### Node numbering -/

theorem visitNode_some (reg : Registry) (deviceAddress : Nat) (st : WalkState)
    (r : DeviceInfo) (h : visitNode reg deviceAddress st = some r) :
    r.node = st.nextNode ∧ r.level = st.level ∧
    r.parentNode = (stack_peek st.nodeStack).getD 0 ∧
    resolveLabel reg st.current = some r.display ∧ r.display ≠ "" := by
  unfold visitNode at h
  cases hl : resolveLabel reg st.current with
  | none => simp [hl] at h
  | some buf =>
      simp only [hl] at h
      split_ifs at h with hb
      simp only [Option.some.injEq] at h
      subst h
      exact ⟨rfl, rfl, rfl, rfl, hb⟩

theorem walkLoop_numbered (reg : Registry) (parent : DEVINST) (indent deviceAddress : Nat) :
    ∀ (budget : Nat) (st : WalkState), st.nextNode + budget ≤ 65536 →
      (∀ v ∈ st.nodeStack, v < st.nextNode) →
      Numbered st.nextNode (walkLoop reg parent indent deviceAddress budget st).trace := by
  intro budget
  induction budget with
  | zero =>
      intro st _ _
      simp only [walkLoop]
      split_ifs <;> exact trivial
  | succ b ih =>
      intro st hn hstack
      by_cases hl : st.level > indent
      · rw [walkLoop_succ reg parent indent deviceAddress b st hl]
        cases hs : walkStep reg parent indent st with
        | next st1 =>
            simp only [Walk.after, List.singleton_append, Numbered]
            refine ⟨trivial, hstack, ?_⟩
            cases b with
            | zero =>
                simp only [walkLoop]
                split_ifs <;> exact trivial
            | succ b' =>
                have hstep := walkStep_next reg parent indent st st1 hl hs
                have hmod : (st.nextNode + 1) % 65536 = st.nextNode + 1 :=
                  Nat.mod_eq_of_lt (by omega)
                have hnext : st1.nextNode = st.nextNode + 1 := by rw [hstep.1, hmod]
                have := ih st1 (by omega) (by
                  intro v hv
                  rcases hstep.2.2 v hv with h | h
                  · omega
                  · have := hstack v h
                    omega)
                rw [hnext] at this
                exact this
        | done e stk =>
            simp only [Numbered]
            exact ⟨trivial, hstack, trivial⟩
      · rw [walkLoop_stopped reg parent indent deviceAddress _ st hl]
        exact trivial

theorem numbered_bound : ∀ (its : List Iter) (n : Nat), Numbered n its →
    ∀ it ∈ its, n ≤ it.state.nextNode ∧ it.state.nextNode < n + its.length := by
  intro its
  induction its with
  | nil => intro n _ it hit; simp at hit
  | cons a rest ih =>
      intro n hnum it hit
      simp only [Numbered] at hnum
      simp only [List.mem_cons] at hit
      simp only [List.length_cons]
      rcases hit with hit | hit
      · rw [hit, hnum.1]
        omega
      · have := ih (n + 1) hnum.2.2 it hit
        omega

theorem numbered_records (reg : Registry) (deviceAddress : Nat) :
    ∀ (its : List Iter) (n : Nat), 1 ≤ n → Numbered n its →
      (∀ it ∈ its, it.callback = visitNode reg deviceAddress it.state) →
      (∀ r ∈ its.filterMap Iter.callback,
        n ≤ r.node ∧ r.node < n + its.length ∧ r.parentNode < r.node) ∧
      (its.filterMap Iter.callback).Pairwise (fun a b => a.node < b.node) := by
  intro its
  induction its with
  | nil =>
      intro n _ _ _
      simp
  | cons a rest ih =>
      intro n hn hnum hcb
      simp only [Numbered] at hnum
      have hrest := ih (n + 1) (by omega) hnum.2.2
        (fun it hit => hcb it (List.mem_cons_of_mem _ hit))
      have ha := hcb a (List.mem_cons_self _ _)
      cases hc : a.callback with
      | none =>
          rw [List.filterMap_cons_none hc]
          refine ⟨?_, hrest.2⟩
          intro r hr
          have := hrest.1 r hr
          simp only [List.length_cons]
          omega
      | some r0 =>
          rw [List.filterMap_cons_some hc]
          rw [hc] at ha
          have hv := visitNode_some reg deviceAddress a.state r0 ha.symm
          have hpar : r0.parentNode < r0.node := by
            rw [hv.2.2.1, hv.1, hnum.1]
            cases hst : a.state.nodeStack with
            | nil => simp [stack_peek]; omega
            | cons v vs =>
                have := hnum.2.1 v (by rw [hst]; exact List.mem_cons_self _ _)
                simpa [stack_peek] using this
          constructor
          · intro r hr
            simp only [List.mem_cons] at hr
            simp only [List.length_cons]
            rcases hr with hr | hr
            · rw [hr]
              refine ⟨?_, ?_, hpar⟩
              · rw [hv.1, hnum.1]
              · rw [hv.1, hnum.1]; omega
            · have := hrest.1 r hr
              omega
          · rw [List.pairwise_cons]
            refine ⟨?_, hrest.2⟩
            intro r hr
            have := hrest.1 r hr
            rw [hv.1, hnum.1]
            omega

/-- C15: in every walk of `PrintDevinstChildren` the passes carry the node
indices 1, 2, 3, ... in order; the node indices of the emitted records are at
least 1 and strictly increase in emission order; the parentNode of every record
is strictly smaller than its node index; and the 16-bit counter `nextNode`
stays at or below 10000, so its increment never wraps. -/
theorem node_indices_increase (reg : Registry) (parent : DEVINST)
    (indent deviceAddress : Nat) :
    Numbered 1 (PrintDevinstChildren reg parent indent deviceAddress).trace ∧
    (∀ r ∈ (PrintDevinstChildren reg parent indent deviceAddress).records,
      1 ≤ r.node ∧ r.parentNode < r.node) ∧
    (PrintDevinstChildren reg parent indent deviceAddress).records.Pairwise
      (fun a b => a.node < b.node) ∧
    (∀ it ∈ (PrintDevinstChildren reg parent indent deviceAddress).trace,
      it.state.nextNode ≤ LOOP_SANITY_LIMIT ∧
      (it.state.nextNode + 1) % 65536 = it.state.nextNode + 1) := by
  have hlen := walkLoop_trace_length reg parent indent deviceAddress LOOP_SANITY_LIMIT
    (match reg.CM_Get_Child parent with
      | some next => ⟨next, indent + 1, 1, stack_push [] 0⟩
      | none => ⟨parent, indent, 1, []⟩)
  have hcb := walkLoop_callback reg parent indent deviceAddress LOOP_SANITY_LIMIT
    (match reg.CM_Get_Child parent with
      | some next => ⟨next, indent + 1, 1, stack_push [] 0⟩
      | none => ⟨parent, indent, 1, []⟩)
  have hnum : Numbered 1 (PrintDevinstChildren reg parent indent deviceAddress).trace := by
    unfold PrintDevinstChildren PrintDevinstChildrenWithin
    cases hc : reg.CM_Get_Child parent with
    | none =>
        exact walkLoop_numbered reg parent indent deviceAddress LOOP_SANITY_LIMIT
          ⟨parent, indent, 1, []⟩ (show 1 + LOOP_SANITY_LIMIT ≤ 65536 by decide) (by simp)
    | some next =>
        exact walkLoop_numbered reg parent indent deviceAddress LOOP_SANITY_LIMIT
          ⟨next, indent + 1, 1, stack_push [] 0⟩ (show 1 + LOOP_SANITY_LIMIT ≤ 65536 by decide)
          (by simp [stack_push])
  have hrec := numbered_records reg deviceAddress _ 1 (le_refl 1) hnum hcb
  refine ⟨hnum, ?_, hrec.2, ?_⟩
  · intro r hr
    have := hrec.1 r hr
    exact ⟨this.1, this.2.2⟩
  · intro it hit
    have hb := numbered_bound _ 1 hnum it hit
    have hle : it.state.nextNode ≤ LOOP_SANITY_LIMIT := by
      have : (PrintDevinstChildren reg parent indent deviceAddress).trace.length
          ≤ LOOP_SANITY_LIMIT := hlen
      omega
    refine ⟨hle, Nat.mod_eq_of_lt ?_⟩
    have : LOOP_SANITY_LIMIT = 10000 := rfl
    omega

theorem visitNode_none_iff (reg : Registry) (deviceAddress : Nat) (st : WalkState) :
    visitNode reg deviceAddress st = none ↔
      ¬ ∃ buf, resolveLabel reg st.current = some buf ∧ buf ≠ "" := by
  unfold visitNode
  cases resolveLabel reg st.current with
  | none => simp
  | some buf =>
      by_cases hb : buf = ""
      · simp [hb]
      · simp [hb]

/-- Every number on the node stack of a pass is 0, or was on the stack the loop
began with, or is the node index of an earlier pass. -/
theorem walkLoop_stack_seen (reg : Registry) (parent : DEVINST) (indent deviceAddress : Nat) :
    ∀ (budget : Nat) (st : WalkState) (seen : List Nat),
      (∀ v ∈ st.nodeStack, v = 0 ∨ v ∈ seen) →
      ∀ (pre : List Iter) (it : Iter) (post : List Iter),
        (walkLoop reg parent indent deviceAddress budget st).trace = pre ++ it :: post →
        ∀ v ∈ it.state.nodeStack,
          v = 0 ∨ v ∈ seen ∨ ∃ it' ∈ pre, it'.state.nextNode = v := by
  intro budget
  induction budget with
  | zero =>
      intro st seen _ pre it post htr
      simp only [walkLoop] at htr
      split_ifs at htr <;> simp at htr
  | succ b ih =>
      intro st seen hst pre it post htr v hv
      by_cases hl : st.level > indent
      · rw [walkLoop_succ reg parent indent deviceAddress b st hl] at htr
        cases hs : walkStep reg parent indent st with
        | next st1 =>
            simp only [hs, Walk.after, List.singleton_append] at htr
            cases pre with
            | nil =>
                simp only [List.nil_append, List.cons.injEq] at htr
                rw [← htr.1] at hv
                rcases hst v hv with h | h
                · exact Or.inl h
                · exact Or.inr (Or.inl h)
            | cons a pre' =>
                simp only [List.cons_append, List.cons.injEq] at htr
                have hstep := walkStep_next reg parent indent st st1 hl hs
                have hst1 : ∀ w ∈ st1.nodeStack, w = 0 ∨ w ∈ st.nextNode :: seen := by
                  intro w hw
                  rcases hstep.2.2 w hw with h | h
                  · exact Or.inr (by simp [h])
                  · rcases hst w h with h0 | hs'
                    · exact Or.inl h0
                    · exact Or.inr (List.mem_cons_of_mem _ hs')
                rcases ih st1 (st.nextNode :: seen) hst1 pre' it post htr.2 v hv with h | h | h
                · exact Or.inl h
                · simp only [List.mem_cons] at h
                  rcases h with h | h
                  · refine Or.inr (Or.inr ⟨a, List.mem_cons_self _ _, ?_⟩)
                    rw [← htr.1, h]
                  · exact Or.inr (Or.inl h)
                · obtain ⟨it', hit', hn⟩ := h
                  exact Or.inr (Or.inr ⟨it', List.mem_cons_of_mem _ hit', hn⟩)
        | done e stk =>
            simp only [hs] at htr
            cases pre with
            | nil =>
                simp only [List.nil_append, List.cons.injEq] at htr
                rw [← htr.1] at hv
                rcases hst v hv with h | h
                · exact Or.inl h
                · exact Or.inr (Or.inl h)
            | cons a pre' =>
                simp only [List.cons_append, List.cons.injEq] at htr
                have := htr.2
                cases pre' <;> simp at this
      · rw [walkLoop_stopped reg parent indent deviceAddress _ st hl] at htr
        simp at htr

/-- C14 as stated fails: below start node 0 the node 1 has no label and its
child 2 has one; the first record emitted is the one of node 2, with node index
2 and parentNode 1, and no record with node index 1 is emitted at all. -/
theorem parentNode_of_unlabelled_parent_dangles :
    (PrintDevinstChildren sampleRegistry 0 0 5).records =
      [⟨2, 0, "B", 5, 5, 2, 1⟩, ⟨1, 0, "C", 5, 5, 3, 0⟩] ∧
    (∀ r ∈ (PrintDevinstChildren sampleRegistry 0 0 5).records, r.node ≠ 1) := by
  decide

/-- C14 as amended: the parentNode of every emitted record is 0 or the node index
of an earlier pass of the same walk; that pass emitted a record, carrying this
index as its node index, exactly when its node had a non-empty label. -/
theorem parentNode_refers_to_earlier_pass (reg : Registry) (parent : DEVINST)
    (indent deviceAddress : Nat) (pre post : List Iter) (it : Iter) (r : DeviceInfo)
    (htrace : (PrintDevinstChildren reg parent indent deviceAddress).trace =
      pre ++ it :: post)
    (hcb : it.callback = some r) :
    r.parentNode = 0 ∨
    ∃ it' ∈ pre, it'.state.nextNode = r.parentNode ∧
      (∀ r', it'.callback = some r' → r'.node = r.parentNode) ∧
      (it'.callback = none ↔
        ¬ ∃ buf, resolveLabel reg it'.state.current = some buf ∧ buf ≠ "") := by
  have hall := walkLoop_callback reg parent indent deviceAddress LOOP_SANITY_LIMIT
    (match reg.CM_Get_Child parent with
      | some next => ⟨next, indent + 1, 1, stack_push [] 0⟩
      | none => ⟨parent, indent, 1, []⟩)
  have hmem : ∀ it' ∈ pre ++ it :: post,
      it'.callback = visitNode reg deviceAddress it'.state := by
    intro it' hit'
    rw [← htrace] at hit'
    exact hall it' hit'
  have hit := hmem it (by simp)
  rw [hcb] at hit
  have hv := visitNode_some reg deviceAddress it.state r hit.symm
  have hstack := walkLoop_stack_seen reg parent indent deviceAddress LOOP_SANITY_LIMIT
    (match reg.CM_Get_Child parent with
      | some next => ⟨next, indent + 1, 1, stack_push [] 0⟩
      | none => ⟨parent, indent, 1, []⟩) []
    (by cases reg.CM_Get_Child parent <;> simp [stack_push]) pre it post htrace
  cases hst : it.state.nodeStack with
  | nil =>
      left
      rw [hv.2.2.1, hst]
      rfl
  | cons v vs =>
      have hpv : r.parentNode = v := by
        rw [hv.2.2.1, hst]
        rfl
      rcases hstack v (by rw [hst]; exact List.mem_cons_self _ _) with h | h | h
      · left
        rw [hpv, h]
      · simp at h
      · right
        obtain ⟨it', hit', hn⟩ := h
        have hcb' := hmem it' (by simp [hit'])
        refine ⟨it', hit', by rw [hn, hpv], ?_, ?_⟩
        · intro r' hr'
          rw [hr'] at hcb'
          rw [(visitNode_some reg deviceAddress it'.state r' hcb'.symm).1, hn, hpv]
        · rw [hcb']
          exact visitNode_none_iff reg deviceAddress it'.state

/-- Witness: the walk of `sampleRegistry`, at its second pass, which stands on
node 2 below the unlabelled node 1. -/
theorem parentNode_refers_to_earlier_pass_witness :
    ((PrintDevinstChildren sampleRegistry 0 0 5).trace =
      [⟨⟨1, 1, 1, [0]⟩, none⟩] ++
        (⟨⟨2, 2, 2, [1, 0]⟩, some ⟨2, 0, "B", 5, 5, 2, 1⟩⟩ : Iter) ::
          [⟨⟨3, 1, 3, [0]⟩, some ⟨1, 0, "C", 5, 5, 3, 0⟩⟩]) ∧
    ((⟨⟨2, 2, 2, [1, 0]⟩, some ⟨2, 0, "B", 5, 5, 2, 1⟩⟩ : Iter).callback =
      some ⟨2, 0, "B", 5, 5, 2, 1⟩) ∧
    ((⟨2, 0, "B", 5, 5, 2, 1⟩ : DeviceInfo).parentNode = 0 ∨
      ∃ it' ∈ [(⟨⟨1, 1, 1, [0]⟩, none⟩ : Iter)],
        it'.state.nextNode = (⟨2, 0, "B", 5, 5, 2, 1⟩ : DeviceInfo).parentNode ∧
        (∀ r', it'.callback = some r' →
          r'.node = (⟨2, 0, "B", 5, 5, 2, 1⟩ : DeviceInfo).parentNode) ∧
        (it'.callback = none ↔
          ¬ ∃ buf, resolveLabel sampleRegistry it'.state.current = some buf ∧ buf ≠ "")) :=
  ⟨by decide, rfl,
    parentNode_refers_to_earlier_pass sampleRegistry 0 0 5
      [⟨⟨1, 1, 1, [0]⟩, none⟩] [⟨⟨3, 1, 3, [0]⟩, some ⟨1, 0, "C", 5, 5, 3, 0⟩⟩]
      ⟨⟨2, 2, 2, [1, 0]⟩, some ⟨2, 0, "B", 5, 5, 2, 1⟩⟩ ⟨2, 0, "B", 5, 5, 2, 1⟩
      (by decide) rfl⟩

/-! ### Nodes without a label -/

theorem ascend_congr (reg reg' : Registry) (parent : DEVINST) (indent : Nat)
    (hsib : reg'.CM_Get_Sibling = reg.CM_Get_Sibling)
    (hpar : reg'.CM_Get_Parent = reg.CM_Get_Parent) :
    ∀ (d : Nat) (current : DEVINST) (nodeStack : List Nat),
      ascend reg' parent indent d current nodeStack =
        ascend reg parent indent d current nodeStack := by
  intro d
  induction d with
  | zero =>
      intro current nodeStack
      rw [ascend, ascend, hsib, hpar]
  | succ d ih =>
      intro current nodeStack
      rw [ascend, ascend, hsib, hpar]
      cases reg.CM_Get_Sibling current with
      | CR_SUCCESS y => rfl
      | CR_NO_SUCH_DEVNODE =>
          cases reg.CM_Get_Parent current with
          | none => rfl
          | some q =>
              simp only
              split_ifs
              · rfl
              · exact ih q _
      | error cr => rfl

/-- The way a pass ends depends on the answers to the navigation requests
only. -/
theorem walkStep_congr (reg reg' : Registry) (parent : DEVINST) (indent : Nat)
    (hchild : reg'.CM_Get_Child = reg.CM_Get_Child)
    (hsib : reg'.CM_Get_Sibling = reg.CM_Get_Sibling)
    (hpar : reg'.CM_Get_Parent = reg.CM_Get_Parent) (st : WalkState) :
    walkStep reg' parent indent st = walkStep reg parent indent st := by
  unfold walkStep
  rw [hchild, ascend_congr reg reg' parent indent hsib hpar]

theorem visitNode_unlabelled (reg : Registry) (deviceAddress : Nat) (st : WalkState)
    (h : unlabelled reg st.current) : visitNode reg deviceAddress st = none := by
  unfold visitNode resolveLabel
  obtain ⟨hf, hd⟩ := h
  rcases hf with hf | hf
  · rw [hf]
    rcases hd with hd | hd
    · simp [hd]
    · simp [hd]
  · simp [hf]

theorem visitNode_congr (reg reg' : Registry) (deviceAddress : Nat) (st : WalkState)
    (hf : reg'.FRIENDLYNAME st.current = reg.FRIENDLYNAME st.current)
    (hd : reg'.DEVICEDESC st.current = reg.DEVICEDESC st.current) :
    visitNode reg' deviceAddress st = visitNode reg deviceAddress st := by
  unfold visitNode resolveLabel
  rw [hf, hd]

/-- The walk over a registry in which `x` has no label is the walk over a
registry that differs in the label of `x` alone, with the calls of the callback
on `x` taken away. -/
theorem walkLoop_mute (reg reg' : Registry) (x parent : DEVINST) (indent deviceAddress : Nat)
    (hchild : reg'.CM_Get_Child = reg.CM_Get_Child)
    (hsib : reg'.CM_Get_Sibling = reg.CM_Get_Sibling)
    (hpar : reg'.CM_Get_Parent = reg.CM_Get_Parent)
    (hlabels : ∀ y, y ≠ x →
      reg'.FRIENDLYNAME y = reg.FRIENDLYNAME y ∧ reg'.DEVICEDESC y = reg.DEVICEDESC y)
    (hx : unlabelled reg x) :
    ∀ (budget : Nat) (st : WalkState),
      walkLoop reg parent indent deviceAddress budget st =
        ⟨(walkLoop reg' parent indent deviceAddress budget st).trace.map (Iter.mute x),
          (walkLoop reg' parent indent deviceAddress budget st).exit,
          (walkLoop reg' parent indent deviceAddress budget st).nodeStack⟩ := by
  have hvisit : ∀ st : WalkState,
      (⟨st, visitNode reg deviceAddress st⟩ : Iter) =
        Iter.mute x ⟨st, visitNode reg' deviceAddress st⟩ := by
    intro st
    unfold Iter.mute
    by_cases hc : st.current = x
    · simp only [hc, if_true]
      rw [visitNode_unlabelled reg deviceAddress st (by rw [hc]; exact hx)]
    · simp only [hc, if_false]
      rw [visitNode_congr reg reg' deviceAddress st (hlabels _ hc).1 (hlabels _ hc).2]
  intro budget
  induction budget with
  | zero =>
      intro st
      simp only [walkLoop]
      split_ifs <;> rfl
  | succ b ih =>
      intro st
      by_cases hl : st.level > indent
      · rw [walkLoop_succ reg parent indent deviceAddress b st hl,
          walkLoop_succ reg' parent indent deviceAddress b st hl,
          walkStep_congr reg reg' parent indent hchild hsib hpar]
        cases walkStep reg parent indent st with
        | next st1 =>
            simp only [Walk.after, List.singleton_append, List.map_cons]
            rw [ih st1, hvisit st]
        | done e stk =>
            simp only [List.map_cons, List.map_nil]
            rw [hvisit st]
      · rw [walkLoop_stopped reg parent indent deviceAddress _ st hl,
          walkLoop_stopped reg' parent indent deviceAddress _ st hl]
        rfl

theorem filterMap_mute (x : DEVINST) (its : List Iter) :
    (its.map (Iter.mute x)).filterMap Iter.callback =
      (its.filter (fun it => decide (it.state.current ≠ x))).filterMap Iter.callback := by
  induction its with
  | nil => rfl
  | cons a rest ih =>
      by_cases hc : a.state.current = x
      · have hm : Iter.mute x a = ⟨a.state, none⟩ := by simp [Iter.mute, hc]
        rw [List.map_cons, hm, List.filterMap_cons_none rfl, ih,
          List.filter_cons_of_neg (by simp [hc])]
      · have hm : Iter.mute x a = a := by simp [Iter.mute, hc]
        rw [List.map_cons, hm, List.filter_cons_of_pos (by simp [hc])]
        cases ha : a.callback with
        | none => rw [List.filterMap_cons_none ha, List.filterMap_cons_none ha, ih]
        | some r => rw [List.filterMap_cons_some ha, List.filterMap_cons_some ha, ih]

/-- C16: a node for which neither the friendly name nor the description yields a
non-empty text causes no call of the callback, and the walk goes through it all
the same: compared with a registry that differs only in giving that node a
label, the walk makes the same passes (same nodes, levels, node indices and
node stacks, in the same order) and ends the same way, and its callbacks are
those of the other walk without the ones made on that node. -/
theorem unlabelled_node_skipped_but_traversed (reg reg' : Registry) (x parent : DEVINST)
    (indent deviceAddress : Nat)
    (hchild : reg'.CM_Get_Child = reg.CM_Get_Child)
    (hsib : reg'.CM_Get_Sibling = reg.CM_Get_Sibling)
    (hpar : reg'.CM_Get_Parent = reg.CM_Get_Parent)
    (hlabels : ∀ y, y ≠ x →
      reg'.FRIENDLYNAME y = reg.FRIENDLYNAME y ∧ reg'.DEVICEDESC y = reg.DEVICEDESC y)
    (hx : unlabelled reg x) :
    (∀ it ∈ (PrintDevinstChildren reg parent indent deviceAddress).trace,
      it.state.current = x → it.callback = none) ∧
    (PrintDevinstChildren reg parent indent deviceAddress).trace.map Iter.state =
      (PrintDevinstChildren reg' parent indent deviceAddress).trace.map Iter.state ∧
    (PrintDevinstChildren reg parent indent deviceAddress).exit =
      (PrintDevinstChildren reg' parent indent deviceAddress).exit ∧
    (PrintDevinstChildren reg parent indent deviceAddress).records =
      ((PrintDevinstChildren reg' parent indent deviceAddress).trace.filter
        (fun it => decide (it.state.current ≠ x))).filterMap Iter.callback := by
  have hmute := walkLoop_mute reg reg' x parent indent deviceAddress hchild hsib hpar hlabels hx
    LOOP_SANITY_LIMIT
    (match reg.CM_Get_Child parent with
      | some next => ⟨next, indent + 1, 1, stack_push [] 0⟩
      | none => ⟨parent, indent, 1, []⟩)
  have hcb := walkLoop_callback reg parent indent deviceAddress LOOP_SANITY_LIMIT
    (match reg.CM_Get_Child parent with
      | some next => ⟨next, indent + 1, 1, stack_push [] 0⟩
      | none => ⟨parent, indent, 1, []⟩)
  have hw : PrintDevinstChildren reg parent indent deviceAddress =
      ⟨(PrintDevinstChildren reg' parent indent deviceAddress).trace.map (Iter.mute x),
        (PrintDevinstChildren reg' parent indent deviceAddress).exit,
        (PrintDevinstChildren reg' parent indent deviceAddress).nodeStack⟩ := by
    unfold PrintDevinstChildren PrintDevinstChildrenWithin
    rw [hchild]
    exact hmute
  refine ⟨?_, ?_, ?_, ?_⟩
  · intro it hit hc
    rw [hcb it hit]
    exact visitNode_unlabelled reg deviceAddress it.state (by rw [hc]; exact hx)
  · rw [hw]
    simp only [List.map_map]
    apply List.map_congr_left
    intro it _
    simp only [Function.comp, Iter.mute]
    split_ifs <;> rfl
  · rw [hw]
  · rw [Walk.records, hw]
    exact filterMap_mute x _

/-- Witness: `sampleRegistry`, in which node 1 has no label, against
`sampleLabelledRegistry`, which gives it the friendly name `A`. -/
theorem unlabelled_node_skipped_but_traversed_witness :
    (sampleLabelledRegistry.CM_Get_Child = sampleRegistry.CM_Get_Child) ∧
    (unlabelled sampleRegistry 1) ∧
    ((PrintDevinstChildren sampleRegistry 0 0 5).records =
      ((PrintDevinstChildren sampleLabelledRegistry 0 0 5).trace.filter
        (fun it => decide (it.state.current ≠ 1))).filterMap Iter.callback) ∧
    ((PrintDevinstChildren sampleLabelledRegistry 0 0 5).records.map DeviceInfo.display =
      ["A", "B", "C"]) ∧
    ((PrintDevinstChildren sampleRegistry 0 0 5).records.map DeviceInfo.display =
      ["B", "C"]) :=
  ⟨rfl, ⟨Or.inl rfl, Or.inl rfl⟩,
    (unlabelled_node_skipped_but_traversed sampleRegistry sampleLabelledRegistry 1 0 0 5
      rfl rfl rfl (by
        intro y hy
        simp [sampleLabelledRegistry, hy]) ⟨Or.inl rfl, Or.inl rfl⟩).2.2.2,
    by decide, by decide⟩

/-! ### Completeness of the walk on a registry tree -/

mutual
theorem tree_iters_current (reg : Registry) (deviceAddress : Nat) :
    ∀ (t : DevTree) (level n : Nat) (nodeStack : List Nat),
      (t.iters reg deviceAddress level n nodeStack).map (fun it => it.state.current) =
        t.preorder
  | .node x cs, level, n, nodeStack => by
      simp only [DevTree.iters, DevTree.preorder, List.map_cons]
      rw [forest_iters_current reg deviceAddress cs]
theorem forest_iters_current (reg : Registry) (deviceAddress : Nat) :
    ∀ (f : DevForest) (level n : Nat) (nodeStack : List Nat),
      (f.iters reg deviceAddress level n nodeStack).map (fun it => it.state.current) =
        f.preorder
  | .nil, _, _, _ => rfl
  | .cons t rest, level, n, nodeStack => by
      simp only [DevForest.iters, DevForest.preorder, List.map_append]
      rw [tree_iters_current reg deviceAddress t,
        forest_iters_current reg deviceAddress rest]
end

theorem leafChain_size : ∀ (count k : Nat), (leafChain k count).size = count := by
  intro count
  induction count with
  | zero => intro k; rfl
  | succ c ih =>
      intro k
      simp only [leafChain, DevForest.size, DevTree.size, ih]
      omega

theorem leafChain_preorder : ∀ (count k : Nat), ∀ x ∈ (leafChain k count).preorder,
    k ≤ x ∧ x < k + count := by
  intro count
  induction count with
  | zero => intro k x hx; simp [leafChain, DevForest.preorder] at hx
  | succ c ih =>
      intro k x hx
      simp only [leafChain, DevForest.preorder, DevTree.preorder, List.cons_append,
        List.nil_append, List.mem_cons] at hx
      rcases hx with hx | hx
      · unfold DEVINST at *
        omega
      · have := ih (k + 1) x hx
        unfold DEVINST at *
        omega

theorem leafChain_sibling? (count k : Nat) :
    (leafChain k count).sibling? =
      if count = 0 then SiblingResult.CR_NO_SUCH_DEVNODE else SiblingResult.CR_SUCCESS k := by
  cases count <;> simp [leafChain, DevForest.sibling?, DevTree.inst]

theorem leafChain_consistent : ∀ (count k : Nat), 1 ≤ k → k + count = 10002 →
    (leafChain k count).consistent wideRegistry 0 = true := by
  intro count
  induction count with
  | zero => intro k _ _; rfl
  | succ c ih =>
      intro k hk hsum
      simp only [leafChain, DevForest.consistent, DevTree.consistent, Bool.and_eq_true,
        decide_eq_true_eq, leafChain_sibling?]
      refine ⟨⟨⟨⟨?_, ?_⟩, ?_⟩, trivial⟩, ih (k + 1) (by omega) (by omega)⟩
      · have : 1 ≤ k ∧ k ≤ 10001 := by omega
        simp [wideRegistry, this]
      · by_cases hc : c = 0
        · have : ¬ (1 ≤ k ∧ k < 10001) := by omega
          simp [wideRegistry, this, hc]
        · have : 1 ≤ k ∧ k < 10001 := by omega
          simp [wideRegistry, this, hc]
      · have : k ≠ 0 := by omega
        simp [wideRegistry, this, DevForest.first?]

/-- On the wide registry the main loop, standing on leaf `k` with fewer passes
left than leaves, uses up its passes on the leaves from `k` on and ends on the
sanity check. -/
theorem walkLoop_wide (deviceAddress : Nat) :
    ∀ (budget k n : Nat), 1 ≤ k → k + budget ≤ 10001 →
      (walkLoop wideRegistry 0 0 deviceAddress budget ⟨k, 1, n, [0]⟩).exit =
        WalkExit.sanityCheckFailed ∧
      (walkLoop wideRegistry 0 0 deviceAddress budget ⟨k, 1, n, [0]⟩).trace.length = budget ∧
      ∀ it ∈ (walkLoop wideRegistry 0 0 deviceAddress budget ⟨k, 1, n, [0]⟩).trace,
        it.state.current < k + budget := by
  intro budget
  induction budget with
  | zero =>
      intro k n _ _
      simp [walkLoop]
  | succ b ih =>
      intro k n hk hsum
      have hchild : wideRegistry.CM_Get_Child k = none := by
        have : k ≠ 0 := by omega
        simp [wideRegistry, this]
      have hsib : wideRegistry.CM_Get_Sibling k = SiblingResult.CR_SUCCESS (k + 1) := by
        have : 1 ≤ k ∧ k < 10001 := by omega
        simp [wideRegistry, this]
      rw [walkLoop_leaf wideRegistry 0 0 deviceAddress b ⟨k, 1, n, [0]⟩ (by simp) hchild]
      have hfin := walkFinish_sibling wideRegistry 0 0 deviceAddress b k (k + 1) 0
        ((n + 1) % 65536) [0] hsib
      simp only [Nat.zero_add] at hfin
      rw [hfin]
      have h := ih (k + 1) ((n + 1) % 65536) (by omega) (by omega)
      simp only [Walk.after, List.singleton_append, List.length_cons, List.mem_cons]
      refine ⟨h.1, by rw [h.2.1], ?_⟩
      intro it hit
      rcases hit with hit | hit
      · rw [hit]
        simp only
        unfold DEVINST
        omega
      · have := h.2.2 it hit
        unfold DEVINST at *
        omega

/-- C12 as stated fails: the registry tree of 10001 leaves below node 0 is
finite, acyclic and consistent, yet the walk makes 10000 passes, ends on the
failed sanity check and never enters the leaf 10001. -/
theorem PrintDevinstChildren_misses_descendant :
    isRegistryTree wideRegistry 0 wideChildren = true ∧
    wideChildren.size = 10001 ∧
    (PrintDevinstChildren wideRegistry 0 0 5).exit = WalkExit.sanityCheckFailed ∧
    (PrintDevinstChildren wideRegistry 0 0 5).trace.length = 10000 ∧
    (∀ it ∈ (PrintDevinstChildren wideRegistry 0 0 5).trace, it.state.current ≠ 10001) := by
  have hwalk := walkLoop_wide 5 10000 1 1 (le_refl 1) (by omega)
  refine ⟨?_, leafChain_size 10001 1, hwalk.1, hwalk.2.1, ?_⟩
  · simp only [isRegistryTree, Bool.and_eq_true, decide_eq_true_eq]
    refine ⟨⟨rfl, leafChain_consistent 10001 1 (le_refl 1) rfl⟩, ?_⟩
    intro h
    have := leafChain_preorder 10001 1 0 h
    unfold DEVINST at *
    omega
  · intro it hit
    have := hwalk.2.2 it hit
    unfold DEVINST at *
    omega

/-- C12 as amended: on a finite registry tree whose start node has at most
`LOOP_SANITY_LIMIT` descendants, `PrintDevinstChildren` returns after having
entered the descendants of the start node in depth-first pre-order, each pass
standing on one descendant at the level of its depth, numbered 1, 2, 3, ...;
every pass makes the call of the callback that the label of its node asks for,
so a descendant with a non-empty label is reported by exactly one callback when
the handles of the descendants are distinct; the node stack ends empty. -/
theorem PrintDevinstChildren_registry_tree (reg : Registry) (start : DEVINST)
    (indent deviceAddress : Nat) (children : DevForest)
    (htree : isRegistryTree reg start children = true)
    (hsize : children.size ≤ LOOP_SANITY_LIMIT) :
    (PrintDevinstChildren reg start indent deviceAddress).trace =
      children.iters reg deviceAddress (indent + 1) 1 [0] ∧
    (PrintDevinstChildren reg start indent deviceAddress).trace.map
      (fun it => it.state.current) = children.preorder ∧
    (PrintDevinstChildren reg start indent deviceAddress).exit =
      (if children.first? = none then WalkExit.loopCondition
        else WalkExit.returnedToParent) ∧
    (PrintDevinstChildren reg start indent deviceAddress).nodeStack = [] ∧
    (∀ it ∈ (PrintDevinstChildren reg start indent deviceAddress).trace,
      it.callback = visitNode reg deviceAddress it.state) ∧
    (children.preorder.Nodup → ∀ x ∈ children.preorder,
      ((PrintDevinstChildren reg start indent deviceAddress).trace.map
        (fun it => it.state.current)).count x = 1) := by
  simp only [isRegistryTree, Bool.and_eq_true, decide_eq_true_eq] at htree
  obtain ⟨⟨hchild, hcons⟩, hstart⟩ := htree
  have hw : PrintDevinstChildren reg start indent deviceAddress =
      ⟨children.iters reg deviceAddress (indent + 1) 1 [0],
        (if children.first? = none then WalkExit.loopCondition
          else WalkExit.returnedToParent), []⟩ := by
    unfold PrintDevinstChildren PrintDevinstChildrenWithin
    rw [hchild]
    cases hfirst : children.first? with
    | none =>
        have hnil := DevForest.first?_eq_none children hfirst
        subst hnil
        rw [walkLoop_stopped reg start indent deviceAddress _ _ (by simp)]
        simp [DevForest.iters]
    | some c =>
        have hlim : LOOP_SANITY_LIMIT = 10000 := rfl
        have hb : LOOP_SANITY_LIMIT = (LOOP_SANITY_LIMIT - children.size) + children.size := by
          omega
        have h := walkLoop_forest reg start indent deviceAddress children start c 0 1 0 []
          (LOOP_SANITY_LIMIT - children.size) hcons
          (fun y hy hys => hstart (hys ▸ hy)) (by omega) hfirst
        simp only [Nat.add_zero] at h
        rw [hb]
        simp only [stack_push]
        rw [h]
        simp [afterChildren, Walk.after]
  have hcur : (children.iters reg deviceAddress (indent + 1) 1 [0]).map
      (fun it => it.state.current) = children.preorder :=
    forest_iters_current reg deviceAddress children _ _ _
  refine ⟨by rw [hw], by rw [hw]; exact hcur, by rw [hw], by rw [hw], ?_, ?_⟩
  · exact walkLoop_callback reg start indent deviceAddress LOOP_SANITY_LIMIT _
  · intro hnodup x hx
    rw [hw]
    simp only
    rw [hcur]
    exact List.count_eq_one_of_mem hnodup hx

/-- Witness: the tree of `sampleRegistry` below node 0, walked at indent 0. -/
theorem PrintDevinstChildren_registry_tree_witness :
    (isRegistryTree sampleRegistry 0 sampleChildren = true) ∧
    (sampleChildren.size ≤ LOOP_SANITY_LIMIT) ∧
    ((PrintDevinstChildren sampleRegistry 0 0 5).trace.map (fun it => it.state.current) =
      sampleChildren.preorder) ∧
    (sampleChildren.preorder = [1, 2, 3]) ∧
    ((PrintDevinstChildren sampleRegistry 0 0 5).trace.map (fun it => it.state.level) =
      [1, 2, 1]) :=
  ⟨by decide, by decide,
    (PrintDevinstChildren_registry_tree sampleRegistry 0 0 5 sampleChildren (by decide)
      (by decide)).2.1,
    by decide, by decide⟩

/-! ### Failing registry queries -/

end USBPcap

namespace USBPcap
open USBPcapHelper

/-! ### The sanity limit as a cut -/

/-- The passes of the main loop under a budget are the first passes of the main
loop under any larger budget. -/
theorem walkLoop_trace_prefix (reg : Registry) (parent : DEVINST)
    (indent deviceAddress : Nat) (extra : Nat) :
    ∀ (budget : Nat) (st : WalkState),
      (walkLoop reg parent indent deviceAddress budget st).trace <+:
        (walkLoop reg parent indent deviceAddress (budget + extra) st).trace := by
  intro budget
  induction budget with
  | zero =>
      intro st
      have h : (walkLoop reg parent indent deviceAddress 0 st).trace = [] := by
        simp only [walkLoop]
        split_ifs <;> rfl
      rw [h]
      exact List.nil_prefix
  | succ b ih =>
      intro st
      have hb : b + 1 + extra = (b + extra) + 1 := by omega
      rw [hb]
      by_cases hl : st.level > indent
      · rw [walkLoop_succ reg parent indent deviceAddress b st hl,
          walkLoop_succ reg parent indent deviceAddress (b + extra) st hl]
        cases walkStep reg parent indent st with
        | next st1 =>
            simp only [Walk.after, List.singleton_append]
            exact (List.prefix_cons_inj _).mpr (ih st1)
        | done e stk => exact List.prefix_refl _
      · rw [walkLoop_stopped reg parent indent deviceAddress _ st hl,
          walkLoop_stopped reg parent indent deviceAddress _ st hl]

/-- C21: the records `PrintDevinstChildren` emits under the sanity limit of
10000 passes are, unchanged and in the same order, the first records the same
walk emits under any larger limit; so are its passes. -/
theorem sanity_abort_keeps_records (reg : Registry) (parent : DEVINST)
    (indent deviceAddress : Nat) (limit : Nat) (hlimit : LOOP_SANITY_LIMIT ≤ limit) :
    (PrintDevinstChildren reg parent indent deviceAddress).trace <+:
      (PrintDevinstChildrenWithin limit reg parent indent deviceAddress).trace ∧
    (PrintDevinstChildren reg parent indent deviceAddress).records <+:
      (PrintDevinstChildrenWithin limit reg parent indent deviceAddress).records := by
  have hsum : limit = LOOP_SANITY_LIMIT + (limit - LOOP_SANITY_LIMIT) := by omega
  have h : (PrintDevinstChildren reg parent indent deviceAddress).trace <+:
      (PrintDevinstChildrenWithin limit reg parent indent deviceAddress).trace := by
    unfold PrintDevinstChildren PrintDevinstChildrenWithin
    rw [hsum]
    exact walkLoop_trace_prefix reg parent indent deviceAddress _ _ _
  exact ⟨h, List.IsPrefix.filterMap Iter.callback h⟩

/-- Witness: the walk of the cyclic registry under the limits 10000 and 20000. -/
theorem sanity_abort_keeps_records_witness :
    (LOOP_SANITY_LIMIT ≤ 20000) ∧
    ((PrintDevinstChildren cyclicRegistry 0 0 5).trace <+:
      (PrintDevinstChildrenWithin 20000 cyclicRegistry 0 0 5).trace ∧
    (PrintDevinstChildren cyclicRegistry 0 0 5).records <+:
      (PrintDevinstChildrenWithin 20000 cyclicRegistry 0 0 5).records) :=
  ⟨by decide, sanity_abort_keeps_records cyclicRegistry 0 0 5 20000 (by decide)⟩

end USBPcap

namespace USBPcapHelper
open USBPcap

/-! ### Order of the control requests of `start()` -/

theorem findDeviceLoop_lengths (self : USBPcapHelper) (fs : List FilterEntry)
    (device : FindDeviceContext) :
    (findDeviceLoop self fs device).self.snaplen = self.snaplen ∧
    (findDeviceLoop self fs device).self.bufferlen = self.bufferlen := by
  induction fs generalizing device with
  | nil => exact ⟨rfl, rfl⟩
  | cons f rest ih =>
      simp only [findDeviceLoop]
      split_ifs
      · exact ⟨rfl, rfl⟩
      · exact ih _

/-- No public method changes the snapshot length or the buffer length. -/
theorem call_lengths (self : USBPcapHelper) (c : Call) :
    (call self c).1.snaplen = self.snaplen ∧ (call self c).1.bufferlen = self.bufferlen := by
  cases c with
  | findDevice fs up v p =>
      simp only [call, findDevice]
      split_ifs
      · exact ⟨rfl, rfl⟩
      · exact findDeviceLoop_lengths self fs _
  | start env =>
      obtain ⟨a, h, b, c, d⟩ := env
      cases a <;> cases b <;> cases c <;> cases d <;>
        by_cases hh : h = HANDLE.INVALID_HANDLE_VALUE <;>
        simp [call, start, startFINISH, hh]
  | stop => exact ⟨rfl, rfl⟩
  | isRunning => exact ⟨rfl, rfl⟩

theorem calls_lengths (self : USBPcapHelper) (cs : List Call) :
    (calls self cs).snaplen = self.snaplen ∧ (calls self cs).bufferlen = self.bufferlen := by
  induction cs generalizing self with
  | nil => exact ⟨rfl, rfl⟩
  | cons c rest ih =>
      simp only [calls]
      have h1 := ih (call self c).1
      have h2 := call_lengths self c
      exact ⟨h1.1.trans h2.1, h1.2.trans h2.2⟩

/-- C22: the control requests `start()` sends to the opened endpoint are the
first ones of set-snapshot-length, setup-buffer, start-filtering, in this
order, up to and including the first one that fails: none when the open fails,
and after a failed request no further one; on a session built by the
constructor, whatever was called on it since, the values sent are 65535 and
1048576. -/
theorem start_control_requests (self : USBPcapHelper) (env : StartEnv) :
    (controlRequests (start self env).sys <+:
      [SysCall.SET_SNAPLEN_SIZE env.CreateFileA self.snaplen,
        SysCall.SETUP_BUFFER env.CreateFileA self.bufferlen,
        SysCall.START_FILTERING env.CreateFileA]) ∧
    (env.CreateFileA = HANDLE.INVALID_HANDLE_VALUE →
      controlRequests (start self env).sys = []) ∧
    (env.USBPcapInitAddressFilter = true →
      env.CreateFileA ≠ HANDLE.INVALID_HANDLE_VALUE →
      (env.setSnaplen = false →
        controlRequests (start self env).sys =
          [SysCall.SET_SNAPLEN_SIZE env.CreateFileA self.snaplen]) ∧
      (env.setSnaplen = true → env.setupBuffer = false →
        controlRequests (start self env).sys =
          [SysCall.SET_SNAPLEN_SIZE env.CreateFileA self.snaplen,
            SysCall.SETUP_BUFFER env.CreateFileA self.bufferlen]) ∧
      (env.setSnaplen = true → env.setupBuffer = true →
        controlRequests (start self env).sys =
          [SysCall.SET_SNAPLEN_SIZE env.CreateFileA self.snaplen,
            SysCall.SETUP_BUFFER env.CreateFileA self.bufferlen,
            SysCall.START_FILTERING env.CreateFileA])) ∧
    (∀ (indeterminate : HANDLE) (cs : List Call),
      (calls (init indeterminate) cs).snaplen = 65535 ∧
      (calls (init indeterminate) cs).bufferlen = 1048576) := by
  refine ⟨?_, ?_, ?_, fun indeterminate cs => calls_lengths (init indeterminate) cs⟩
  · obtain ⟨a, h, b, c, d⟩ := env
    cases a <;> cases b <;> cases c <;> cases d <;>
      by_cases hh : h = HANDLE.INVALID_HANDLE_VALUE <;>
      simp [start, startFINISH, hh, controlRequests, isControlRequest, List.filter,
        List.prefix_cons_inj, List.nil_prefix]
  · obtain ⟨a, h, b, c, d⟩ := env
    intro hh
    simp only at hh
    cases a <;> simp [start, hh, controlRequests, isControlRequest, List.filter]
  · obtain ⟨a, h, b, c, d⟩ := env
    intro ha hh
    simp only at ha hh
    subst ha
    cases b <;> cases c <;> cases d <;>
      simp [start, startFINISH, hh, controlRequests, isControlRequest, List.filter]

/-- Witness: on a fresh session the endpoint opens as handle 7 and the buffer
setup fails: two requests are sent, with the default lengths. -/
theorem start_control_requests_witness :
    (setupBufferFailsEnv.USBPcapInitAddressFilter = true) ∧
    (setupBufferFailsEnv.CreateFileA ≠ HANDLE.INVALID_HANDLE_VALUE) ∧
    (setupBufferFailsEnv.setSnaplen = true) ∧ (setupBufferFailsEnv.setupBuffer = false) ∧
    (controlRequests (start fresh setupBufferFailsEnv).sys =
      [SysCall.SET_SNAPLEN_SIZE setupBufferFailsEnv.CreateFileA fresh.snaplen,
        SysCall.SETUP_BUFFER setupBufferFailsEnv.CreateFileA fresh.bufferlen]) ∧
    (controlRequests (start fresh setupBufferFailsEnv).sys =
      [SysCall.SET_SNAPLEN_SIZE (HANDLE.valid 7) 65535,
        SysCall.SETUP_BUFFER (HANDLE.valid 7) 1048576]) :=
  ⟨by decide, by decide, by decide, by decide,
    ((start_control_requests fresh setupBufferFailsEnv).2.2.1 (by decide) (by decide)).2.1
      (by decide) (by decide),
    by decide⟩

end USBPcapHelper

namespace USBPcap
open USBPcapHelper

/-! ### Balance of node stack and level -/

/-- The inner loop, entered with as many numbers on the node stack as the level
is above `indent`: when it ends on a sibling, at the level `ascendLevel` tells,
the stack still has as many entries as the level is above `indent`, and at least
one; when it ends by the return to the start, the stack has as many entries as
the level it has come to is above `indent`. -/
theorem ascend_balance (reg : Registry) (parent : DEVINST) (indent : Nat) :
    ∀ (d : Nat) (current : DEVINST) (nodeStack : List Nat), nodeStack.length = d + 1 →
      (∀ next level nodeStack1,
        ascend reg parent indent d current nodeStack = Ascend.sibling next level nodeStack1 →
        nodeStack1.length + indent = level ∧ 1 ≤ nodeStack1.length ∧
          ascendLevel reg parent indent d current = level) ∧
      (∀ nodeStack1,
        ascend reg parent indent d current nodeStack =
          Ascend.done WalkExit.returnedToParent nodeStack1 →
        nodeStack1.length + indent = ascendLevel reg parent indent d current) := by
  intro d
  induction d with
  | zero =>
      intro current nodeStack hlen
      rw [ascend, ascendLevel]
      cases reg.CM_Get_Sibling current with
      | CR_SUCCESS y =>
          refine ⟨?_, ?_⟩
          · intro next level s h
            simp only [Ascend.sibling.injEq] at h
            obtain ⟨_, hl, hs⟩ := h
            subst hl hs
            refine ⟨by omega, by omega, rfl⟩
          · intro s h
            simp at h
      | CR_NO_SUCH_DEVNODE =>
          cases reg.CM_Get_Parent current with
          | none =>
              refine ⟨?_, ?_⟩
              · intro next level s h; simp at h
              · intro s h; simp at h
          | some q =>
              refine ⟨?_, ?_⟩
              · intro next level s h; simp at h
              · intro s h
                simp only [Ascend.done.injEq, true_and] at h
                subst h
                simp only [stack_pop, List.length_tail]
                omega
      | error cr =>
          refine ⟨?_, ?_⟩
          · intro next level s h; simp at h
          · intro s h; simp at h
  | succ d ih =>
      intro current nodeStack hlen
      rw [ascend, ascendLevel]
      cases reg.CM_Get_Sibling current with
      | CR_SUCCESS y =>
          refine ⟨?_, ?_⟩
          · intro next level s h
            simp only [Ascend.sibling.injEq] at h
            obtain ⟨_, hl, hs⟩ := h
            subst hl hs
            refine ⟨by omega, by omega, rfl⟩
          · intro s h
            simp at h
      | CR_NO_SUCH_DEVNODE =>
          cases reg.CM_Get_Parent current with
          | none =>
              refine ⟨?_, ?_⟩
              · intro next level s h; simp at h
              · intro s h; simp at h
          | some q =>
              have hpop : (stack_pop nodeStack).length = d + 1 := by
                simp only [stack_pop, List.length_tail]
                omega
              have hrec := ih q (stack_pop nodeStack) hpop
              simp only
              by_cases hq : q = parent
              · simp only [hq, if_true]
                refine ⟨?_, ?_⟩
                · intro next level s h; simp at h
                · intro s h
                  simp only [Ascend.done.injEq, true_and] at h
                  subst h
                  omega
              · simp only [hq, if_false]
                exact hrec
      | error cr =>
          refine ⟨?_, ?_⟩
          · intro next level s h; simp at h
          · intro s h; simp at h

/-- A pass that does not return keeps the balance of node stack and level. -/
theorem walkStep_balance (reg : Registry) (parent : DEVINST) (indent : Nat)
    (st st1 : WalkState) (hlevel : st.level > indent)
    (hbal : st.nodeStack.length + indent = st.level)
    (h : walkStep reg parent indent st = Step.next st1) :
    st1.nodeStack.length + indent = st1.level := by
  unfold walkStep at h
  cases hc : reg.CM_Get_Child st.current with
  | some next =>
      simp only [hc, Step.next.injEq] at h
      subst h
      simp only [stack_push, List.length_cons]
      omega
  | none =>
      simp only [hc] at h
      cases ha : ascend reg parent indent (st.level - indent - 1) st.current st.nodeStack with
      | sibling next l s =>
          simp only [ha, Step.next.injEq] at h
          subst h
          exact ((ascend_balance reg parent indent _ st.current st.nodeStack (by omega)).1
            next l s ha).1
      | done e s => simp [ha] at h

/-- At the head of every pass the node stack has as many entries as the level is
above `indent`, and the level is above `indent`. -/
theorem walkLoop_balance (reg : Registry) (parent : DEVINST) (indent deviceAddress : Nat) :
    ∀ (budget : Nat) (st : WalkState), st.nodeStack.length + indent = st.level →
      ∀ it ∈ (walkLoop reg parent indent deviceAddress budget st).trace,
        it.state.nodeStack.length + indent = it.state.level ∧ it.state.level > indent := by
  intro budget
  induction budget with
  | zero =>
      intro st _ it hit
      simp only [walkLoop] at hit
      split_ifs at hit <;> simp at hit
  | succ b ih =>
      intro st hbal it hit
      by_cases hl : st.level > indent
      · rw [walkLoop_succ reg parent indent deviceAddress b st hl] at hit
        cases hs : walkStep reg parent indent st with
        | next st1 =>
            simp only [hs, Walk.after, List.singleton_append, List.mem_cons] at hit
            rcases hit with hit | hit
            · rw [hit]
              exact ⟨hbal, hl⟩
            · exact ih st1 (walkStep_balance reg parent indent st st1 hl hbal hs) it hit
        | done e stk =>
            simp only [hs, List.mem_singleton] at hit
            rw [hit]
            exact ⟨hbal, hl⟩
      · rw [walkLoop_stopped reg parent indent deviceAddress _ st hl] at hit
        simp at hit

/-- A walk that ends by the return to the start ends in the inner loop of its
last pass. -/
theorem walkLoop_returned (reg : Registry) (parent : DEVINST) (indent deviceAddress : Nat) :
    ∀ (budget : Nat) (st : WalkState),
      (walkLoop reg parent indent deviceAddress budget st).exit = WalkExit.returnedToParent →
      ∃ it, (walkLoop reg parent indent deviceAddress budget st).trace.getLast? = some it ∧
        ascend reg parent indent (it.state.level - indent - 1) it.state.current
            it.state.nodeStack =
          Ascend.done WalkExit.returnedToParent
            (walkLoop reg parent indent deviceAddress budget st).nodeStack := by
  intro budget
  induction budget with
  | zero =>
      intro st h
      simp only [walkLoop] at h
      split_ifs at h
  | succ b ih =>
      intro st h
      by_cases hl : st.level > indent
      · rw [walkLoop_succ reg parent indent deviceAddress b st hl] at h ⊢
        cases hs : walkStep reg parent indent st with
        | next st1 =>
            simp only [hs, Walk.after] at h ⊢
            obtain ⟨it, hlast, hasc⟩ := ih st1 h
            refine ⟨it, ?_, hasc⟩
            rw [List.getLast?_append_of_ne_nil _ (by
              intro hnil
              rw [hnil] at hlast
              simp at hlast)]
            exact hlast
        | done e stk =>
            simp only [hs] at h ⊢
            subst h
            refine ⟨⟨st, visitNode reg deviceAddress st⟩, rfl, ?_⟩
            unfold walkStep at hs
            cases hc : reg.CM_Get_Child st.current with
            | some next => simp [hc] at hs
            | none =>
                simp only [hc] at hs
                cases ha : ascend reg parent indent (st.level - indent - 1) st.current
                    st.nodeStack with
                | sibling next l s2 => simp [ha] at hs
                | done e2 s2 =>
                    simp only [ha, Step.done.injEq] at hs
                    rw [hs.1, hs.2]
      · rw [walkLoop_stopped reg parent indent deviceAddress _ st hl] at h
        simp at h

/-- C25: the allocation of `stack_push` taken to succeed, at the head of every
pass of the main loop of `PrintDevinstChildren` the node stack has exactly
`level - indent` entries, which is at least 1, so `stack_peek` succeeds and the
parentNode handed to the callback is the top of the stack, never the fallback;
and when the walk returns from the inner loop of its last pass by the return to
the start, the node stack has as many entries left as the level the inner loop
has come to is above `indent`: none when that is the start level `indent`. -/
theorem stack_level_balance (reg : Registry) (parent : DEVINST)
    (indent deviceAddress : Nat) :
    (∀ it ∈ (PrintDevinstChildren reg parent indent deviceAddress).trace,
      it.state.nodeStack.length = it.state.level - indent ∧
      1 ≤ it.state.nodeStack.length ∧
      (∃ top, stack_peek it.state.nodeStack = some top ∧
        ∀ r, it.callback = some r → r.parentNode = top)) ∧
    ((PrintDevinstChildren reg parent indent deviceAddress).exit = WalkExit.returnedToParent →
      ∃ it, (PrintDevinstChildren reg parent indent deviceAddress).trace.getLast? = some it ∧
        (PrintDevinstChildren reg parent indent deviceAddress).nodeStack.length + indent =
          ascendLevel reg parent indent (it.state.level - indent - 1) it.state.current ∧
        (ascendLevel reg parent indent (it.state.level - indent - 1) it.state.current =
            indent →
          (PrintDevinstChildren reg parent indent deviceAddress).nodeStack = [])) := by
  have hbal0 : ∀ it ∈ (PrintDevinstChildren reg parent indent deviceAddress).trace,
      it.state.nodeStack.length + indent = it.state.level ∧ it.state.level > indent := by
    unfold PrintDevinstChildren PrintDevinstChildrenWithin
    cases reg.CM_Get_Child parent with
    | none =>
        exact walkLoop_balance reg parent indent deviceAddress LOOP_SANITY_LIMIT
          ⟨parent, indent, 1, []⟩ (by simp)
    | some next =>
        exact walkLoop_balance reg parent indent deviceAddress LOOP_SANITY_LIMIT
          ⟨next, indent + 1, 1, stack_push [] 0⟩ (by simp [stack_push]; omega)
  have hcb := walkLoop_callback reg parent indent deviceAddress LOOP_SANITY_LIMIT
    (match reg.CM_Get_Child parent with
      | some next => ⟨next, indent + 1, 1, stack_push [] 0⟩
      | none => ⟨parent, indent, 1, []⟩)
  constructor
  · intro it hit
    have hb := hbal0 it hit
    refine ⟨by omega, by omega, ?_⟩
    cases hst : it.state.nodeStack with
    | nil =>
        rw [hst] at hb
        simp only [List.length_nil] at hb
        omega
    | cons v vs =>
        refine ⟨v, rfl, ?_⟩
        intro r hr
        have hv := hcb it hit
        rw [hr] at hv
        rw [(visitNode_some reg deviceAddress it.state r hv.symm).2.2.1, hst]
        rfl
  · intro hexit
    obtain ⟨it, hlast, hasc⟩ := walkLoop_returned reg parent indent deviceAddress
      LOOP_SANITY_LIMIT _ hexit
    have hit : it ∈ (PrintDevinstChildren reg parent indent deviceAddress).trace :=
      List.mem_of_getLast?_eq_some hlast
    have hb := hbal0 it hit
    have hlen : (PrintDevinstChildren reg parent indent deviceAddress).nodeStack.length + indent =
        ascendLevel reg parent indent (it.state.level - indent - 1) it.state.current :=
      (ascend_balance reg parent indent (it.state.level - indent - 1)
        it.state.current it.state.nodeStack (by omega)).2 _ hasc
    refine ⟨it, hlast, hlen, ?_⟩
    intro hlevel
    rw [hlevel] at hlen
    exact List.length_eq_zero.mp (by omega)

/-- Witness: the walk of `sampleRegistry`, which ends by climbing from node 3
back to the start level with an empty node stack. -/
theorem stack_level_balance_witness :
    ((PrintDevinstChildren sampleRegistry 0 0 5).exit = WalkExit.returnedToParent) ∧
    ((PrintDevinstChildren sampleRegistry 0 0 5).nodeStack = []) ∧
    ((PrintDevinstChildren sampleRegistry 0 0 5).trace.map
        (fun it => (it.state.level, it.state.nodeStack)) =
      [(1, [0]), (2, [1, 0]), (1, [0])]) ∧
    (∃ it, (PrintDevinstChildren sampleRegistry 0 0 5).trace.getLast? = some it ∧
      (PrintDevinstChildren sampleRegistry 0 0 5).nodeStack.length + 0 =
        ascendLevel sampleRegistry 0 0 (it.state.level - 0 - 1) it.state.current ∧
      (ascendLevel sampleRegistry 0 0 (it.state.level - 0 - 1) it.state.current = 0 →
        (PrintDevinstChildren sampleRegistry 0 0 5).nodeStack = [])) :=
  ⟨by decide, by decide, by decide,
    (stack_level_balance sampleRegistry 0 0 5).2 (by decide)⟩

end USBPcap

namespace USBPcap
open USBPcapHelper

/-! ### The parent index on a registry tree -/

mutual
/-- In a subtree of a registry tree the first child of a node is a node of the
subtree whose registry parent is that node, and the sibling of a node is a node
of the subtree with the same registry parent, or the sibling of the root. -/
theorem tree_local (reg : Registry) :
    ∀ (t : DevTree) (p : DEVINST) (next : SiblingResult), t.consistent reg p next = true →
      ∀ x ∈ t.preorder,
        (∀ c, reg.CM_Get_Child x = some c → c ∈ t.preorder ∧ reg.CM_Get_Parent c = some x) ∧
        (∀ y, reg.CM_Get_Sibling x = SiblingResult.CR_SUCCESS y →
          (y ∈ t.preorder ∧ reg.CM_Get_Parent y = reg.CM_Get_Parent x) ∨
          (reg.CM_Get_Parent x = some p ∧ next = SiblingResult.CR_SUCCESS y))
  | .node x0 cs, p, next, hc, x, hx => by
      simp only [DevTree.consistent, Bool.and_eq_true, decide_eq_true_eq] at hc
      obtain ⟨⟨⟨hpar, hsib⟩, hchild⟩, hcs⟩ := hc
      simp only [DevTree.preorder, List.mem_cons] at hx ⊢
      have hrec := forest_local reg cs x0 hcs
      rcases hx with hx | hx
      · subst hx
        refine ⟨?_, ?_⟩
        · intro c hcx
          rw [hchild] at hcx
          cases cs with
          | nil => simp [DevForest.first?] at hcx
          | cons t rest =>
              simp only [DevForest.first?, Option.some.injEq] at hcx
              simp only [DevForest.consistent, Bool.and_eq_true] at hcs
              have hroot := DevTree.consistent_root reg x rest.sibling? t hcs.1
              subst hcx
              exact ⟨Or.inr (by
                simp only [DevForest.preorder, List.mem_append]
                exact Or.inl (DevTree.inst_mem_preorder t)), hroot.1⟩
        · intro y hy
          right
          rw [hsib] at hy
          exact ⟨hpar, hy⟩
      · have h := hrec x hx
        refine ⟨?_, ?_⟩
        · intro c hcx
          exact ⟨Or.inr (h.1 c hcx).1, (h.1 c hcx).2⟩
        · intro y hy
          left
          exact ⟨Or.inr (h.2 y hy).1, (h.2 y hy).2⟩
/-- Among the children of a node of a registry tree, and below them, the first
child of a node is such a node whose registry parent is that node, and the
sibling of a node is such a node with the same registry parent. -/
theorem forest_local (reg : Registry) :
    ∀ (f : DevForest) (p : DEVINST), f.consistent reg p = true →
      ∀ x ∈ f.preorder,
        (∀ c, reg.CM_Get_Child x = some c → c ∈ f.preorder ∧ reg.CM_Get_Parent c = some x) ∧
        (∀ y, reg.CM_Get_Sibling x = SiblingResult.CR_SUCCESS y →
          y ∈ f.preorder ∧ reg.CM_Get_Parent y = reg.CM_Get_Parent x)
  | .nil, _, _, x, hx => by
      simp [DevForest.preorder] at hx
  | .cons t rest, p, hc, x, hx => by
      simp only [DevForest.consistent, Bool.and_eq_true] at hc
      simp only [DevForest.preorder, List.mem_append] at hx ⊢
      rcases hx with hx | hx
      · have h := tree_local reg t p rest.sibling? hc.1 x hx
        refine ⟨?_, ?_⟩
        · intro c hcx
          exact ⟨Or.inl (h.1 c hcx).1, (h.1 c hcx).2⟩
        · intro y hy
          rcases h.2 y hy with h2 | h2
          · exact ⟨Or.inl h2.1, h2.2⟩
          · cases rest with
            | nil => simp [DevForest.sibling?] at h2
            | cons t2 rest2 =>
                simp only [DevForest.sibling?, SiblingResult.CR_SUCCESS.injEq] at h2
                simp only [DevForest.consistent, Bool.and_eq_true] at hc
                have hroot := DevTree.consistent_root reg p rest2.sibling? t2 hc.2.1
                obtain ⟨hpx, hy2⟩ := h2
                subst hy2
                refine ⟨Or.inr ?_, ?_⟩
                · simp only [DevForest.preorder, List.mem_append]
                  exact Or.inl (DevTree.inst_mem_preorder t2)
                · rw [hroot.1, hpx]
      · have h := forest_local reg rest p hc.2 x hx
        refine ⟨?_, ?_⟩
        · intro c hcx
          exact ⟨Or.inr (h.1 c hcx).1, (h.1 c hcx).2⟩
        · intro y hy
          exact ⟨Or.inr (h.2 y hy).1, (h.2 y hy).2⟩
end

/-- More earlier passes keep the reading of a node stack. -/
theorem ParentChain_mono (reg : Registry) (start : DEVINST) (nodes : List DEVINST)
    (pre more : List Iter) :
    ∀ (nodeStack : List Nat) (q : Option DEVINST),
      ParentChain reg start nodes pre q nodeStack →
      ParentChain reg start nodes (pre ++ more) q nodeStack := by
  intro nodeStack
  induction nodeStack with
  | nil => intro q h; exact h
  | cons v rest ih =>
      intro q h
      simp only [ParentChain] at h ⊢
      rcases h with h | ⟨it, hit, hq, hmem, hn, hrest⟩
      · exact Or.inl h
      · exact Or.inr ⟨it, List.mem_append_left _ hit, hq, hmem, hn, ih _ hrest⟩

/-- On a registry tree the inner loop, when it ends on a sibling, ends on a node
of the tree with the node stack naming the registry ancestors of that node. -/
theorem ascend_chain (reg : Registry) (start : DEVINST) (indent : Nat)
    (nodes : List DEVINST) (pre : List Iter)
    (hsib : ∀ x ∈ nodes, ∀ y, reg.CM_Get_Sibling x = SiblingResult.CR_SUCCESS y →
      y ∈ nodes ∧ reg.CM_Get_Parent y = reg.CM_Get_Parent x) :
    ∀ (d : Nat) (current : DEVINST) (nodeStack : List Nat),
      nodeStack.length = d + 1 → current ∈ nodes →
      ParentChain reg start nodes pre (reg.CM_Get_Parent current) nodeStack →
      ∀ next level nodeStack1,
        ascend reg start indent d current nodeStack = Ascend.sibling next level nodeStack1 →
        next ∈ nodes ∧
          ParentChain reg start nodes pre (reg.CM_Get_Parent next) nodeStack1 := by
  intro d
  induction d with
  | zero =>
      intro current nodeStack hlen hcur hchain next level s h
      rw [ascend] at h
      cases hs : reg.CM_Get_Sibling current with
      | CR_SUCCESS y =>
          simp only [hs, Ascend.sibling.injEq] at h
          obtain ⟨hy, _, hst⟩ := h
          subst hy hst
          have := hsib current hcur y hs
          exact ⟨this.1, by rw [this.2]; exact hchain⟩
      | CR_NO_SUCH_DEVNODE =>
          simp only [hs] at h
          cases hp : reg.CM_Get_Parent current <;> simp [hp] at h
      | error cr => simp [hs] at h
  | succ d ih =>
      intro current nodeStack hlen hcur hchain next level s h
      rw [ascend] at h
      cases hs : reg.CM_Get_Sibling current with
      | CR_SUCCESS y =>
          simp only [hs, Ascend.sibling.injEq] at h
          obtain ⟨hy, _, hst⟩ := h
          subst hy hst
          have := hsib current hcur y hs
          exact ⟨this.1, by rw [this.2]; exact hchain⟩
      | CR_NO_SUCH_DEVNODE =>
          simp only [hs] at h
          cases hp : reg.CM_Get_Parent current with
          | none => simp [hp] at h
          | some q =>
              simp only [hp] at h
              by_cases hq : q = start
              · simp [hq] at h
              · simp only [hq, if_false] at h
                cases nodeStack with
                | nil => simp at hlen
                | cons v rest =>
                    simp only [List.length_cons, Nat.add_right_cancel_iff] at hlen
                    rw [hp] at hchain
                    simp only [ParentChain] at hchain
                    rcases hchain with ⟨_, _, hq0⟩ | ⟨it, _, hq1, hmem, _, hrest⟩
                    · simp only [Option.some.injEq] at hq0
                      exact absurd hq0 hq
                    · simp only [Option.some.injEq] at hq1
                      subst hq1
                      exact ih it.state.current rest hlen hmem hrest next level s h
      | error cr => simp [hs] at h

/-- On a registry tree every pass of the main loop stands on a node of the tree
with the node stack naming the registry ancestors of that node among the earlier
passes. -/
theorem walkLoop_chain (reg : Registry) (start : DEVINST) (indent deviceAddress : Nat)
    (nodes : List DEVINST)
    (hchild : ∀ x ∈ nodes, ∀ c, reg.CM_Get_Child x = some c →
      c ∈ nodes ∧ reg.CM_Get_Parent c = some x)
    (hsib : ∀ x ∈ nodes, ∀ y, reg.CM_Get_Sibling x = SiblingResult.CR_SUCCESS y →
      y ∈ nodes ∧ reg.CM_Get_Parent y = reg.CM_Get_Parent x) :
    ∀ (budget : Nat) (st : WalkState) (pre : List Iter),
      st.current ∈ nodes → st.nodeStack.length + indent = st.level →
      ParentChain reg start nodes pre (reg.CM_Get_Parent st.current) st.nodeStack →
      ∀ mid it post,
        (walkLoop reg start indent deviceAddress budget st).trace = mid ++ it :: post →
        it.state.current ∈ nodes ∧
          ParentChain reg start nodes (pre ++ mid) (reg.CM_Get_Parent it.state.current)
            it.state.nodeStack := by
  intro budget
  induction budget with
  | zero =>
      intro st pre _ _ _ mid it post h
      simp only [walkLoop] at h
      split_ifs at h <;> simp at h
  | succ b ih =>
      intro st pre hcur hbal hchain mid it post h
      by_cases hl : st.level > indent
      · rw [walkLoop_succ reg start indent deviceAddress b st hl] at h
        have hhere : ∀ post1, [(⟨st, visitNode reg deviceAddress st⟩ : Iter)] ++ post1 =
            mid ++ it :: post → mid = [] →
            it.state.current ∈ nodes ∧
              ParentChain reg start nodes (pre ++ mid) (reg.CM_Get_Parent it.state.current)
                it.state.nodeStack := by
          intro post1 h1 hmid
          subst hmid
          simp only [List.singleton_append, List.nil_append, List.cons.injEq] at h1
          rw [← h1.1, List.append_nil]
          exact ⟨hcur, hchain⟩
        cases hs : walkStep reg start indent st with
        | next st1 =>
            simp only [hs, Walk.after] at h
            cases mid with
            | nil => exact hhere _ h rfl
            | cons m mid1 =>
                simp only [List.singleton_append, List.cons_append, List.cons.injEq] at h
                obtain ⟨hm, hrest⟩ := h
                have hst1 : st1.current ∈ nodes ∧
                    ParentChain reg start nodes (pre ++ [m])
                      (reg.CM_Get_Parent st1.current) st1.nodeStack := by
                  unfold walkStep at hs
                  cases hc : reg.CM_Get_Child st.current with
                  | some c =>
                      simp only [hc, Step.next.injEq] at hs
                      subst hs
                      have hcc := hchild st.current hcur c hc
                      refine ⟨hcc.1, ?_⟩
                      simp only [stack_push, ParentChain]
                      right
                      refine ⟨m, by simp, ?_, ?_, ?_, ?_⟩
                      · rw [← hm]; exact hcc.2
                      · rw [← hm]; exact hcur
                      · rw [← hm]
                      · rw [← hm]
                        exact ParentChain_mono reg start nodes pre [_] _ _ hchain
                  | none =>
                      simp only [hc] at hs
                      cases ha : ascend reg start indent (st.level - indent - 1) st.current
                          st.nodeStack with
                      | sibling next l s =>
                          simp only [ha, Step.next.injEq] at hs
                          subst hs
                          have := ascend_chain reg start indent nodes pre hsib
                            (st.level - indent - 1) st.current st.nodeStack (by omega) hcur
                            hchain next l s ha
                          exact ⟨this.1, ParentChain_mono reg start nodes pre [m] _ _ this.2⟩
                      | done e s => simp [ha] at hs
                have hres := ih st1 (pre ++ [m]) hst1.1
                  (walkStep_balance reg start indent st st1 hl hbal hs) hst1.2 mid1 it post
                  hrest
                simpa using hres
        | done e stk =>
            simp only [hs] at h
            cases mid with
            | nil => exact hhere [] (by simpa using h) rfl
            | cons m mid1 =>
                simp only [List.cons_append, List.cons.injEq] at h
                have := h.2
                simp at this
      · rw [walkLoop_stopped reg start indent deviceAddress _ st hl] at h
        simp at h

/-- C23: on every registry tree, whatever its size, each record emitted by
`PrintDevinstChildren` belongs to a pass on a node of the tree, and its
parentNode is 0 when the registry parent of that node is the start node of the
walk, and otherwise it is the node index of an earlier pass of the walk, which
stood on the registry parent of that node. -/
theorem parentNode_reflects_registry_tree (reg : Registry) (start : DEVINST)
    (indent deviceAddress : Nat) (children : DevForest)
    (htree : isRegistryTree reg start children = true)
    (pre post : List Iter) (it : Iter) (r : DeviceInfo)
    (htrace : (PrintDevinstChildren reg start indent deviceAddress).trace =
      pre ++ it :: post)
    (hcb : it.callback = some r) :
    it.state.current ∈ children.preorder ∧
    (reg.CM_Get_Parent it.state.current = some start → r.parentNode = 0) ∧
    (∀ q, reg.CM_Get_Parent it.state.current = some q → q ≠ start →
      ∃ it' ∈ pre, it'.state.current = q ∧ it'.state.nextNode = r.parentNode) ∧
    ((∃ q, reg.CM_Get_Parent it.state.current = some q) ∧
      (reg.CM_Get_Parent it.state.current ≠ some start →
        ∃ it' ∈ pre, reg.CM_Get_Parent it.state.current = some it'.state.current ∧
          it'.state.nextNode = r.parentNode)) := by
  simp only [isRegistryTree, Bool.and_eq_true, decide_eq_true_eq] at htree
  obtain ⟨⟨hfirst, hcons⟩, hstart⟩ := htree
  have hlocal := forest_local reg children start hcons
  have hit : it ∈ (PrintDevinstChildren reg start indent deviceAddress).trace := by
    rw [htrace]; simp
  have hv := walkLoop_callback reg start indent deviceAddress LOOP_SANITY_LIMIT
    (match reg.CM_Get_Child start with
      | some next => ⟨next, indent + 1, 1, stack_push [] 0⟩
      | none => ⟨start, indent, 1, []⟩) it hit
  rw [hcb] at hv
  have hpn := (visitNode_some reg deviceAddress it.state r hv.symm).2.2.1
  have hchain : it.state.current ∈ children.preorder ∧
      ParentChain reg start children.preorder ([] ++ pre)
        (reg.CM_Get_Parent it.state.current) it.state.nodeStack := by
    unfold PrintDevinstChildren PrintDevinstChildrenWithin at htrace
    cases hc : reg.CM_Get_Child start with
    | none =>
        rw [hc] at htrace
        simp only at htrace
        rw [walkLoop_stopped reg start indent deviceAddress _ _ (by simp)] at htrace
        simp at htrace
    | some c =>
        rw [hc] at htrace
        simp only at htrace
        rw [hc] at hfirst
        cases children with
        | nil => simp [DevForest.first?] at hfirst
        | cons t rest =>
            simp only [DevForest.first?, Option.some.injEq] at hfirst
            simp only [DevForest.consistent, Bool.and_eq_true] at hcons
            have hroot := DevTree.consistent_root reg start rest.sibling? t hcons.1
            have hcmem : c ∈ (DevForest.cons t rest).preorder := by
              rw [hfirst]
              simp only [DevForest.preorder, List.mem_append]
              exact Or.inl (DevTree.inst_mem_preorder t)
            exact walkLoop_chain reg start indent deviceAddress (DevForest.cons t rest).preorder
              (fun x hx => (hlocal x hx).1) (fun x hx => (hlocal x hx).2)
              LOOP_SANITY_LIMIT ⟨c, indent + 1, 1, stack_push [] 0⟩ [] hcmem
              (by simp [stack_push]; omega)
              (by
                simp only [stack_push, ParentChain]
                left
                rw [hfirst]
                exact ⟨trivial, trivial, hroot.1⟩)
              pre it post htrace
  obtain ⟨hmem, hch⟩ := hchain
  rw [List.nil_append] at hch
  cases hst : it.state.nodeStack with
  | nil =>
      rw [hst] at hch
      simp [ParentChain] at hch
  | cons v rest =>
      rw [hst] at hch hpn
      simp only [ParentChain] at hch
      have hpv : r.parentNode = v := by rw [hpn]; rfl
      rcases hch with ⟨_, hv0, hq⟩ | ⟨it', hit', hq, hmem', hn, _⟩
      · refine ⟨hmem, ?_, ?_, ⟨start, hq⟩, ?_⟩
        · intro _
          rw [hpv, hv0]
        · intro q hq' hne
          rw [hq] at hq'
          simp only [Option.some.injEq] at hq'
          exact absurd hq'.symm hne
        · intro hne
          exact absurd hq hne
      · refine ⟨hmem, ?_, ?_, ⟨_, hq⟩, ?_⟩
        · intro hs
          rw [hq] at hs
          simp only [Option.some.injEq] at hs
          rw [hs] at hmem'
          exact absurd hmem' hstart
        · intro q hq' _
          rw [hq] at hq'
          simp only [Option.some.injEq] at hq'
          exact ⟨it', hit', hq', by rw [hn, hpv]⟩
        · intro _
          exact ⟨it', hit', hq, by rw [hn, hpv]⟩

/-- Witness: the walk of `sampleLabelledRegistry`, at its second pass, which
stands on node 2 below node 1; the record of node 2 has the parentNode 1, the
node index of the pass on node 1. -/
theorem parentNode_reflects_registry_tree_witness :
    (isRegistryTree sampleLabelledRegistry 0 sampleChildren = true) ∧
    ((PrintDevinstChildren sampleLabelledRegistry 0 0 5).trace =
      [⟨⟨1, 1, 1, [0]⟩, some ⟨1, 0, "A", 5, 5, 1, 0⟩⟩] ++
        (⟨⟨2, 2, 2, [1, 0]⟩, some ⟨2, 0, "B", 5, 5, 2, 1⟩⟩ : Iter) ::
          [⟨⟨3, 1, 3, [0]⟩, some ⟨1, 0, "C", 5, 5, 3, 0⟩⟩]) ∧
    (∀ q, sampleLabelledRegistry.CM_Get_Parent 2 = some q → q ≠ 0 →
      ∃ it' ∈ [(⟨⟨1, 1, 1, [0]⟩, some ⟨1, 0, "A", 5, 5, 1, 0⟩⟩ : Iter)],
        it'.state.current = q ∧
          it'.state.nextNode = (⟨2, 0, "B", 5, 5, 2, 1⟩ : DeviceInfo).parentNode) :=
  ⟨by decide, by decide,
    (parentNode_reflects_registry_tree sampleLabelledRegistry 0 0 5 sampleChildren (by decide)
      [⟨⟨1, 1, 1, [0]⟩, some ⟨1, 0, "A", 5, 5, 1, 0⟩⟩]
      [⟨⟨3, 1, 3, [0]⟩, some ⟨1, 0, "C", 5, 5, 3, 0⟩⟩]
      ⟨⟨2, 2, 2, [1, 0]⟩, some ⟨2, 0, "B", 5, 5, 2, 1⟩⟩ ⟨2, 0, "B", 5, 5, 2, 1⟩
      (by decide) rfl).2.2.1⟩

end USBPcap

namespace USBPcap
open USBPcapHelper

/-! ### Hub device names -/

/-- The comparison of `EnumerateHub` with the link prefix holds exactly for the
hub names that start with it. -/
theorem tcsncmp_linkPrefix (hub : CText) :
    tcsncmp_eq linkPrefix hub 4 = linkPrefix.isPrefixOf hub := by
  rcases hub with _ | ⟨a, _ | ⟨b, _ | ⟨c, _ | ⟨d, rest⟩⟩⟩⟩ <;>
    simp [tcsncmp_eq, linkPrefix, List.isPrefixOf]

/-- C26: for every hub name `EnumerateHub` builds the device name the
specification words: the device prefix followed by the name without its first 4
characters when the name starts with the link prefix, the name unchanged when it
otherwise starts with a backslash, the device prefix followed by the name in all
other cases; the allocated size is the length of the name plus 4 plus 1, the
result and its terminator fit in it, and no bounded copy or concatenation
fails. -/
theorem deviceName_normalised (hub : CText) :
    deviceName hub = some (specDeviceName hub) ∧
    deviceNameSize hub = hub.length + 4 + 1 ∧
    (specDeviceName hub).length + 1 ≤ deviceNameSize hub ∧
    _tcscpy_s (deviceNameSize hub) devicePrefix = some devicePrefix ∧
    (tcsncmp_eq linkPrefix hub 4 = true →
      _tcscat_s devicePrefix (deviceNameSize hub) (hub.drop 4) =
        some (devicePrefix ++ hub.drop 4)) ∧
    _tcscpy_s (deviceNameSize hub) hub = some hub ∧
    _tcscat_s devicePrefix (deviceNameSize hub) hub = some (devicePrefix ++ hub) := by
  have hsize : deviceNameSize hub = hub.length + 4 + 1 := rfl
  have hpre : devicePrefix.length = 4 := rfl
  have hcpy : _tcscpy_s (deviceNameSize hub) devicePrefix = some devicePrefix := by
    simp only [_tcscpy_s, hsize, hpre]
    rw [if_pos (by omega)]
  have hcat4 : _tcscat_s devicePrefix (deviceNameSize hub) (hub.drop 4) =
      some (devicePrefix ++ hub.drop 4) := by
    simp only [_tcscat_s, hsize, hpre, List.length_drop]
    rw [if_pos (by omega)]
  have hcpyhub : _tcscpy_s (deviceNameSize hub) hub = some hub := by
    simp only [_tcscpy_s, hsize]
    rw [if_pos (by omega)]
  have hcat : _tcscat_s devicePrefix (deviceNameSize hub) hub = some (devicePrefix ++ hub) := by
    simp only [_tcscat_s, hsize, hpre]
    rw [if_pos (by omega)]
  have hhead : (hub.headD (Char.ofNat 0) = backslash) ↔ [backslash].isPrefixOf hub = true := by
    cases hub with
    | nil => simp [List.isPrefixOf, backslash]
    | cons a rest =>
        simp only [List.headD_cons, List.isPrefixOf, Bool.and_true, beq_iff_eq]
        exact eq_comm
  refine ⟨?_, hsize, ?_, hcpy, fun _ => hcat4, hcpyhub, hcat⟩
  · unfold deviceName specDeviceName
    rw [tcsncmp_linkPrefix, hcpy]
    by_cases h1 : linkPrefix.isPrefixOf hub = true
    · simp only [h1, if_true]
      exact hcat4
    · simp only [h1, Bool.false_eq_true, if_false]
      by_cases h2 : [backslash].isPrefixOf hub = true
      · rw [if_pos (hhead.mpr h2), if_pos h2, hcpyhub]
      · rw [if_neg (fun h => h2 (hhead.mp h)), if_neg h2]
        exact hcat
  · unfold specDeviceName
    rw [hsize]
    split_ifs
    · simp only [List.length_append, hpre, List.length_drop]
      omega
    · omega
    · simp only [List.length_append, hpre]
      omega

/-- Witness: the hub name `sampleHubName`, for which the comparison with the link
prefix holds; the device name is the device prefix and `USB#ROOT_HUB`. -/
theorem deviceName_normalised_witness :
    (tcsncmp_eq linkPrefix sampleHubName 4 = true) ∧
    (deviceName sampleHubName = some (devicePrefix ++ "USB#ROOT_HUB".data)) ∧
    (_tcscat_s devicePrefix (deviceNameSize sampleHubName) (sampleHubName.drop 4) =
      some (devicePrefix ++ sampleHubName.drop 4)) :=
  ⟨by decide, by decide, (deviceName_normalised sampleHubName).2.2.2.2.1 (by decide)⟩

end USBPcap

namespace USBPcap
open USBPcapHelper

/-! ### The records of a port in a hub pass -/

theorem getLast?_cons_of_some {α : Type} (a : α) (l : List α) (x : α)
    (h : l.getLast? = some x) : (a :: l).getLast? = some x := by
  cases l with
  | nil => simp at h
  | cons b t =>
      rw [List.getLast?_cons_cons]
      exact h

/-- The inner loop of `PrintDeviceDesc` never ends the search as found. -/
theorem searchAscend_not_found (reg : Registry) :
    ∀ (budget : Nat) (devInst : DEVINST),
      searchAscend reg budget devInst ≠ SearchNext.done SearchExit.found := by
  intro budget
  induction budget with
  | zero => intro devInst; simp [searchAscend]
  | succ b ih =>
      intro devInst
      simp only [searchAscend]
      cases reg.CM_Get_Sibling devInst with
      | CR_SUCCESS y => simp
      | CR_NO_SUCH_DEVNODE =>
          cases reg.CM_Get_Parent devInst with
          | none => simp
          | some q => exact ih q
      | error cr => simp

/-- The search of `PrintDeviceDesc` emits records only when it ends on a node
with the driver name looked for, the last node it visited, and that node has a
device description: then the record of the device itself, with the node index 0
and the parentNode 0, followed by the records of the walk below that node when
`PrintAllChildren` is set. -/
theorem searchLoop_records (reg : Registry) (DriverName : String) (Index Level : Nat)
    (PrintAllChildren : Bool) (deviceAddress parentAddress : Nat) :
    ∀ (budget : Nat) (devInst : DEVINST),
      ((searchLoop reg DriverName Index Level PrintAllChildren deviceAddress parentAddress
          budget devInst).exit = SearchExit.found →
        ∃ x, (searchLoop reg DriverName Index Level PrintAllChildren deviceAddress
            parentAddress budget devInst).visited.getLast? = some x ∧
          (∃ buf, reg.DRIVER x = DriverResult.CR_SUCCESS buf ∧
            tcsicmp_eq DriverName buf = true) ∧
          (searchLoop reg DriverName Index Level PrintAllChildren deviceAddress parentAddress
              budget devInst).records =
            match reg.DEVICEDESC x with
            | some desc =>
                ⟨Level, Index, desc, deviceAddress, parentAddress, 0, 0⟩ ::
                  (if PrintAllChildren = true then
                    (PrintDevinstChildren reg x Level deviceAddress).records
                  else [])
            | none => []) ∧
      ((searchLoop reg DriverName Index Level PrintAllChildren deviceAddress parentAddress
          budget devInst).exit ≠ SearchExit.found →
        (searchLoop reg DriverName Index Level PrintAllChildren deviceAddress parentAddress
          budget devInst).records = []) := by
  intro budget
  induction budget with
  | zero =>
      intro devInst
      simp [searchLoop]
  | succ b ih =>
      intro devInst
      have hgo : ∀ (S : Search),
          S = (match searchStep reg devInst with
            | .next next =>
                ⟨devInst :: (searchLoop reg DriverName Index Level PrintAllChildren
                    deviceAddress parentAddress b next).visited,
                  (searchLoop reg DriverName Index Level PrintAllChildren
                    deviceAddress parentAddress b next).records,
                  (searchLoop reg DriverName Index Level PrintAllChildren
                    deviceAddress parentAddress b next).exit⟩
            | .done exit => ⟨[devInst], [], exit⟩) →
          (S.exit = SearchExit.found →
            ∃ x, S.visited.getLast? = some x ∧
              (∃ buf, reg.DRIVER x = DriverResult.CR_SUCCESS buf ∧
                tcsicmp_eq DriverName buf = true) ∧
              S.records =
                match reg.DEVICEDESC x with
                | some desc =>
                    ⟨Level, Index, desc, deviceAddress, parentAddress, 0, 0⟩ ::
                      (if PrintAllChildren = true then
                        (PrintDevinstChildren reg x Level deviceAddress).records
                      else [])
                | none => []) ∧
          (S.exit ≠ SearchExit.found → S.records = []) := by
        intro S hS
        cases hs : searchStep reg devInst with
        | next next =>
            rw [hs] at hS
            simp only at hS
            subst hS
            simp only
            refine ⟨?_, (ih next).2⟩
            intro hf
            obtain ⟨x, hlast, hdrv, hrec⟩ := (ih next).1 hf
            exact ⟨x, getLast?_cons_of_some devInst _ x hlast, hdrv, hrec⟩
        | done e =>
            rw [hs] at hS
            simp only at hS
            subst hS
            simp only
            refine ⟨?_, fun _ => trivial⟩
            intro hf
            exfalso
            subst hf
            unfold searchStep at hs
            cases hc : reg.CM_Get_Child devInst with
            | some c => simp [hc] at hs
            | none =>
                simp only [hc] at hs
                exact searchAscend_not_found reg LOOP_SANITY_LIMIT devInst hs
      cases hd : reg.DRIVER devInst with
      | CR_SUCCESS buf =>
          by_cases ht : tcsicmp_eq DriverName buf = true
          · cases hdesc : reg.DEVICEDESC devInst with
            | some desc =>
                simp only [searchLoop, hd, ht, if_true, hdesc]
                refine ⟨fun _ => ⟨devInst, rfl, ⟨buf, hd, ht⟩, ?_⟩, fun h => absurd rfl h⟩
                rw [hdesc]
            | none =>
                simp only [searchLoop, hd, ht, if_true, hdesc]
                refine ⟨fun _ => ⟨devInst, rfl, ⟨buf, hd, ht⟩, ?_⟩, fun _ => trivial⟩
                rw [hdesc]
          · exact hgo _ (by simp only [searchLoop, hd, ht]; rfl)
      | CR_NO_SUCH_VALUE =>
          exact hgo _ (by simp only [searchLoop, hd])
      | error cr =>
          simp [searchLoop, hd]

/-- What `PrintDeviceDesc` emits: nothing unless the search ends on a node with
the driver name, and then, after the description of that node, what
`searchLoop_records` tells. -/
theorem PrintDeviceDesc_records (reg : Registry) (DriverName : String) (Index Level : Nat)
    (PrintAllChildren : Bool) (deviceAddress parentAddress : Nat) :
    ((PrintDeviceDesc reg DriverName Index Level PrintAllChildren deviceAddress
        parentAddress).exit = SearchExit.found →
      ∃ x, (PrintDeviceDesc reg DriverName Index Level PrintAllChildren deviceAddress
          parentAddress).visited.getLast? = some x ∧
        (PrintDeviceDesc reg DriverName Index Level PrintAllChildren deviceAddress
            parentAddress).records =
          match reg.DEVICEDESC x with
          | some desc =>
              ⟨Level, Index, desc, deviceAddress, parentAddress, 0, 0⟩ ::
                (if PrintAllChildren = true then
                  (PrintDevinstChildren reg x Level deviceAddress).records
                else [])
          | none => []) ∧
    ((PrintDeviceDesc reg DriverName Index Level PrintAllChildren deviceAddress
        parentAddress).exit ≠ SearchExit.found →
      (PrintDeviceDesc reg DriverName Index Level PrintAllChildren deviceAddress
        parentAddress).records = []) := by
  unfold PrintDeviceDesc
  cases reg.CM_Locate_DevNode with
  | none => simp
  | some root =>
      have h := searchLoop_records reg DriverName Index Level PrintAllChildren deviceAddress
        parentAddress LOOP_SANITY_LIMIT root
      refine ⟨?_, h.2⟩
      intro hf
      obtain ⟨x, hlast, _, hrec⟩ := h.1 hf
      exact ⟨x, hlast, hrec⟩

/-- The node index of every record of `PrintDevinstChildren` is at least 1. -/
theorem PrintDevinstChildren_node_pos (reg : Registry) (parent : DEVINST)
    (indent deviceAddress : Nat) :
    ∀ r ∈ (PrintDevinstChildren reg parent indent deviceAddress).records, 1 ≤ r.node := by
  have hcb := walkLoop_callback reg parent indent deviceAddress LOOP_SANITY_LIMIT
    (match reg.CM_Get_Child parent with
      | some next => ⟨next, indent + 1, 1, stack_push [] 0⟩
      | none => ⟨parent, indent, 1, []⟩)
  have hnum : Numbered 1 (PrintDevinstChildren reg parent indent deviceAddress).trace := by
    unfold PrintDevinstChildren PrintDevinstChildrenWithin
    cases hc : reg.CM_Get_Child parent with
    | none =>
        exact walkLoop_numbered reg parent indent deviceAddress LOOP_SANITY_LIMIT
          ⟨parent, indent, 1, []⟩ (show 1 + LOOP_SANITY_LIMIT ≤ 65536 by decide) (by simp)
    | some next =>
        exact walkLoop_numbered reg parent indent deviceAddress LOOP_SANITY_LIMIT
          ⟨next, indent + 1, 1, stack_push [] 0⟩ (show 1 + LOOP_SANITY_LIMIT ≤ 65536 by decide)
          (by simp [stack_push])
  intro r hr
  exact ((numbered_records reg deviceAddress _ 1 (le_refl 1) hnum hcb).1 r hr).1

/-- C24 as stated fails: in a hub pass with a print visitor, the connected
device on port 1 of `sampleKeylessHub`, whose driver key name is not obtained,
gets no call of `PrintDeviceDesc` and so no record; and a connected port whose
driver key name is carried by no node of the registry (`usb0009`), or by a node
without a device description (`usb0002`), gets no record either. -/
theorem connected_port_without_record :
    ((USBPcapHelper.deviceInfo 1 0x046d 0xc077).ConnectionStatus ≠
      USB_CONNECTION_STATUS.NoDeviceConnected) ∧
    (hubPrinted true sampleKeylessHub none 0 = []) ∧
    ((portSearch compositeRegistry "usb0009" (USBPcapHelper.deviceInfo 1 0x046d 0xc077)
      1 0 0).records = []) ∧
    ((portSearch compositeRegistry "usb0002" (USBPcapHelper.deviceInfo 1 0x046d 0xc077)
      1 0 0).records = []) := by
  decide

/-- C24 as amended: in a hub pass with a print visitor, a connected port gets one
call of `PrintDeviceDesc` when its driver key name is obtained and none
otherwise, before the pass of the hub behind it, whose ports are handled with
the device address of that hub as hubAddress (0 for the root hub). When the
search of that call ends on a node with a device description, the record of the
device itself is emitted first, with node = 0, parentNode = 0, port = the port
index and parentAddress = hubAddress, followed by the records of the walk below
that node when the device is not a hub and by nothing when it is a hub; in all
other cases no record is emitted. The records after the first have node != 0,
and records with node != 0 are emitted only for ports whose device is not a
hub. -/
theorem port_records (reg : Registry) (driverKeyName : String)
    (info : USB_NODE_CONNECTION_INFORMATION) (driverKey : Bool) (ext : Hub)
    (index level hubAddress : Nat)
    (hconn : info.ConnectionStatus ≠ USB_CONNECTION_STATUS.NoDeviceConnected) :
    (portPrinted true (Port.conn info driverKey ext) index level hubAddress =
      (if driverKey = true then
        [⟨index, level, !info.DeviceIsHub, info.DeviceAddress, hubAddress⟩] else []) ++
        (if info.DeviceIsHub = true then hubPrinted true ext (some info) (level + 1)
          else [])) ∧
    (∀ (ports : Ports) (ci : Option USB_NODE_CONNECTION_INFORMATION) (lvl : Nat),
      hubPrinted true (Hub.node ports) ci lvl =
        portsPrinted true ports 1 lvl (hubAddressOf ci)) ∧
    (hubAddressOf none = 0 ∧ hubAddressOf (some info) = info.DeviceAddress) ∧
    (∀ x desc,
      (portSearch reg driverKeyName info index level hubAddress).exit = SearchExit.found →
      (portSearch reg driverKeyName info index level hubAddress).visited.getLast? = some x →
      reg.DEVICEDESC x = some desc →
      (portSearch reg driverKeyName info index level hubAddress).records =
        ⟨level, index, desc, info.DeviceAddress, hubAddress, 0, 0⟩ ::
          (if info.DeviceIsHub = true then []
            else (PrintDevinstChildren reg x level info.DeviceAddress).records)) ∧
    (((portSearch reg driverKeyName info index level hubAddress).exit ≠ SearchExit.found ∨
        ∃ x, (portSearch reg driverKeyName info index level hubAddress).visited.getLast? =
            some x ∧ reg.DEVICEDESC x = none) →
      (portSearch reg driverKeyName info index level hubAddress).records = []) ∧
    (∀ r, (portSearch reg driverKeyName info index level hubAddress).records.head? = some r →
      r.node = 0 ∧ r.parentNode = 0 ∧ r.port = index ∧ r.level = level ∧
        r.deviceAddress = info.DeviceAddress ∧ r.parentAddress = hubAddress) ∧
    (∀ r ∈ (portSearch reg driverKeyName info index level hubAddress).records.tail,
      r.node ≠ 0) ∧
    (∀ r ∈ (portSearch reg driverKeyName info index level hubAddress).records,
      r.node ≠ 0 → info.DeviceIsHub = false) := by
  have hS := PrintDeviceDesc_records reg driverKeyName index level (!info.DeviceIsHub)
    info.DeviceAddress hubAddress
  have hsub : ∀ x, ∀ r ∈ (if (!info.DeviceIsHub) = true then
      (PrintDevinstChildren reg x level info.DeviceAddress).records else []),
      r.node ≠ 0 ∧ info.DeviceIsHub = false := by
    intro x r hr
    cases hh : info.DeviceIsHub with
    | true => simp [hh] at hr
    | false =>
        simp only [hh, Bool.not_false, if_true] at hr
        have := PrintDevinstChildren_node_pos reg x level info.DeviceAddress r hr
        exact ⟨by omega, rfl⟩
  have hshape : (portSearch reg driverKeyName info index level hubAddress).records = [] ∨
      ∃ x desc,
        (portSearch reg driverKeyName info index level hubAddress).exit = SearchExit.found ∧
        (portSearch reg driverKeyName info index level hubAddress).visited.getLast? = some x ∧
        reg.DEVICEDESC x = some desc ∧
        (portSearch reg driverKeyName info index level hubAddress).records =
          ⟨level, index, desc, info.DeviceAddress, hubAddress, 0, 0⟩ ::
            (if (!info.DeviceIsHub) = true then
              (PrintDevinstChildren reg x level info.DeviceAddress).records else []) := by
    unfold portSearch
    by_cases hf : (PrintDeviceDesc reg driverKeyName index level (!info.DeviceIsHub)
        info.DeviceAddress hubAddress).exit = SearchExit.found
    · obtain ⟨x, hlast, hrec⟩ := hS.1 hf
      cases hdesc : reg.DEVICEDESC x with
      | none =>
          left
          rw [hrec, hdesc]
      | some desc =>
          right
          refine ⟨x, desc, hf, hlast, hdesc, ?_⟩
          rw [hrec, hdesc]
    · exact Or.inl (hS.2 hf)
  refine ⟨?_, ?_, ⟨rfl, rfl⟩, ?_, ?_, ?_, ?_, ?_⟩
  · unfold portPrinted
    simp only [EnumeratePort, ne_eq, hconn, not_false_eq_true, if_true]
    cases hh : info.DeviceIsHub with
    | true =>
        simp only [if_true]
        rw [EnumerateHub_printed_append, portVisitorStep_printed, printVisitorStep_printed]
        simp [hh]
    | false =>
        simp only [Bool.false_eq_true, if_false]
        rw [portVisitorStep_printed, printVisitorStep_printed]
        simp [hh]
  · intro ports ci lvl
    unfold hubPrinted portsPrinted
    cases ci <;> rfl
  · intro x desc hf hlast hdesc
    rcases hshape with h | ⟨x', desc', _, hlast', hdesc', hrec⟩
    · unfold portSearch at hf hlast h
      obtain ⟨x', hlast', hrec⟩ := hS.1 hf
      rw [hlast] at hlast'
      simp only [Option.some.injEq] at hlast'
      subst hlast'
      rw [hrec, hdesc] at h
      simp at h
    · rw [hlast] at hlast'
      simp only [Option.some.injEq] at hlast'
      subst hlast'
      rw [hdesc] at hdesc'
      simp only [Option.some.injEq] at hdesc'
      subst hdesc'
      rw [hrec]
      cases info.DeviceIsHub <;> simp
  · intro h
    rcases h with h | ⟨x, hlast, hdesc⟩
    · exact hS.2 h
    · rcases hshape with h' | ⟨x', desc', _, hlast', hdesc', _⟩
      · exact h'
      · rw [hlast] at hlast'
        simp only [Option.some.injEq] at hlast'
        subst hlast'
        rw [hdesc] at hdesc'
        simp at hdesc'
  · intro r hr
    rcases hshape with h | ⟨x, desc, _, _, _, hrec⟩
    · rw [h] at hr
      simp at hr
    · rw [hrec] at hr
      simp only [List.head?_cons, Option.some.injEq] at hr
      subst hr
      exact ⟨rfl, rfl, rfl, rfl, rfl, rfl⟩
  · intro r hr
    rcases hshape with h | ⟨x, desc, _, _, _, hrec⟩
    · rw [h] at hr
      simp at hr
    · rw [hrec] at hr
      simp only [List.tail_cons] at hr
      exact (hsub x r hr).1
  · intro r hr hnode
    rcases hshape with h | ⟨x, desc, _, _, _, hrec⟩
    · rw [h] at hr
      simp at hr
    · rw [hrec] at hr
      simp only [List.mem_cons] at hr
      rcases hr with hr | hr
      · subst hr
        exact absurd rfl hnode
      · exact (hsub x r hr).2

/-- Witness: port 2 of a root hub with a composite device at address 1, found in
`compositeRegistry` as node 1: its own record and the record of its sub-node
2. -/
theorem port_records_witness :
    ((USBPcapHelper.deviceInfo 1 0x046d 0xc077).ConnectionStatus ≠
      USB_CONNECTION_STATUS.NoDeviceConnected) ∧
    ((portSearch compositeRegistry "USB0001" (USBPcapHelper.deviceInfo 1 0x046d 0xc077)
      2 0 0).records = [⟨0, 2, "Composite", 1, 0, 0, 0⟩, ⟨1, 0, "B", 1, 1, 1, 0⟩]) ∧
    ((portSearch compositeRegistry "USB0001" (USBPcapHelper.hubInfo 1) 2 0 0).records =
      [⟨0, 2, "Composite", 1, 0, 0, 0⟩]) ∧
    (∀ r ∈ (portSearch compositeRegistry "USB0001" (USBPcapHelper.deviceInfo 1 0x046d 0xc077)
      2 0 0).records.tail, r.node ≠ 0) :=
  ⟨by decide, by decide, by decide,
    (port_records compositeRegistry "USB0001" (USBPcapHelper.deviceInfo 1 0x046d 0xc077) true
      Hub.unavailable 2 0 0 (by decide)).2.2.2.2.2.2.1⟩

end USBPcap
